import Mathlib

/-!
# update_dyld_shared_cache

A shallow embedding of `dyld3/shared-cache/update_dyld_shared_cache.cpp`:
the classifier (`addIfMachO`), the candidate pruner (`dontCache`,
`pruneCachedDylibs`, `pruneOtherDylibs`, `pruneExecutables`), the freshness
check (`existingCacheUpToDate`) and `main` with its per-architecture build
block. The definitions come first, then the lemmas and the theorems on the
claims C1 to C10 of the specification.

Conventions of the embedding.

* `std::string` is `String`, a character for each `char` of the string;
  `std::vector` is `List` in insertion order;
  `std::unordered_set<std::string>` is a `List String` used only through
  membership; `std::unordered_map` is an association list searched from the
  front, with at most one pair per key.
* `const mach_header* mh` is the record `MachHeader` of what
  `dyld3::MachOParser` reads out of the mapped slice.
* The file system and the other collaborators are explicit parameters
  (`realpath`, and the fields of `World`); they answer the same way during
  one call.
* `fprintf(stderr, ...)` appends a line to a list of strings that is returned
  next to the value.
* A C++ exception that nothing catches (here `std::out_of_range` from
  `std::string::substr`) is the result `none`.
-/

set_option autoImplicit false

namespace UpdateDyldSharedCache

/-! ## Strings -/

/-- Modelled from the spec: `startsWith` is declared in `StringUtils.h`, which is
not among the sources; the spec describes its use as "path under a fixed
denylist of prefixes", so `startsWith str pre` tests whether `pre` is a
prefix of `str`. -/
def startsWith (str pre : String) : Bool :=
  pre.data.isPrefixOf str.data

/-- Search for `sub` in a list of characters, from left to right. -/
def findFrom : List Char → List Char → Bool
  | [], sub => sub.isPrefixOf []
  | c :: cs, sub => sub.isPrefixOf (c :: cs) || findFrom cs sub

/-- The test `str.find(sub) != std::string::npos`. -/
def contains (str sub : String) : Bool :=
  findFrom str.data sub.data

/-- The call `str.substr(pos)`: the characters of `str` from index `pos` on; it throws
`std::out_of_range` (here `none`) when `pos > str.size()`. -/
def substr (str : String) (pos : Nat) : Option String :=
  if pos ≤ str.length then some ⟨str.data.drop pos⟩ else none

/-! ## Data model -/

/-- The value `MH_DYLIB` of `<mach-o/loader.h>`. -/
def MH_DYLIB : Nat := 6

/-- What `dyld3::MachOParser` reads from a mapped Mach-O slice (`const mach_header*`). -/
structure MachHeader where
  /-- The result of `installName()`. -/
  installName : String
  /-- The load paths that `forEachDependentDylib` enumerates, in order. -/
  dependents : List String := []
  /-- The result of `isDynamicExecutable()`. -/
  isDynamicExecutable : Bool := false
  /-- The result of `canBePlacedInDyldCache(runtimePath)` at the path the file was found at. -/
  canBePlacedInDyldCache : Bool := true
  /-- The result of `fileType()`. -/
  fileType : Nat := MH_DYLIB
deriving DecidableEq, Repr

/-- The record `DyldSharedCache::MappedMachO`, with the fields in the order of the
constructor call in `addIfMachO`. -/
structure MappedMachO where
  runtimePath : String
  mh : MachHeader
  length : Nat := 0
  isSetUID : Bool := false
  protectedBySIP : Bool := false
  sliceFileOffset : Nat := 0
  modTime : Nat := 0
  inode : Nat := 0
deriving DecidableEq, Repr

/-- The `struct MappedMachOsByCategory`: one bucket per architecture. -/
structure MappedMachOsByCategory where
  archName : String
  dylibsForCache : List MappedMachO := []
  otherDylibsAndBundles : List MappedMachO := []
  mainExecutables : List MappedMachO := []
deriving DecidableEq, Repr

/-- The line `dontCache` prints for a double slash or an install name that does not
resolve to the runtime path. -/
def badInstallNameWarning (archName runtimePath : String) : String :=
  "update_dyld_shared_cache: warning: " ++ archName ++
    " skipping because of bad install name " ++ runtimePath ++ "\n"

/-- The line `dontCache` prints for a contested install name. -/
def duplicateInstallNameWarning (archName runtimePath : String) : String :=
  "update_dyld_shared_cache: warning: " ++ archName ++
    " skipping because of duplicate install name " ++ runtimePath ++ "\n"

/-- The statement `if (warn) fprintf(stderr, ...)`. -/
def warnIf (warn : Bool) (line : String) : List String :=
  if warn then [line] else []

/-! ## The pruner -/

/-- The function `dontCache` (source lines 344-406). The result is `none` when
`substr` throws, else the returned flag with the lines written to stderr. -/
def dontCache (realpath : String → Option String) (volumePrefix archName : String)
    (pathsWithDuplicateInstallName : List String) (aFile : MappedMachO) (warn : Bool)
    (skipDylibs : List String) : Option (Bool × List String) :=
  if aFile.runtimePath ∈ skipDylibs then some (true, [])
  else if startsWith aFile.runtimePath "/usr/lib/system/introspection/" then some (true, [])
  else if startsWith aFile.runtimePath "/System/Library/QuickTime/" then some (true, [])
  else if startsWith aFile.runtimePath "/System/Library/Tcl/" then some (true, [])
  else if startsWith aFile.runtimePath "/System/Library/Perl/" then some (true, [])
  else if startsWith aFile.runtimePath "/System/Library/MonitorPanels/" then some (true, [])
  else if startsWith aFile.runtimePath "/System/Library/Accessibility/" then some (true, [])
  else if startsWith aFile.runtimePath "/usr/local/" then some (true, [])
  else if contains aFile.runtimePath ".app/" then some (true, [])
  else if archName = "i386" ∧ startsWith aFile.runtimePath "/System/Library/CoreServices/" then
    some (true, [])
  else if archName = "i386" ∧ startsWith aFile.runtimePath "/System/Library/Extensions/" then
    some (true, [])
  else if contains aFile.runtimePath "//" then
    some (true, warnIf warn (badInstallNameWarning archName aFile.runtimePath))
  else
    let installName := aFile.mh.installName
    if aFile.runtimePath ∈ pathsWithDuplicateInstallName ∧ aFile.runtimePath ≠ installName then
      some (true, warnIf warn (duplicateInstallNameWarning archName aFile.runtimePath))
    else if aFile.runtimePath ≠ installName then
      let fullInstall := volumePrefix ++ installName
      match realpath fullInstall with
      | some resolvedPath =>
        match (if volumePrefix = "" then some resolvedPath
               else substr resolvedPath volumePrefix.length) with
        | none => none
        | some resolvedSymlink =>
          if aFile.runtimePath = resolvedSymlink then some (false, [])
          else some (true, warnIf warn (badInstallNameWarning archName aFile.runtimePath))
      | none => some (true, warnIf warn (badInstallNameWarning archName aFile.runtimePath))
    else some (false, [])

/-- The call `set.insert(x)` on an `unordered_set`. -/
def setInsert (set : List String) (x : String) : List String :=
  if x ∈ set then set else set ++ [x]

/-- One round of the first loop of `pruneCachedDylibs` (source lines 413-424), on the pair
`(installNameToFirstPath, pathsWithDuplicateInstallName)`. -/
def recordInstallName (state : List (String × String) × List String) (aFile : MappedMachO) :
    List (String × String) × List String :=
  let installName := aFile.mh.installName
  match state.1.lookup installName with
  | none => (state.1 ++ [(installName, aFile.runtimePath)], state.2)
  | some firstPath => (state.1, setInsert (setInsert state.2 aFile.runtimePath) firstPath)

/-- The set `pathsWithDuplicateInstallName` once the first loop of `pruneCachedDylibs` is
over. -/
def findDuplicateInstallNames (dylibsForCache : List MappedMachO) : List String :=
  (dylibsForCache.foldl recordInstallName ([], [])).2

/-- The second loop of `pruneCachedDylibs` (source lines 426-429): every candidate for which
`dontCache` (with `warn` set) answers true is appended to `otherDylibsAndBundles`. -/
def demoteLoop (realpath : String → Option String) (volumePrefix archName : String)
    (dups skipDylibs : List String) :
    List MappedMachO → List MappedMachO → List String → Option (List MappedMachO × List String)
  | [], others, err => some (others, err)
  | aFile :: rest, others, err =>
    match dontCache realpath volumePrefix archName dups aFile true skipDylibs with
    | none => none
    | some (true, lines) =>
      demoteLoop realpath volumePrefix archName dups skipDylibs rest (others ++ [aFile]) (err ++ lines)
    | some (false, lines) =>
      demoteLoop realpath volumePrefix archName dups skipDylibs rest others (err ++ lines)

/-- The `erase(remove_if(...))` of `pruneCachedDylibs` (source lines 430-432): the
candidates for which `dontCache` (with `warn` clear) answers false, in order. -/
def removeIfDontCache (realpath : String → Option String) (volumePrefix archName : String)
    (dups skipDylibs : List String) :
    List MappedMachO → Option (List MappedMachO × List String)
  | [] => some ([], [])
  | aFile :: rest =>
    match dontCache realpath volumePrefix archName dups aFile false skipDylibs with
    | none => none
    | some (flag, lines) =>
      match removeIfDontCache realpath volumePrefix archName dups skipDylibs rest with
      | none => none
      | some (kept, more) => some (if flag then kept else aFile :: kept, lines ++ more)

/-- The function `pruneCachedDylibs` (source lines 408-433): the pruned bucket and the lines
written to stderr, or `none` when a call of `dontCache` throws. -/
def pruneCachedDylibs (realpath : String → Option String) (volumePrefix : String)
    (skipDylibs : List String) (fileSet : MappedMachOsByCategory) :
    Option (MappedMachOsByCategory × List String) :=
  let pathsWithDuplicateInstallName := findDuplicateInstallNames fileSet.dylibsForCache
  match demoteLoop realpath volumePrefix fileSet.archName pathsWithDuplicateInstallName skipDylibs
      fileSet.dylibsForCache fileSet.otherDylibsAndBundles [] with
  | none => none
  | some (others, err) =>
    match removeIfDontCache realpath volumePrefix fileSet.archName pathsWithDuplicateInstallName
        skipDylibs fileSet.dylibsForCache with
    | none => none
    | some (kept, more) =>
      some ({ fileSet with dylibsForCache := kept, otherDylibsAndBundles := others }, err ++ more)

/-- The function `pruneOtherDylibs` (source lines 435-441). -/
def pruneOtherDylibs (_volumePrefix : String) (fileSet : MappedMachOsByCategory) :
    MappedMachOsByCategory :=
  { fileSet with
    otherDylibsAndBundles :=
      fileSet.otherDylibsAndBundles.filter (fun aFile => !contains aFile.runtimePath ".app/") }

/-- The function `pruneExecutables` (source lines 444-459). -/
def pruneExecutables (_volumePrefix : String) (fileSet : MappedMachOsByCategory) :
    MappedMachOsByCategory :=
  { fileSet with
    mainExecutables :=
      fileSet.mainExecutables.filter (fun aFile =>
        !(startsWith aFile.runtimePath "/usr/bin/" &&
          aFile.mh.dependents.any (fun loadPath => loadPath == "/usr/lib/libxcselect.dylib"))) }

/-! ## The classifier -/

/-- Modelled from the spec: `endsWith` is declared in `StringUtils.h`, which is not among
the sources; the spec describes its use as "runtime path ends in debug/profile suffixes",
so `endsWith str suffix` tests whether `suffix` is a suffix of `str`. -/
def endsWith (str suffix : String) : Bool :=
  suffix.data.isSuffixOf str.data

/-- The fields of `struct stat` that the program reads. -/
structure Stat where
  st_size : Nat := 0
  st_mode : Nat := 0
  st_mtime : Nat := 0
  st_ino : Nat := 0
deriving DecidableEq, Repr

/-- What `dyld3::FatUtil::isFatFileWithSlice`, `mmap` of the slice and
`dyld3::MachOParser::isValidMachO` answer for one file and one architecture. -/
structure SliceView where
  /-- The result of `isFatFileWithSlice`, with its three out-parameters. -/
  isFatFileWithSlice : Bool := false
  sliceOffset : Nat := 0
  sliceLength : Nat := 0
  fatButMissingSlice : Bool := false
  /-- Whether `mmap` of the slice succeeds. -/
  sliceMaps : Bool := true
  /-- The result of `isValidMachO` on the slice. -/
  sliceIsValidMachO : Bool := false
  /-- The result of `isValidMachO` on the whole file. -/
  wholeFileIsValidMachO : Bool := false
  /-- The warnings these calls leave in `diag`. -/
  warnings : List String := []
  /-- The header of the slice (of the whole file for a thin file). -/
  mh : MachHeader

/-- A file that `::open` opened: whether `mmap` of the whole file succeeds, what each
architecture sees in it, and the answer of `isProtectedBySIP(fd)`. -/
structure OpenedFile where
  wholeFileMaps : Bool := true
  view : String → SliceView
  protectedBySIP : Bool := false

/-- The value `S_ISUID | S_ISGID`. -/
def S_ISUID_or_S_ISGID : Nat := 0o6000

/-- The body of the loop of `addIfMachO` over the buckets (source lines 162-229), for one
bucket: whether `result` is set, the bucket afterwards and the lines written to stderr. -/
def addSliceToBucket (opened : OpenedFile) (runtimePath : String) (statBuf : Stat)
    (requireSIP : Bool) (file : MappedMachOsByCategory) :
    Bool × MappedMachOsByCategory × List String :=
  let view := opened.view file.archName
  let slice : Option (Nat × Nat) :=
    if view.isFatFileWithSlice then
      if view.sliceMaps && view.sliceIsValidMachO then some (view.sliceLength, view.sliceOffset)
      else none
    else if !view.fatButMissingSlice && view.wholeFileIsValidMachO then some (statBuf.st_size, 0)
    else none
  let nonArchWarnings := view.warnings.filter (fun warning =>
    !contains warning "required architecture" && !contains warning "not a dylib")
  let lines :=
    if nonArchWarnings.isEmpty then []
    else ["update_dyld_shared_cache: warning: " ++ file.archName ++ " for " ++ runtimePath ++
      ": " ++ String.join (nonArchWarnings.map (fun warning => warning ++ " ")) ++ "\n"]
  match slice with
  | none => (false, file, lines)
  | some (sliceLength, sliceOffset) =>
    let mh := view.mh
    let sipProtected := opened.protectedBySIP
    let entry (issetuid : Bool) : MappedMachO :=
      { runtimePath := runtimePath, mh := mh, length := sliceLength, isSetUID := issetuid,
        protectedBySIP := sipProtected, sliceFileOffset := sliceOffset,
        modTime := statBuf.st_mtime, inode := statBuf.st_ino }
    if mh.isDynamicExecutable then
      if !requireSIP || sipProtected then
        let issetuid := (statBuf.st_mode &&& S_ISUID_or_S_ISGID) != 0
        (true, { file with mainExecutables := file.mainExecutables ++ [entry issetuid] }, lines)
      else (true, file, lines)
    else if mh.canBePlacedInDyldCache then
      if !requireSIP || sipProtected then
        (true, { file with dylibsForCache := file.dylibsForCache ++ [entry false] }, lines)
      else
        (true, { file with otherDylibsAndBundles := file.otherDylibsAndBundles ++ [entry false] },
          lines)
    else
      let rpathLines :=
        if mh.fileType = MH_DYLIB ∧ startsWith mh.installName "@" ∧
            contains runtimePath ".app/" = false ∧
            (startsWith runtimePath "/usr/lib/" ∨ startsWith runtimePath "/System/Library/") then
          ["update_dyld_shared_cache: warning @rpath install name for system framework: " ++
            runtimePath ++ "\n"]
        else []
      (true, { file with otherDylibsAndBundles := file.otherDylibsAndBundles ++ [entry false] },
        lines ++ rpathLines)

/-- The loop of `addIfMachO` over the buckets. -/
def addSlices (opened : OpenedFile) (runtimePath : String) (statBuf : Stat) (requireSIP : Bool) :
    List MappedMachOsByCategory → Bool × List MappedMachOsByCategory × List String
  | [] => (false, [], [])
  | file :: rest =>
    let first := addSliceToBucket opened runtimePath statBuf requireSIP file
    let others := addSlices opened runtimePath statBuf requireSIP rest
    (first.1 || others.1, first.2.1 :: others.2.1, first.2.2 ++ others.2.2)

/-- The function `addIfMachO` (source lines 146-235): its result, the buckets afterwards and
the lines written to stderr. `openFile fullPath` is what `::open` finds at the path. -/
def addIfMachO (openFile : String → Option OpenedFile) (pathPrefix runtimePath : String)
    (statBuf : Stat) (requireSIP : Bool) (files : List MappedMachOsByCategory) :
    Bool × List MappedMachOsByCategory × List String :=
  if endsWith runtimePath "_profile.dylib" || endsWith runtimePath "_debug.dylib" ||
      endsWith runtimePath "_profile" || endsWith runtimePath "_debug" then
    (false, files, [])
  else
    let fullPath := pathPrefix ++ runtimePath
    match openFile fullPath with
    | none => (false, files, [])
    | some opened =>
      if opened.wholeFileMaps then addSlices opened runtimePath statBuf requireSIP files
      else (false, files, [])

/-! ## The freshness check -/

/-- One entry of the image table of an existing cache, as `forEachImageEntry` passes it to
its callback. -/
structure ImageEntry where
  installName : String
  mTime : Nat
  inode : Nat
deriving DecidableEq, Repr

/-- What `existingCacheUpToDate` finds at the path of the existing cache. -/
inductive CacheFile where
  /-- The call of `::open` fails. -/
  | cannotOpen
  /-- The file opens and `mmap` returns `MAP_FAILED`. -/
  | cannotMap
  /-- The file is mapped and `forEachImageEntry` enumerates `entries`. -/
  | mapped (entries : List ImageEntry)
deriving DecidableEq, Repr

/-- The assignment `map[key] = value` on an `unordered_map`. -/
def mapAssign (map : List (String × MappedMachO)) (key : String) (value : MappedMachO) :
    List (String × MappedMachO) :=
  if (map.lookup key).isSome then
    map.map (fun pair => if pair.1 = key then (key, value) else pair)
  else map ++ [(key, value)]

/-- The map `currentDylibMap` of `existingCacheUpToDate` (source lines 469-473). -/
def buildCurrentDylibMap (currentDylibs : List MappedMachO) : List (String × MappedMachO) :=
  currentDylibs.foldl (fun map aFile => mapAssign map aFile.runtimePath aFile) []

/-- The callback that `existingCacheUpToDate` passes to `forEachImageEntry` (source lines
481-505), on the pair of `foundMismatch` and the lines written to stderr. -/
def checkImageEntry (verbose : Bool) (currentDylibMap : List (String × MappedMachO))
    (currentDylibs : List MappedMachO) (state : Bool × List String) (entry : ImageEntry) :
    Bool × List String :=
  let foundMatch :=
    match currentDylibMap.lookup entry.installName with
    | some foundDylib => foundDylib.inode == entry.inode && foundDylib.modTime == entry.mTime
    | none => false
  if foundMatch then state
  else
    let foundSlow :=
      currentDylibs.any (fun aFile => aFile.inode == entry.inode && aFile.modTime == entry.mTime)
    if foundSlow then state
    else
      (true, state.2 ++ (if verbose then
        ["rebuilding dyld cache because dylib changed: " ++ entry.installName ++ "\n"] else []))

/-- The function `existingCacheUpToDate` (source lines 461-512): its result and the lines
written to stderr. `openCache existingCache` is what is found at the path. -/
def existingCacheUpToDate (openCache : String → CacheFile) (verbose : Bool)
    (existingCache : String) (currentDylibs : List MappedMachO) : Bool × List String :=
  match openCache existingCache with
  | CacheFile.cannotOpen => (false, [])
  | CacheFile.cannotMap => (true, [])
  | CacheFile.mapped entries =>
    let currentDylibMap := buildCurrentDylibMap currentDylibs
    let final := entries.foldl (checkImageEntry verbose currentDylibMap currentDylibs) (false, [])
    (!final.1, final.2)

/-! ## Closure verification -/

/-- Whether `loadPath` is the install name of a candidate of `working`. -/
def hasInstallName (working : List MappedMachO) (loadPath : String) : Bool :=
  working.any (fun candidate => candidate.mh.installName == loadPath)

/-- Modelled from the spec: part of `DyldSharedCache::verifySelfContained`, which is defined
in `DyldSharedCache.cpp` and is not among the sources. Section 4.3: "For each dependency
load path not already present as an install name in the working set, invoke the loader. If
the loader produces a candidate, add it to the working set and to the packable-dylibs
sequence [...]. If the loader produces nothing, the requesting candidate is unsatisfiable:
mark it for exclusion, recording the unresolved dependency path as a reason." The result
is the working sequence afterwards and the unresolved load paths. -/
def resolveDependents (loader : String → Option MappedMachO) :
    List MappedMachO → List String → List MappedMachO × List String
  | working, [] => (working, [])
  | working, loadPath :: rest =>
    if hasInstallName working loadPath then resolveDependents loader working rest
    else
      match loader loadPath with
      | some found => resolveDependents loader (working ++ [found]) rest
      | none =>
        let later := resolveDependents loader working rest
        (later.1, loadPath :: later.2)

/-- Modelled from the spec: part of `DyldSharedCache::verifySelfContained` (not among the
sources). Section 4.3: "For every candidate, enumerate its declared dependency entries":
the candidates of the working sequence are examined from position `pos` on, those that the
loader adds included. `fuel` bounds the number of candidates examined: the spec asks that
the step "must not loop forever", which a loader over a finite file system ensures. -/
def expandClosure (loader : String → Option MappedMachO) :
    Nat → Nat → List MappedMachO → List (MappedMachO × List String) →
    List MappedMachO × List (MappedMachO × List String)
  | 0, _, working, marked => (working, marked)
  | fuel + 1, pos, working, marked =>
    match working.get? pos with
    | none => (working, marked)
    | some candidate =>
      let resolved := resolveDependents loader working candidate.mh.dependents
      expandClosure loader fuel (pos + 1) resolved.1
        (if resolved.2.isEmpty then marked else marked ++ [(candidate, resolved.2.dedup)])

/-- The dependency load paths of `candidate` that are not install names in `kept`. -/
def missingDependents (kept : List MappedMachO) (candidate : MappedMachO) : List String :=
  candidate.mh.dependents.filter (fun loadPath => !hasInstallName kept loadPath)

/-- Modelled from the spec: part of `DyldSharedCache::verifySelfContained` (not among the
sources). Section 4.3: "Exclusion must propagate transitively - any candidate whose own
dependencies are no longer all present in the final working set must also be excluded,
with reasons accumulated (a candidate may be excluded for more than one missing dependency,
and reasons are de-duplicated)." Each round removes the candidates with a dependency that
is missing among those kept, until a round removes none. -/
def propagateExclusion :
    Nat → List MappedMachO → List (MappedMachO × List String) →
    List MappedMachO × List (MappedMachO × List String)
  | 0, kept, excluded => (kept, excluded)
  | fuel + 1, kept, excluded =>
    if kept.all (fun candidate => (missingDependents kept candidate).isEmpty) then (kept, excluded)
    else
      propagateExclusion fuel
        (kept.filter (fun candidate => (missingDependents kept candidate).isEmpty))
        (excluded ++
          (kept.filter (fun candidate => !(missingDependents kept candidate).isEmpty)).map
            (fun candidate => (candidate, (missingDependents kept candidate).dedup)))

/-- Modelled from the spec: `DyldSharedCache::verifySelfContained` is defined in
`DyldSharedCache.cpp`, which is not among the sources; only its call in `main` is. Section
4.3 of the spec: the candidates are expanded through the loader (`expandClosure`), the
candidates with an unresolvable dependency are marked, and exclusion is propagated
(`propagateExclusion`, which needs at most one round per candidate). "Result: the
packable-dylibs sequence with all excluded entries removed [...], paired with the full set
of ExclusionRecords for reporting." -/
def verifySelfContained (fuel : Nat) (dylibsToCache : List MappedMachO)
    (loader : String → Option MappedMachO) :
    List MappedMachO × List (MappedMachO × List String) :=
  let expanded := expandClosure loader fuel 0 dylibsToCache []
  let kept := expanded.1.filter (fun candidate => decide (candidate ∉ expanded.2.map Prod.fst))
  propagateExclusion kept.length kept expanded.2

/-- The insertion of a string into a `std::set<std::string>`, kept as the ascending list of
its elements. -/
def setInsertSorted (item : String) : List String → List String
  | [] => [item]
  | first :: rest =>
    if item < first then item :: first :: rest
    else if item = first then first :: rest
    else first :: setInsertSorted item rest

/-- The elements of the `std::set<std::string>` that holds `reasons`, in the order of its
iterator: ascending, each once. -/
def sortedSet (reasons : List String) : List String :=
  reasons.foldr setInsertSorted []

/-- The text that `main` builds from the reasons of one exclusion (source lines 752-759),
given in the order of the iterator. -/
def reasonsText (reasons : List String) : String :=
  "(\"" ++ String.intercalate "\", \"" reasons ++ "\")"

/-- The closure verification step of the per-architecture block of `main` (source lines
745-762): the bucket afterwards and the lines written to stderr. -/
def verifySelfContainedStep (fuel : Nat) (loader : String → Option MappedMachO)
    (fileSet : MappedMachOsByCategory) : MappedMachOsByCategory × List String :=
  let startCount := fileSet.dylibsForCache.length
  let verified := verifySelfContained fuel fileSet.dylibsForCache loader
  let added := (verified.1.drop startCount).map (fun aFile =>
    "update_dyld_shared_cache: warning: " ++ fileSet.archName ++
      " not in .bom, but adding required dylib " ++ aFile.runtimePath ++ "\n")
  let rejected := verified.2.map (fun exclude =>
    "update_dyld_shared_cache: warning: " ++ fileSet.archName ++
      " rejected from cached dylibs: " ++ exclude.1.runtimePath ++ " (" ++
      reasonsText (sortedSet exclude.2) ++ ")\n")
  ({ fileSet with
      dylibsForCache := verified.1,
      otherDylibsAndBundles := fileSet.otherDylibsAndBundles ++ verified.2.map Prod.fst },
    added ++ rejected)

/-! ## The cache builder and the effects of `main` -/

/-- The enumerator of `dyld3::Platform` that `main` names. -/
inductive Platform where
  | macOS
deriving DecidableEq, Repr

/-- The enumerator of the code signing digest mode that `main` names. -/
inductive CodeSigningDigestMode where
  | SHA256only
deriving DecidableEq, Repr

/-- The fields of `DyldSharedCache::CreateOptions` that `main` sets. -/
structure CreateOptions where
  archName : String
  platform : Platform
  excludeLocalSymbols : Bool
  optimizeStubs : Bool
  optimizeObjC : Bool
  codeSigningDigestMode : CodeSigningDigestMode
  dylibsRemovedDuringMastering : Bool
  inodesAreSameAsRuntime : Bool
  cacheSupportsASLR : Bool
  forSimulator : Bool
  verbose : Bool
  evictLeafDylibsOnOverflow : Bool
  pathPrefixes : List String
deriving DecidableEq, Repr

/-- The cache that the builder returns (`results.cacheContent`), through what `main` reads
of it: its bytes, `getUUID` and `mapFile()`. -/
structure CacheContent where
  bytes : List Nat := []
  uuid : List Nat := []
  mapFile : String := ""
deriving DecidableEq, Repr

/-- The fields of `DyldSharedCache::CreateResults` that `main` reads. The builder returns a
cache whenever `errorMessage` is empty (`assert(results.cacheContent != nullptr)`). -/
structure CreateResults where
  errorMessage : String := ""
  warnings : List String := []
  cacheContent : CacheContent := {}
  cacheLength : Nat := 0
deriving DecidableEq, Repr

/-- The buffer passed to `safeSave`. -/
inductive SavedBuffer where
  | cache (content : CacheContent)
  | text (str : String)
deriving DecidableEq, Repr

/-- What `main` does to the world outside, in order. -/
inductive Event where
  /-- A line written by `fprintf(stderr, ...)`. -/
  | stderr (line : String)
  /-- The call `removexattr(path, name, 0)`. -/
  | removexattr (path name : String)
  /-- The call `DyldSharedCache::create(options, dylibsForCache, otherDylibsAndBundles,
  mainExecutables)`. -/
  | create (options : CreateOptions)
      (dylibsForCache otherDylibsAndBundles mainExecutables : List MappedMachO)
  /-- The call `safeSave(buffer, bufferLen, path)` and whether it wrote the file. -/
  | safeSave (buffer : SavedBuffer) (bufferLen : Nat) (path : String) (saved : Bool)
  /-- The call `setxattr(path, name, uuid, ...)`. -/
  | setxattr (path name : String) (uuid : List Nat)
  /-- The call of `dscsym_save_dscsyms_for_current_caches(nuggetRoot)`. -/
  | saveDscsyms (nuggetRoot : String)
deriving DecidableEq, Repr

/-- What a search of the disk appends to the three sequences of one bucket. -/
structure FoundFiles where
  dylibsForCache : List MappedMachO := []
  otherDylibsAndBundles : List MappedMachO := []
  mainExecutables : List MappedMachO := []

/-- The bucket after a search has appended what it found. -/
def FoundFiles.appendTo (found : FoundFiles) (fileSet : MappedMachOsByCategory) :
    MappedMachOsByCategory :=
  { fileSet with
    dylibsForCache := fileSet.dylibsForCache ++ found.dylibsForCache
    otherDylibsAndBundles := fileSet.otherDylibsAndBundles ++ found.otherDylibsAndBundles
    mainExecutables := fileSet.mainExecutables ++ found.mainExecutables }

/-- The collaborators of `main`: the file system and the libraries it calls. -/
structure World where
  /-- The call `realpath(path, buffer)`: the resolved path, `none` for `NULL`. -/
  realpath : String → Option String
  /-- The call `stat(path, &statBuf)`: the status record, `none` for a failure. -/
  stat : String → Option Stat
  /-- What `::open(fullPath, O_RDONLY)` finds in `addIfMachO`. -/
  openFile : String → Option OpenedFile
  /-- The call `isProtectedBySIP(path)`. -/
  isProtectedBySIP : String → Bool
  /-- What `existingCacheUpToDate` finds at a path. -/
  openCache : String → CacheFile
  /-- The call `removexattr(path, "cacheUUID", 0)`: `none` for success, else
  `strerror(errno)`. -/
  removexattr : String → Option String
  /-- The call `setxattr(path, "cacheUUID", ...)`: `none` for success, else
  `strerror(errno)`. -/
  setxattr : String → Option String
  /-- The call `DyldSharedCache::create`. -/
  create : CreateOptions → List MappedMachO → List MappedMachO → List MappedMachO → CreateResults
  /-- Whether `safeSave` writes the file at the path. -/
  safeSave : String → Bool
  /-- The function `findAllFiles` on the path prefixes and the protection flag: what its calls
  of `addIfMachO` append to the bucket of an architecture (it enumerates directories through
  `iterateDirectoryTree`). -/
  findAllFiles : List String → Bool → String → FoundFiles
  /-- The function `findOSFilesViaBOMS`, likewise (it enumerates package receipts). -/
  findOSFilesViaBOMS : List String → Bool → String → FoundFiles
  /-- The function `runningOnHaswell`. -/
  runningOnHaswell : Bool
  /-- Whether `dlopen("/usr/lib/libdscsym.dylib", 0)` returns a handle (with the symbol). -/
  dscsymLoads : Bool
  /-- The bound on the candidates that closure verification examines (`expandClosure`). -/
  closureFuel : Nat
  /-- The call `mkpath_np(path, mode)`: its error number, 0 for success. -/
  mkpath_np : String → Nat
  /-- The macro `MACOSX_DYLD_SHARED_CACHE_DIR`, defined in a header that is not among the
  sources: the directory of the shared caches on a volume. -/
  sharedCacheDir : String
  /-- The difference `t2-t1` of the two readings of `mach_absolute_time` around discovery and
  pruning (source lines 676 and 702), a `uint64_t`. -/
  scanAbsoluteTime : Nat

/-- The locals of `main` once the options are parsed, the paths canonicalized and the cache
directory made (source line 662). -/
structure MainLocals where
  rootPath : String := ""
  overlayPath : String := ""
  universal : Bool := false
  force : Bool := false
  searchDisk : Bool := false
  dylibsRemoved : Bool := false
  cacheDir : String
  archStrs : List String := []
  skipDylibs : List String := []
  pathPrefixes : List String := [""]
  verbose : Bool := false

/-- The variables that the blocks of `dispatch_apply` share (`__block`), with the effects so
far. -/
structure RunState where
  cacheBuildFailure : Bool := false
  wroteSomeCacheFile : Bool := false
  events : List Event := []
deriving DecidableEq, Repr

/-- Append effects to the record of a run. -/
def RunState.emit (state : RunState) (events : List Event) : RunState :=
  { state with events := state.events ++ events }

/-- The search of the block `loader` over the path prefixes (source lines 731-742). -/
def loaderSearch (world : World) (archName : String) (requireSIP : Bool) (runtimePath : String) :
    List String → Option MappedMachO
  | [] => none
  | pathPrefix :: rest =>
    let fullPath := pathPrefix ++ runtimePath
    match world.stat fullPath with
    | none => loaderSearch world archName requireSIP runtimePath rest
    | some statBuf =>
      let added := addIfMachO world.openFile pathPrefix runtimePath statBuf requireSIP
        [{ archName := archName }]
      match added.1, added.2.1.getLast? with
      | true, some mapped =>
        match mapped.dylibsForCache.getLast? with
        | some found => some found
        | none => loaderSearch world archName requireSIP runtimePath rest
      | _, _ => loaderSearch world archName requireSIP runtimePath rest

/-- The block `loader` of `main` (source lines 728-744); `none` stands for the empty
`MappedMachO()`. The lines that `addIfMachO` writes to stderr on the way are not kept. -/
def loader (world : World) (locals : MainLocals) (archName : String) (requireSIP : Bool)
    (runtimePath : String) : Option MappedMachO :=
  if runtimePath ∈ locals.skipDylibs then none
  else loaderSearch world archName requireSIP runtimePath locals.pathPrefixes

/-- The path `outFile` of the block (source line 726). -/
def outFile (locals : MainLocals) (fileSet : MappedMachOsByCategory) : String :=
  locals.cacheDir ++ "/dyld_shared_cache_" ++ fileSet.archName

/-- The path `outFileMap` of the block (source line 822). -/
def outFileMap (locals : MainLocals) (fileSet : MappedMachOsByCategory) : String :=
  locals.cacheDir ++ "/dyld_shared_cache_" ++ fileSet.archName ++ ".map"

/-- The bucket of the block after closure verification (source lines 745-762), with the
lines written to stderr. -/
def verifiedFileSet (world : World) (locals : MainLocals) (requireSIP : Bool)
    (fileSet : MappedMachOsByCategory) : MappedMachOsByCategory × List String :=
  verifySelfContainedStep world.closureFuel
    (loader world locals fileSet.archName requireSIP) fileSet

/-- The options that the block hands to the builder (source lines 783-796). -/
def createOptions (locals : MainLocals) (fileSet : MappedMachOsByCategory) : CreateOptions :=
  { archName := fileSet.archName
    platform := Platform.macOS
    excludeLocalSymbols := false
    optimizeStubs := false
    optimizeObjC := true
    codeSigningDigestMode := CodeSigningDigestMode.SHA256only
    dylibsRemovedDuringMastering := locals.dylibsRemoved
    inodesAreSameAsRuntime := true
    cacheSupportsASLR := decide (fileSet.archName ≠ "i386")
    forSimulator := false
    verbose := locals.verbose
    evictLeafDylibsOnOverflow := true
    pathPrefixes := locals.pathPrefixes }

/-- The block from the line after the freshness check to its end (source lines 770-828), on
the bucket that closure verification left. -/
def buildAndSave (world : World) (locals : MainLocals) (fileSet : MappedMachOsByCategory)
    (state : RunState) : RunState :=
  let outFile := outFile locals fileSet
  let state := state.emit [Event.stderr ("update_dyld_shared_cache: " ++ fileSet.archName ++
    " incorporating " ++ toString fileSet.dylibsForCache.length ++ " OS dylibs, tracking " ++
    toString fileSet.otherDylibsAndBundles.length ++ " others, building closures for " ++
    toString fileSet.mainExecutables.length ++ " executables\n")]
  let state := state.emit (Event.removexattr outFile "cacheUUID" ::
    match world.removexattr outFile with
    | none => []
    | some error =>
      [Event.stderr ("update_dyld_shared_cache: warning: failure to remove UUID xattr on " ++
        "shared cache file " ++ outFile ++ " with error " ++ error ++ "\n")])
  let options := createOptions locals fileSet
  let results := world.create options fileSet.dylibsForCache fileSet.otherDylibsAndBundles
    fileSet.mainExecutables
  let state := state.emit (Event.create options fileSet.dylibsForCache
    fileSet.otherDylibsAndBundles fileSet.mainExecutables ::
    results.warnings.map (fun warn => Event.stderr ("update_dyld_shared_cache: warning: " ++
      fileSet.archName ++ " " ++ warn ++ "\n")))
  if results.errorMessage ≠ "" then
    { state.emit [Event.stderr ("update_dyld_shared_cache: " ++ results.errorMessage ++ "\n")]
      with cacheBuildFailure := true }
  else
    let saved := world.safeSave outFile
    let state := state.emit
      [Event.safeSave (SavedBuffer.cache results.cacheContent) results.cacheLength outFile saved]
    let state :=
      if saved then state
      else
        { state.emit [Event.stderr ("update_dyld_shared_cache: could not write dyld cache file " ++
            outFile ++ "\n")]
          with cacheBuildFailure := true }
    if state.cacheBuildFailure then state
    else
      let cacheUUID := results.cacheContent.uuid
      let state := state.emit (Event.setxattr outFile "cacheUUID" cacheUUID ::
        match world.setxattr outFile with
        | none => []
        | some error =>
          [Event.stderr ("update_dyld_shared_cache: warning: failure to set UUID xattr on " ++
            "shared cache file " ++ outFile ++ " with error " ++ error ++ "\n")])
      let mapStr := results.cacheContent.mapFile
      let outFileMap := outFileMap locals fileSet
      let state := state.emit
        [Event.safeSave (SavedBuffer.text mapStr) mapStr.length outFileMap
          (world.safeSave outFileMap)]
      { state with wroteSomeCacheFile := true }

/-- The block that `dispatch_apply` runs for one bucket (source lines 724-829). -/
def cacheBuildBlock (world : World) (locals : MainLocals) (requireSIP : Bool)
    (fileSet : MappedMachOsByCategory) (state : RunState) : RunState :=
  let verified := verifiedFileSet world locals requireSIP fileSet
  let state := state.emit (verified.2.map Event.stderr)
  if locals.force then buildAndSave world locals verified.1 state
  else
    let upToDate := existingCacheUpToDate world.openCache locals.verbose
      (outFile locals verified.1) verified.1.dylibsForCache
    let state := state.emit (upToDate.2.map Event.stderr)
    if upToDate.1 then state
    else buildAndSave world locals verified.1 state

/-- The call `dispatch_apply(allFileSets.size(), dqueue, block)`: the block runs once for
each index of `order`, the order in which the queue starts the blocks, one block at a
time. -/
def dispatchApply (allFileSets : List MappedMachOsByCategory)
    (block : MappedMachOsByCategory → RunState → RunState) (order : List Nat)
    (state : RunState) : RunState :=
  order.foldl (fun current index =>
    match allFileSets.get? index with
    | some fileSet => block fileSet current
    | none => current) state

/-- The set `archStrs` after source lines 663-675. -/
def requestedArchs (world : World) (locals : MainLocals) : List String :=
  if locals.archStrs.isEmpty then
    if locals.universal then ["i386", "x86_64", "x86_64h"]
    else ["i386", if world.runningOnHaswell then "x86_64h" else "x86_64"]
  else locals.archStrs

/-- The buckets of `allFileSets` as `main` creates them (source lines 681-687). -/
def emptyFileSets (archStrs : List String) : List MappedMachOsByCategory :=
  (if "x86_64" ∈ archStrs then [{ archName := "x86_64" }] else []) ++
  (if "x86_64h" ∈ archStrs then [{ archName := "x86_64h" }] else []) ++
  (if "i386" ∈ archStrs then [{ archName := "i386" }] else [])

/-- The three pruning calls of `main` on each bucket (source lines 696-700): the buckets
and the lines written to stderr, `none` when `pruneCachedDylibs` throws. -/
def pruneAll (world : World) (locals : MainLocals) :
    List MappedMachOsByCategory → Option (List MappedMachOsByCategory × List String)
  | [] => some ([], [])
  | fileSet :: rest =>
    match pruneCachedDylibs world.realpath locals.rootPath locals.skipDylibs fileSet with
    | none => none
    | some (pruned, lines) =>
      match pruneAll world locals rest with
      | none => none
      | some (others, more) =>
        some (pruneExecutables locals.rootPath (pruneOtherDylibs locals.rootPath pruned) ::
          others, lines ++ more)

/-- The function `absolutetime_to_milliseconds` (source lines 515-518), on a `uint64_t`. -/
def absolutetime_to_milliseconds (abstime : Nat) : Nat :=
  (abstime / 1000 / 1000) % 2 ^ 32

/-- The line of timing that `main` prints under `-verbose` once the buckets are pruned (source
lines 703-708). -/
def timingLines (world : World) (locals : MainLocals) : List String :=
  if locals.verbose then
    if locals.searchDisk then
      ["time to scan file system and construct lists of mach-o files: " ++
        toString (absolutetime_to_milliseconds (world.scanAbsoluteTime % 2 ^ 64)) ++ "ms\n"]
    else
      ["time to read BOM and construct lists of mach-o files: " ++
        toString (absolutetime_to_milliseconds (world.scanAbsoluteTime % 2 ^ 64)) ++ "ms\n"]
  else []

/-- The buckets that `main` hands to `dispatch_apply`: found (source lines 679-693) and
pruned (source lines 696-700), with the lines written to stderr up to source line 708. -/
def prunedFileSets (world : World) (locals : MainLocals) :
    Option (List MappedMachOsByCategory × List String) :=
  let requireDylibsBeRootlessProtected := world.isProtectedBySIP locals.cacheDir
  let allFileSets := emptyFileSets (requestedArchs world locals)
  let found :=
    if locals.searchDisk then
      allFileSets.map (fun fileSet =>
        (world.findAllFiles locals.pathPrefixes requireDylibsBeRootlessProtected
          fileSet.archName).appendTo fileSet)
    else
      allFileSets.map (fun fileSet =>
        (world.findOSFilesViaBOMS locals.pathPrefixes requireDylibsBeRootlessProtected
          fileSet.archName).appendTo fileSet)
  match pruneAll world locals found with
  | none => none
  | some (pruned, lines) => some (pruned, lines ++ timingLines world locals)

/-- The state of the run when `dispatch_apply` has returned: every block has finished. -/
def runAllBlocks (world : World) (locals : MainLocals)
    (allFileSets : List MappedMachOsByCategory) (lines : List String) (order : List Nat) :
    RunState :=
  dispatchApply allFileSets
    (cacheBuildBlock world locals (world.isProtectedBySIP locals.cacheDir)) order
    (({} : RunState).emit (lines.map Event.stderr))

/-- The part of `main` after the cache directory is made (source lines 663-851): the exit
status with the effects, `none` when pruning throws. `order` is the order in which the
blocks of `dispatch_apply` run. -/
def mainBuildCaches (world : World) (locals : MainLocals) (order : List Nat) :
    Option (Nat × List Event) :=
  match prunedFileSets world locals with
  | none => none
  | some (allFileSets, lines) =>
    let state := runAllBlocks world locals allFileSets lines order
    let nuggetRoot :=
      if locals.rootPath = "" then
        (if locals.overlayPath = "" then "/" else locals.overlayPath)
      else locals.rootPath
    let state :=
      if state.wroteSomeCacheFile && world.dscsymLoads then
        state.emit [Event.saveDscsyms nuggetRoot]
      else state
    some (if state.cacheBuildFailure then 1 else 0, state.events)

/-! ## The start of `main` -/

/-- The locals of `main` that the option loop sets (source lines 544-553), with the global
`verbose`. -/
structure ParsedOptions where
  rootPath : String := ""
  overlayPath : String := ""
  dylibListFile : String := ""
  universal : Bool := false
  force : Bool := false
  searchDisk : Bool := false
  dylibsRemoved : Bool := false
  cacheDir : String := ""
  archStrs : List String := []
  skipDylibs : List String := []
  verbose : Bool := false
deriving DecidableEq, Repr

/-- The option loop of `main` (source lines 556-611) on the arguments after `argv[0]`: the
locals it leaves, or the line it prints before `main` returns 1. -/
def parseOptions : List String → ParsedOptions → Except String ParsedOptions
  | [], options => Except.ok options
  | arg :: rest, options =>
    if arg = "-debug" then parseOptions rest { options with verbose := true }
    else if arg = "-verbose" then parseOptions rest { options with verbose := true }
    else if arg = "-dont_map_local_symbols" then parseOptions rest options
    else if arg = "-dylib_list" then
      match rest with
      | [] => Except.error "-dylib_list missing argument"
      | value :: after => parseOptions after { options with dylibListFile := value }
    else if arg = "-root" ∨ arg = "--root" then
      match rest with
      | [] => Except.error "-root missing path argument\n"
      | value :: after => parseOptions after { options with rootPath := value }
    else if arg = "-overlay" then
      match rest with
      | [] => Except.error "-overlay missing path argument\n"
      | value :: after => parseOptions after { options with overlayPath := value }
    else if arg = "-cache_dir" then
      match rest with
      | [] => Except.error "-cache_dir missing path argument\n"
      | value :: after => parseOptions after { options with cacheDir := value }
    else if arg = "-arch" then
      match rest with
      | [] => Except.error "-arch missing argument\n"
      | value :: after =>
        parseOptions after { options with archStrs := setInsert options.archStrs value }
    else if arg = "-search_disk" then parseOptions rest { options with searchDisk := true }
    else if arg = "-dylibs_removed_in_mastering" then
      parseOptions rest { options with dylibsRemoved := true }
    else if arg = "-force" then parseOptions rest { options with force := true }
    else if arg = "-sort_by_name" then parseOptions rest options
    else if arg = "-universal_boot" then parseOptions rest { options with universal := true }
    else if arg = "-skip" then
      match rest with
      | [] => Except.error "-skip missing argument\n"
      | value :: after =>
        parseOptions after { options with skipDylibs := setInsert options.skipDylibs value }
    else Except.error ("update_dyld_shared_cache: unknown option: " ++ arg ++ "\n")

/-- The value `EEXIST` of `<errno.h>`. -/
def EEXIST : Nat := 17

/-- The path `rootPath` after it is canonicalized (source lines 617-627). -/
def canonicalRootPath (world : World) (rootPath : String) : String :=
  if rootPath = "" then rootPath
  else
    let resolved :=
      match world.realpath rootPath with
      | some resolvedPath => resolvedPath
      | none => rootPath
    if resolved = "/" then "" else resolved

/-- The path `overlayPath` after it is canonicalized (source lines 628-634). -/
def canonicalOverlayPath (world : World) (overlayPath : String) : String :=
  if overlayPath = "" then overlayPath
  else
    match world.realpath overlayPath with
    | some resolvedPath => resolvedPath
    | none => overlayPath

/-- The vector `pathPrefixes` (source lines 641-644). -/
def pathPrefixesOf (rootPath overlayPath : String) : List String :=
  (if overlayPath = "" then [] else [overlayPath]) ++ [rootPath]

/-- The directory `cacheDir` after source lines 647-655, from the canonicalized paths. -/
def selectCacheDir (world : World) (rootPath overlayPath cacheDir : String) : String :=
  if cacheDir = "" then
    if rootPath ≠ "/" then rootPath ++ world.sharedCacheDir
    else if overlayPath ≠ "" then overlayPath ++ world.sharedCacheDir
    else world.sharedCacheDir
  else cacheDir

/-- The locals of `main` at source line 662, from the locals that the option loop left. -/
def localsOf (world : World) (options : ParsedOptions) : MainLocals :=
  let rootPath := canonicalRootPath world options.rootPath
  let overlayPath := canonicalOverlayPath world options.overlayPath
  { rootPath := rootPath
    overlayPath := overlayPath
    universal := options.universal
    force := options.force
    searchDisk := options.searchDisk
    dylibsRemoved := options.dylibsRemoved
    cacheDir := selectCacheDir world rootPath overlayPath options.cacheDir
    archStrs := options.archStrs
    skipDylibs := options.skipDylibs
    pathPrefixes := pathPrefixesOf rootPath overlayPath
    verbose := options.verbose }

/-- The function `main` (source lines 542-851) on the arguments `argv`: the exit status with
the effects, `none` when pruning throws. `order` is the order in which the blocks of
`dispatch_apply` run. -/
def main (world : World) (argv : List String) (order : List Nat) : Option (Nat × List Event) :=
  match parseOptions (argv.drop 1) {} with
  | Except.error line => some (1, [Event.stderr line])
  | Except.ok options =>
    if options.rootPath ≠ "" ∧ options.overlayPath ≠ "" then
      some (1, [Event.stderr "-root and -overlay cannot be used together\n"])
    else
      let locals := localsOf world options
      let err := world.mkpath_np locals.cacheDir
      if err ≠ 0 ∧ err ≠ EEXIST then
        some (1, [Event.stderr ("mkpath_np fail: " ++ toString err)])
      else mainBuildCaches world locals order

/-! ## Auxiliary definitions for the proofs -/

/-- The early returns of `dontCache` that depend on the path alone (source lines 349-375):
the skip list, the seven denied prefixes, the `.app/` segment and the two prefixes denied
for i386. -/
def excludedByPath (archName : String) (aFile : MappedMachO) (skipDylibs : List String) : Bool :=
  decide (aFile.runtimePath ∈ skipDylibs) ||
  startsWith aFile.runtimePath "/usr/lib/system/introspection/" ||
  startsWith aFile.runtimePath "/System/Library/QuickTime/" ||
  startsWith aFile.runtimePath "/System/Library/Tcl/" ||
  startsWith aFile.runtimePath "/System/Library/Perl/" ||
  startsWith aFile.runtimePath "/System/Library/MonitorPanels/" ||
  startsWith aFile.runtimePath "/System/Library/Accessibility/" ||
  startsWith aFile.runtimePath "/usr/local/" ||
  contains aFile.runtimePath ".app/" ||
  (decide (archName = "i386") && startsWith aFile.runtimePath "/System/Library/CoreServices/") ||
  (decide (archName = "i386") && startsWith aFile.runtimePath "/System/Library/Extensions/")

/-- The flag that `dontCache` returns, without the lines it prints. -/
def dontCacheFlag (realpath : String → Option String) (volumePrefix archName : String)
    (dups : List String) (aFile : MappedMachO) (skipDylibs : List String) : Option Bool :=
  (dontCache realpath volumePrefix archName dups aFile false skipDylibs).map Prod.fst

/-- The bucket that the block of `dispatch_apply` works on once closure verification is
over. -/
def verifiedBucket (world : World) (locals : MainLocals) (requireSIP : Bool)
    (fileSet : MappedMachOsByCategory) : MappedMachOsByCategory :=
  (verifiedFileSet world locals requireSIP fileSet).1

/-- The answer of `existingCacheUpToDate` in the block for a bucket. -/
def cacheIsFresh (world : World) (locals : MainLocals) (requireSIP : Bool)
    (fileSet : MappedMachOsByCategory) : Bool :=
  (existingCacheUpToDate world.openCache locals.verbose
    (outFile locals (verifiedBucket world locals requireSIP fileSet))
    (verifiedBucket world locals requireSIP fileSet).dylibsForCache).1

/-- What `DyldSharedCache::create` returns when the block calls it for a bucket. -/
def builderResults (world : World) (locals : MainLocals) (requireSIP : Bool)
    (fileSet : MappedMachOsByCategory) : CreateResults :=
  world.create (createOptions locals (verifiedBucket world locals requireSIP fileSet))
    (verifiedBucket world locals requireSIP fileSet).dylibsForCache
    (verifiedBucket world locals requireSIP fileSet).otherDylibsAndBundles
    (verifiedBucket world locals requireSIP fileSet).mainExecutables

/-- The call of the builder that the block makes for a bucket, as an effect. -/
def builderCall (world : World) (locals : MainLocals) (requireSIP : Bool)
    (fileSet : MappedMachOsByCategory) : Event :=
  Event.create (createOptions locals (verifiedBucket world locals requireSIP fileSet))
    (verifiedBucket world locals requireSIP fileSet).dylibsForCache
    (verifiedBucket world locals requireSIP fileSet).otherDylibsAndBundles
    (verifiedBucket world locals requireSIP fileSet).mainExecutables

/-- The effects of one block: what it appends to the effects of the run. -/
def blockEvents (world : World) (locals : MainLocals) (requireSIP : Bool)
    (fileSet : MappedMachOsByCategory) (state : RunState) : List Event :=
  (cacheBuildBlock world locals requireSIP fileSet state).events.drop state.events.length

/-- Whether an effect is a call of the cache builder. -/
def Event.isCreate : Event → Bool
  | Event.create _ _ _ _ => true
  | _ => false

/-- Whether an effect clears or sets an identity tag. -/
def Event.isXattr : Event → Bool
  | Event.removexattr _ _ => true
  | Event.setxattr _ _ _ => true
  | _ => false

/-- Whether an effect is a call of `safeSave`. -/
def Event.isSafeSave : Event → Bool
  | Event.safeSave _ _ _ _ => true
  | _ => false

/-- The effects of `buildAndSave` up to the builder call and its warnings. -/
def buildPrelude (world : World) (locals : MainLocals) (fileSet : MappedMachOsByCategory) :
    List Event :=
  [Event.stderr ("update_dyld_shared_cache: " ++ fileSet.archName ++
    " incorporating " ++ toString fileSet.dylibsForCache.length ++ " OS dylibs, tracking " ++
    toString fileSet.otherDylibsAndBundles.length ++ " others, building closures for " ++
    toString fileSet.mainExecutables.length ++ " executables\n")] ++
  (Event.removexattr (outFile locals fileSet) "cacheUUID" ::
    match world.removexattr (outFile locals fileSet) with
    | none => []
    | some error =>
      [Event.stderr ("update_dyld_shared_cache: warning: failure to remove UUID xattr on " ++
        "shared cache file " ++ outFile locals fileSet ++ " with error " ++ error ++ "\n")]) ++
  (Event.create (createOptions locals fileSet) fileSet.dylibsForCache
    fileSet.otherDylibsAndBundles fileSet.mainExecutables ::
    (world.create (createOptions locals fileSet) fileSet.dylibsForCache
      fileSet.otherDylibsAndBundles fileSet.mainExecutables).warnings.map
      (fun warn => Event.stderr ("update_dyld_shared_cache: warning: " ++
        fileSet.archName ++ " " ++ warn ++ "\n")))


/-- The lines that one block prints before it builds or returns: those of closure
verification, then those of the freshness check when the check runs. -/
def blockPrelude (world : World) (locals : MainLocals) (requireSIP : Bool)
    (fileSet : MappedMachOsByCategory) : List Event :=
  (verifiedFileSet world locals requireSIP fileSet).2.map Event.stderr ++
  (if locals.force then []
   else (existingCacheUpToDate world.openCache locals.verbose
      (outFile locals (verifiedBucket world locals requireSIP fileSet))
      (verifiedBucket world locals requireSIP fileSet).dylibsForCache).2.map Event.stderr)

/-- Whether the block goes on to build: the force flag is set or the freshness check
answers false. -/
def gateOpen (world : World) (locals : MainLocals) (requireSIP : Bool)
    (fileSet : MappedMachOsByCategory) : Bool :=
  locals.force || !cacheIsFresh world locals requireSIP fileSet

/-- Whether the block sets `cacheBuildFailure`: it builds, and the builder returns an error
message or the artifact is not written. -/
def blockFails (world : World) (locals : MainLocals) (requireSIP : Bool)
    (fileSet : MappedMachOsByCategory) : Bool :=
  gateOpen world locals requireSIP fileSet &&
  (decide ((builderResults world locals requireSIP fileSet).errorMessage ≠ "") ||
    !world.safeSave (outFile locals (verifiedBucket world locals requireSIP fileSet)))

/-- The call `safeSave(results.cacheContent, results.cacheLength, outFile)` of the block for
a bucket, as an effect, with its outcome `saved`. -/
def artifactSave (world : World) (locals : MainLocals) (requireSIP : Bool)
    (fileSet : MappedMachOsByCategory) (saved : Bool) : Event :=
  Event.safeSave (SavedBuffer.cache (builderResults world locals requireSIP fileSet).cacheContent)
    (builderResults world locals requireSIP fileSet).cacheLength
    (outFile locals (verifiedBucket world locals requireSIP fileSet)) saved

/-- The effects of the block after its artifact is written, when no failure was recorded
before (source lines 816-824): the identity tag and the map file. -/
def afterSaveEvents (world : World) (locals : MainLocals) (requireSIP : Bool)
    (fileSet : MappedMachOsByCategory) : List Event :=
  (Event.setxattr (outFile locals (verifiedBucket world locals requireSIP fileSet)) "cacheUUID"
      (builderResults world locals requireSIP fileSet).cacheContent.uuid ::
    match world.setxattr (outFile locals (verifiedBucket world locals requireSIP fileSet)) with
    | none => []
    | some error =>
      [Event.stderr ("update_dyld_shared_cache: warning: failure to set UUID xattr on " ++
        "shared cache file " ++ outFile locals (verifiedBucket world locals requireSIP fileSet) ++
        " with error " ++ error ++ "\n")]) ++
  [Event.safeSave
    (SavedBuffer.text (builderResults world locals requireSIP fileSet).cacheContent.mapFile)
    (builderResults world locals requireSIP fileSet).cacheContent.mapFile.length
    (outFileMap locals (verifiedBucket world locals requireSIP fileSet))
    (world.safeSave (outFileMap locals (verifiedBucket world locals requireSIP fileSet)))]

/-- The effects of one block after its prelude, given whether `cacheBuildFailure` was set
when the block started. -/
def blockTail (world : World) (locals : MainLocals) (requireSIP : Bool)
    (fileSet : MappedMachOsByCategory) (failedBefore : Bool) : List Event :=
  if gateOpen world locals requireSIP fileSet = false then []
  else
    buildPrelude world locals (verifiedBucket world locals requireSIP fileSet) ++
    (if (builderResults world locals requireSIP fileSet).errorMessage ≠ "" then
      [Event.stderr ("update_dyld_shared_cache: " ++
        (builderResults world locals requireSIP fileSet).errorMessage ++ "\n")]
    else if world.safeSave (outFile locals (verifiedBucket world locals requireSIP fileSet)) =
        false then
      [artifactSave world locals requireSIP fileSet false,
       Event.stderr ("update_dyld_shared_cache: could not write dyld cache file " ++
        outFile locals (verifiedBucket world locals requireSIP fileSet) ++ "\n")]
    else if failedBefore = true then [artifactSave world locals requireSIP fileSet true]
    else artifactSave world locals requireSIP fileSet true ::
      afterSaveEvents world locals requireSIP fileSet)

/-- Whether the block records that a cache file was written: it builds, the builder returns
no error message, the artifact is written and no failure was recorded before. -/
def blockWrites (world : World) (locals : MainLocals) (requireSIP : Bool)
    (fileSet : MappedMachOsByCategory) (failedBefore : Bool) : Bool :=
  gateOpen world locals requireSIP fileSet &&
  decide ((builderResults world locals requireSIP fileSet).errorMessage = "") &&
  world.safeSave (outFile locals (verifiedBucket world locals requireSIP fileSet)) &&
  !failedBefore

/-- The world with other outcomes of `removexattr` and `setxattr` and other warnings of the
builder; everything else, the error message of the builder included, is as before. -/
def World.withTagsAndWarnings (world : World) (removexattr setxattr : String → Option String)
    (warnings : CreateOptions → List MappedMachO → List MappedMachO → List MappedMachO →
      List String) : World :=
  { world with
    removexattr := removexattr
    setxattr := setxattr
    create := fun options dylibs others mains =>
      { world.create options dylibs others mains with
        warnings := warnings options dylibs others mains } }

/-! ## The predicate of the specification for `dontCache` -/

/-- The seven path prefixes that the specification denies for every architecture. -/
def deniedPrefixes : List String :=
  ["/usr/lib/system/introspection/", "/System/Library/QuickTime/", "/System/Library/Tcl/",
   "/System/Library/Perl/", "/System/Library/MonitorPanels/", "/System/Library/Accessibility/",
   "/usr/local/"]

/-- The resolved path "after the volume prefix is stripped": what follows the volume prefix
in a resolved path that begins with it; a resolved path that does not begin with the volume
prefix has no volume prefix to strip. -/
def stripVolumePrefix (volumePrefix resolvedPath : String) : Option String :=
  if startsWith resolvedPath volumePrefix then
    some ⟨resolvedPath.data.drop volumePrefix.data.length⟩
  else none

/-- The predicate that the specification gives for `dontCache` returning false, on the
candidate `f`, the duplicate-path set `D` and the skip list `K`. -/
def cacheableBySpec (realpath : String → Option String) (volumePrefix archName : String)
    (D : List String) (f : MappedMachO) (K : List String) : Bool :=
  !decide (f.runtimePath ∈ K) &&
  deniedPrefixes.all (fun denied => !startsWith f.runtimePath denied) &&
  !contains f.runtimePath ".app/" &&
  (decide (archName ≠ "i386") ||
    (!startsWith f.runtimePath "/System/Library/CoreServices/" &&
     !startsWith f.runtimePath "/System/Library/Extensions/")) &&
  !contains f.runtimePath "//" &&
  (decide (f.runtimePath = f.mh.installName) ||
    (!decide (f.runtimePath ∈ D) &&
      match realpath (volumePrefix ++ f.mh.installName) with
      | some resolvedPath =>
        decide (stripVolumePrefix volumePrefix resolvedPath = some f.runtimePath)
      | none => false))

/-! ## Sample inputs -/

/-- A dylib at the path of its install name. -/
def libFoo : MappedMachO :=
  { runtimePath := "/usr/lib/libFoo.dylib", mh := { installName := "/usr/lib/libFoo.dylib" },
    modTime := 100, inode := 5 }

/-- A dylib at another path that declares the install name of `libFoo`. -/
def libFoo2 : MappedMachO :=
  { runtimePath := "/usr/lib/libFoo2.dylib", mh := { installName := "/usr/lib/libFoo.dylib" },
    modTime := 101, inode := 6 }

/-- A third dylib that declares the install name of `libFoo`. -/
def libFoo3 : MappedMachO :=
  { runtimePath := "/usr/lib/libFoo3.dylib", mh := { installName := "/usr/lib/libFoo.dylib" },
    modTime := 102, inode := 7 }

/-- A file system in which no install name resolves. -/
def noSymlinks : String → Option String :=
  fun _ => none

/-- A bucket in which two dylibs share an install name that is the runtime path of
neither. -/
def contestedBucket : MappedMachOsByCategory :=
  { archName := "x86_64", dylibsForCache := [libFoo2, libFoo3] }

/-- A bucket that lists one dylib twice. -/
def repeatedBucket : MappedMachOsByCategory :=
  { archName := "x86_64", dylibsForCache := [libFoo, libFoo] }

/-- A bucket in which a dylib at the path of its install name is found after another dylib
with that install name. -/
def ownerBucket : MappedMachOsByCategory :=
  { archName := "x86_64", dylibsForCache := [libFoo2, libFoo] }

/-- The bucket `ownerBucket` as `pruneCachedDylibs` leaves it. -/
def ownerPruned : MappedMachOsByCategory :=
  { archName := "x86_64", dylibsForCache := [libFoo], otherDylibsAndBundles := [libFoo2] }

/-! ## The freshness check: the entries of an artifact built from a candidate sequence -/

/-- The (install name, modification time, inode) triple that a cache built from the
candidate `aFile` embeds for it. -/
def imageEntryOf (aFile : MappedMachO) : ImageEntry :=
  { installName := aFile.mh.installName, mTime := aFile.modTime, inode := aFile.inode }

/-- A dylib found at a path that is not its install name. -/
def libBar : MappedMachO :=
  { runtimePath := "/usr/lib/libBar.1.dylib", mh := { installName := "/usr/lib/libBar.dylib" },
    modTime := 200, inode := 9 }

/-- A file system in which every path holds a cache built from the given candidates. -/
def cacheBuiltFrom (currentDylibs : List MappedMachO) : String → CacheFile :=
  fun _ => CacheFile.mapped (currentDylibs.map imageEntryOf)

/-- A file system without any existing cache. -/
def noCache : String → CacheFile :=
  fun _ => CacheFile.cannotOpen

/-! ## Sample inputs for closure verification and for a run of `main` -/

/-- A dylib that depends on `libB`. -/
def libA : MappedMachO :=
  { runtimePath := "/usr/lib/libA.dylib",
    mh := { installName := "/usr/lib/libA.dylib", dependents := ["/usr/lib/libB.dylib"] } }

/-- A dylib that depends on `libA`. -/
def libB : MappedMachO :=
  { runtimePath := "/usr/lib/libB.dylib",
    mh := { installName := "/usr/lib/libB.dylib", dependents := ["/usr/lib/libA.dylib"] } }

/-- A dylib with a dependency that is nowhere. -/
def libC : MappedMachO :=
  { runtimePath := "/usr/lib/libC.dylib",
    mh := { installName := "/usr/lib/libC.dylib", dependents := ["/usr/lib/libMissing.dylib"] } }

/-- A loader that finds `libB` and nothing else. -/
def loaderOfLibB : String → Option MappedMachO :=
  fun runtimePath => if runtimePath = "/usr/lib/libB.dylib" then some libB else none

/-- A bucket whose inventory lacks `libB` and holds `libC`. -/
def closureBucket : MappedMachOsByCategory :=
  { archName := "x86_64", dylibsForCache := [libA, libC] }

/-- The x86_64 bucket of the sample run. -/
def x86Bucket : MappedMachOsByCategory :=
  { archName := "x86_64", dylibsForCache := [libFoo] }

/-- The i386 bucket of the sample run. -/
def i386Bucket : MappedMachOsByCategory :=
  { archName := "i386", dylibsForCache := [libFoo] }

/-- The cache that the builder of the sample run returns. -/
def sampleCache : CacheContent :=
  { bytes := [1], uuid := [7], mapFile := "map" }

/-- A world for the scenario of two architectures: the package receipts list `libFoo`, no
cache exists yet, the builder fails for i386 and succeeds for x86_64, and `safeSave` writes
files or not as `saves` says. -/
def sampleWorld (saves : Bool) : World :=
  { realpath := noSymlinks
    stat := fun _ => none
    openFile := fun _ => none
    isProtectedBySIP := fun _ => false
    openCache := noCache
    removexattr := fun _ => none
    setxattr := fun _ => none
    create := fun options _ _ _ =>
      if options.archName = "i386" then { errorMessage := "cache overflow" }
      else { cacheContent := sampleCache, cacheLength := 1 }
    safeSave := fun _ => saves
    findAllFiles := fun _ _ _ => {}
    findOSFilesViaBOMS := fun _ _ _ => { dylibsForCache := [libFoo] }
    runningOnHaswell := false
    dscsymLoads := false
    closureFuel := 4
    mkpath_np := fun _ => 0
    sharedCacheDir := "/private/var/db/dyld/"
    scanAbsoluteTime := 0 }

/-- The arguments of a run without options. -/
def sampleArgv : List String :=
  ["update_dyld_shared_cache"]

/-! ## Auxiliary definitions for the claims on warnings and on the classifier -/

/-- The lines that `dontCache` prints for a candidate when `warn` is set. -/
def warningsOf (realpath : String → Option String) (volumePrefix archName : String)
    (dups : List String) (aFile : MappedMachO) (skipDylibs : List String) : List String :=
  match dontCache realpath volumePrefix archName dups aFile true skipDylibs with
  | some result => result.2
  | none => []

/-- A file system in which the install name of `libFoo` is a symlink to the file of
`libFoo2`. -/
def symlinkToLibFoo2 : String → Option String :=
  fun path => if path = "/usr/lib/libFoo.dylib" then some "/usr/lib/libFoo2.dylib" else none

/-- A dylib under `/usr/local/`, at the path of its install name. -/
def libLocal : MappedMachO :=
  { runtimePath := "/usr/local/lib/libLocal.dylib",
    mh := { installName := "/usr/local/lib/libLocal.dylib" } }

/-- A dylib inside an application bundle, at the path of its install name. -/
def libInApp : MappedMachO :=
  { runtimePath := "/Applications/Mail.app/Contents/Frameworks/libMail.dylib",
    mh := { installName := "/Applications/Mail.app/Contents/Frameworks/libMail.dylib" } }

/-- A bundle inside an application, tracked among the other dylibs. -/
def bundleInApp : MappedMachO :=
  { runtimePath := "/Applications/Mail.app/Contents/PlugIns/Plugin.bundle/Plugin",
    mh := { installName := "", canBePlacedInDyldCache := false, fileType := 8 } }

/-- A bucket with a dylib under `/usr/local/`. -/
def localBucket : MappedMachOsByCategory :=
  { archName := "x86_64", dylibsForCache := [libLocal] }

/-- A bucket with a packable dylib inside an application bundle, a dylib whose install name
is taken, and two tracked files, one of them inside the bundle. -/
def bundleBucket : MappedMachOsByCategory :=
  { archName := "x86_64", dylibsForCache := [libInApp, libFoo2, libFoo],
    otherDylibsAndBundles := [bundleInApp, libBar] }

/-- The bucket `bundleBucket` as `pruneCachedDylibs` leaves it. -/
def bundlePruned : MappedMachOsByCategory :=
  { archName := "x86_64", dylibsForCache := [libFoo],
    otherDylibsAndBundles := [bundleInApp, libBar, libInApp, libFoo2] }

/-- The bucket `contestedBucket` as `pruneCachedDylibs` leaves it. -/
def contestedPruned : MappedMachOsByCategory :=
  { archName := "x86_64", dylibsForCache := [], otherDylibsAndBundles := [libFoo2, libFoo3] }

/-- The bucket `localBucket` as `pruneCachedDylibs` leaves it. -/
def localPruned : MappedMachOsByCategory :=
  { archName := "x86_64", dylibsForCache := [], otherDylibsAndBundles := [libLocal] }

/-- A file system in which every existing cache opens and `mmap` fails. -/
def unmappableCache : String → CacheFile :=
  fun _ => CacheFile.cannotMap

/-- The sample world with caches that open and cannot be mapped. -/
def unmappableWorld : World :=
  { sampleWorld true with openCache := unmappableCache }

/-- The arguments of a run with `-overlay` and without `-root` or `-cache_dir`. -/
def overlayArgv : List String :=
  ["update_dyld_shared_cache", "-overlay", "/Volumes/Overlay"]

/-- The locals that the option loop leaves for `overlayArgv`. -/
def overlayOptions : ParsedOptions :=
  { overlayPath := "/Volumes/Overlay" }

/-- The shared variables of a run in which an earlier block has set `cacheBuildFailure`. -/
def failedState : RunState :=
  { cacheBuildFailure := true }

/-- The early return of `addIfMachO` for debug and profile files (source line 149). -/
def skippedBySuffix (runtimePath : String) : Bool :=
  endsWith runtimePath "_profile.dylib" || endsWith runtimePath "_debug.dylib" ||
    endsWith runtimePath "_profile" || endsWith runtimePath "_debug"

/-- The file that `addIfMachO` reads: not skipped for its suffix, opened by `::open` and
mapped by `mmap` (source lines 149-159). -/
def mappedFile (openFile : String → Option OpenedFile) (pathPrefix runtimePath : String) :
    Option OpenedFile :=
  if skippedBySuffix runtimePath then none
  else
    match openFile (pathPrefix ++ runtimePath) with
    | none => none
    | some opened => if opened.wholeFileMaps then some opened else none

/-- The variable `slice` of `addIfMachO` for one architecture (source lines 166-183), as the
pair of `sliceLength` and `sliceOffset`; `none` is `MAP_FAILED`. -/
def mappedSlice (opened : OpenedFile) (statBuf : Stat) (archName : String) :
    Option (Nat × Nat) :=
  if (opened.view archName).isFatFileWithSlice then
    if (opened.view archName).sliceMaps && (opened.view archName).sliceIsValidMachO then
      some ((opened.view archName).sliceLength, (opened.view archName).sliceOffset)
    else none
  else if !(opened.view archName).fatButMissingSlice &&
      (opened.view archName).wholeFileIsValidMachO then some (statBuf.st_size, 0)
  else none

/-- The record that `addIfMachO` constructs with `emplace_back` for the slice of one
architecture. -/
def sliceEntry (opened : OpenedFile) (runtimePath : String) (statBuf : Stat) (archName : String)
    (slice : Nat × Nat) (issetuid : Bool) : MappedMachO :=
  { runtimePath := runtimePath, mh := (opened.view archName).mh, length := slice.1,
    isSetUID := issetuid, protectedBySIP := opened.protectedBySIP, sliceFileOffset := slice.2,
    modTime := statBuf.st_mtime, inode := statBuf.st_ino }

/-- The number of entries of the three sequences of a bucket. -/
def entryCount (file : MappedMachOsByCategory) : Nat :=
  file.dylibsForCache.length + file.otherDylibsAndBundles.length + file.mainExecutables.length

/-- What a thin x86_64 dylib looks like to every architecture: the whole file is a valid
Mach-O with the header of `libFoo`. -/
def dylibView : SliceView :=
  { wholeFileIsValidMachO := true, mh := libFoo.mh }

/-- What a thin main executable looks like. -/
def toolView : SliceView :=
  { wholeFileIsValidMachO := true,
    mh := { installName := "", isDynamicExecutable := true, canBePlacedInDyldCache := false,
            fileType := 2 } }

/-- A file system where every path opens an unprotected dylib. -/
def openUnprotectedDylib : String → Option OpenedFile :=
  fun _ => some { view := fun _ => dylibView, protectedBySIP := false }

/-- A file system where every path opens an unprotected main executable. -/
def openUnprotectedTool : String → Option OpenedFile :=
  fun _ => some { view := fun _ => toolView, protectedBySIP := false }

/-- The status record of the sample files. -/
def sampleStat : Stat :=
  { st_size := 4096, st_mode := 0o755, st_mtime := 100, st_ino := 5 }

/-- An empty bucket for x86_64. -/
def emptyBucket : MappedMachOsByCategory :=
  { archName := "x86_64" }

/-- The bucket `emptyBucket` after `addIfMachO` has classified the unprotected dylib with
`requireSIP` set. -/
def demotedBucket : MappedMachOsByCategory :=
  { archName := "x86_64", otherDylibsAndBundles := [{ libFoo with length := 4096 }] }


/-- A file system under the root `/Volumes/Root` in which the install name of `libBar` is a
symlink that leaves the volume: it resolves to a file of the volume `/Volumes/Rooz`. -/
def symlinkOutsideVolume : String → Option String :=
  fun path =>
    if path = "/Volumes/Root/usr/lib/libBar.dylib" then
      some "/Volumes/Rooz/usr/lib/libBar.1.dylib"
    else none

/-- A file system under the root `/Volumes/Root` in which the install name of `libBar` is a
symlink to the file of `libBar` in the volume. -/
def symlinkInsideVolume : String → Option String :=
  fun path =>
    if path = "/Volumes/Root/usr/lib/libBar.dylib" then
      some "/Volumes/Root/usr/lib/libBar.1.dylib"
    else none

/-- A file system under the root `/Volumes/VeryLongRootName` in which the install name of
`libBar` is a symlink that resolves to a path shorter than the root path. -/
def shortSymlink : String → Option String :=
  fun path =>
    if path = "/Volumes/VeryLongRootName/usr/lib/libBar.dylib" then some "/private/tmp/x"
    else none

/-- The sample world with the file system `shortSymlink`, in which the package receipts list
`libBar`. -/
def shortSymlinkWorld : World :=
  { sampleWorld true with
    realpath := shortSymlink
    findOSFilesViaBOMS := fun _ _ _ => { dylibsForCache := [libBar] } }

/-- The arguments of a run with `-root`. -/
def rootArgv : List String :=
  ["update_dyld_shared_cache", "-root", "/Volumes/VeryLongRootName"]

/-- The locals that the option loop leaves for `rootArgv`. -/
def rootOptions : ParsedOptions :=
  { rootPath := "/Volumes/VeryLongRootName" }

/-! ## Lemmas on `dontCache` -/

theorem dontCache_eq (realpath : String → Option String)
    (volumePrefix archName : String) (dups : List String) (aFile : MappedMachO) (warn : Bool)
    (skipDylibs : List String) :
    dontCache realpath volumePrefix archName dups aFile warn skipDylibs =
      if excludedByPath archName aFile skipDylibs = true then some (true, [])
      else if contains aFile.runtimePath "//" = true then
        some (true, warnIf warn (badInstallNameWarning archName aFile.runtimePath))
      else if aFile.runtimePath ∈ dups ∧ aFile.runtimePath ≠ aFile.mh.installName then
        some (true, warnIf warn (duplicateInstallNameWarning archName aFile.runtimePath))
      else if aFile.runtimePath ≠ aFile.mh.installName then
        match realpath (volumePrefix ++ aFile.mh.installName) with
        | some resolvedPath =>
          match (if volumePrefix = "" then some resolvedPath
                 else substr resolvedPath volumePrefix.length) with
          | none => none
          | some resolvedSymlink =>
            if aFile.runtimePath = resolvedSymlink then some (false, [])
            else some (true, warnIf warn (badInstallNameWarning archName aFile.runtimePath))
        | none => some (true, warnIf warn (badInstallNameWarning archName aFile.runtimePath))
      else some (false, []) := by
  unfold dontCache
  by_cases h1 : aFile.runtimePath ∈ skipDylibs
  · rw [if_pos h1, if_pos]; simp [excludedByPath, h1]
  rw [if_neg h1]
  by_cases h2 : startsWith aFile.runtimePath "/usr/lib/system/introspection/" = true
  · rw [if_pos h2, if_pos]; simp [excludedByPath, h2]
  rw [if_neg h2]
  by_cases h3 : startsWith aFile.runtimePath "/System/Library/QuickTime/" = true
  · rw [if_pos h3, if_pos]; simp [excludedByPath, h3]
  rw [if_neg h3]
  by_cases h4 : startsWith aFile.runtimePath "/System/Library/Tcl/" = true
  · rw [if_pos h4, if_pos]; simp [excludedByPath, h4]
  rw [if_neg h4]
  by_cases h5 : startsWith aFile.runtimePath "/System/Library/Perl/" = true
  · rw [if_pos h5, if_pos]; simp [excludedByPath, h5]
  rw [if_neg h5]
  by_cases h6 : startsWith aFile.runtimePath "/System/Library/MonitorPanels/" = true
  · rw [if_pos h6, if_pos]; simp [excludedByPath, h6]
  rw [if_neg h6]
  by_cases h7 : startsWith aFile.runtimePath "/System/Library/Accessibility/" = true
  · rw [if_pos h7, if_pos]; simp [excludedByPath, h7]
  rw [if_neg h7]
  by_cases h8 : startsWith aFile.runtimePath "/usr/local/" = true
  · rw [if_pos h8, if_pos]; simp [excludedByPath, h8]
  rw [if_neg h8]
  by_cases h9 : contains aFile.runtimePath ".app/" = true
  · rw [if_pos h9, if_pos]; simp [excludedByPath, h9]
  rw [if_neg h9]
  by_cases h10 : archName = "i386" ∧
      startsWith aFile.runtimePath "/System/Library/CoreServices/" = true
  · rw [if_pos h10, if_pos]; simp [excludedByPath, h10.1, h10.2]
  rw [if_neg h10]
  by_cases h11 : archName = "i386" ∧
      startsWith aFile.runtimePath "/System/Library/Extensions/" = true
  · rw [if_pos h11, if_pos]; simp [excludedByPath, h11.1, h11.2]
  rw [if_neg h11]
  have hfalse : ¬ (excludedByPath archName aFile skipDylibs = true) := by
    unfold excludedByPath
    simp only [Bool.or_eq_true, Bool.and_eq_true, decide_eq_true_eq]
    tauto
  rw [if_neg hfalse]

theorem substr_zero (str : String) : substr str 0 = some str := by
  simp [substr]

theorem substr_empty_length (str : String) : substr str ("" : String).length = some str :=
  substr_zero str

theorem dontCache_flag_of_warn (realpath : String → Option String)
    (volumePrefix archName : String) (dups : List String) (aFile : MappedMachO) (warn : Bool)
    (skipDylibs : List String) :
    (dontCache realpath volumePrefix archName dups aFile warn skipDylibs).map Prod.fst =
      dontCacheFlag realpath volumePrefix archName dups aFile skipDylibs := by
  unfold dontCacheFlag
  rw [dontCache_eq, dontCache_eq]
  by_cases h1 : excludedByPath archName aFile skipDylibs = true
  · rw [if_pos h1, if_pos h1]
  rw [if_neg h1, if_neg h1]
  by_cases h2 : contains aFile.runtimePath "//" = true
  · rw [if_pos h2, if_pos h2]; rfl
  rw [if_neg h2, if_neg h2]
  by_cases h3 : aFile.runtimePath ∈ dups ∧ aFile.runtimePath ≠ aFile.mh.installName
  · rw [if_pos h3, if_pos h3]; rfl
  rw [if_neg h3, if_neg h3]
  by_cases h4 : aFile.runtimePath ≠ aFile.mh.installName
  · rw [if_pos h4, if_pos h4]
    cases realpath (volumePrefix ++ aFile.mh.installName) with
    | none => rfl
    | some resolvedPath =>
      dsimp only
      cases (if volumePrefix = "" then some resolvedPath
             else substr resolvedPath volumePrefix.length) with
      | none => rfl
      | some resolvedSymlink =>
        dsimp only
        by_cases h5 : aFile.runtimePath = resolvedSymlink
        · rw [if_pos h5, if_pos h5]
        · rw [if_neg h5, if_neg h5]; rfl
  · rw [if_neg h4, if_neg h4]

/-- The resolved path with the volume prefix cut off, as `dontCache` computes it. -/
theorem resolvedSymlink_eq (volumePrefix resolvedPath : String) :
    (if volumePrefix = "" then some resolvedPath
      else substr resolvedPath volumePrefix.length) = substr resolvedPath volumePrefix.length := by
  by_cases h : volumePrefix = ""
  · rw [if_pos h, h]; exact (substr_empty_length resolvedPath).symm
  · rw [if_neg h]

theorem dontCacheFlag_eq_some_false_iff (realpath : String → Option String)
    (volumePrefix archName : String) (dups : List String) (aFile : MappedMachO)
    (skipDylibs : List String) :
    dontCacheFlag realpath volumePrefix archName dups aFile skipDylibs = some false ↔
      excludedByPath archName aFile skipDylibs = false ∧
      contains aFile.runtimePath "//" = false ∧
      (aFile.runtimePath = aFile.mh.installName ∨
        (aFile.runtimePath ∉ dups ∧
          ∃ resolvedPath, realpath (volumePrefix ++ aFile.mh.installName) = some resolvedPath ∧
            substr resolvedPath volumePrefix.length = some aFile.runtimePath)) := by
  unfold dontCacheFlag
  rw [dontCache_eq]
  by_cases h1 : excludedByPath archName aFile skipDylibs = true
  · rw [if_pos h1]; simp [h1]
  rw [if_neg h1]
  have h1f : excludedByPath archName aFile skipDylibs = false := by simpa using h1
  by_cases h2 : contains aFile.runtimePath "//" = true
  · rw [if_pos h2]; simp [h2]
  rw [if_neg h2]
  have h2f : contains aFile.runtimePath "//" = false := by simpa using h2
  by_cases h4 : aFile.runtimePath = aFile.mh.installName
  · rw [if_neg (fun h => h.2 h4), if_neg (fun h => h h4)]
    exact ⟨fun _ => ⟨h1f, h2f, Or.inl h4⟩, fun _ => rfl⟩
  by_cases h3 : aFile.runtimePath ∈ dups
  · rw [if_pos ⟨h3, h4⟩]
    constructor
    · intro h; cases h
    · rintro ⟨_, _, h | h⟩
      · exact absurd h h4
      · exact absurd h3 h.1
  rw [if_neg (fun h => h3 h.1), if_pos h4]
  cases hr : realpath (volumePrefix ++ aFile.mh.installName) with
  | none =>
    constructor
    · intro h; cases h
    · rintro ⟨_, _, h | ⟨_, r, hr2, _⟩⟩
      · exact absurd h h4
      · cases hr2
  | some resolvedPath =>
    dsimp only
    rw [resolvedSymlink_eq]
    cases hs : substr resolvedPath volumePrefix.length with
    | none =>
      constructor
      · intro h; cases h
      · rintro ⟨_, _, h | ⟨_, r, hr2, hs2⟩⟩
        · exact absurd h h4
        · cases hr2; rw [hs] at hs2; cases hs2
    | some resolvedSymlink =>
      dsimp only
      by_cases h5 : aFile.runtimePath = resolvedSymlink
      · rw [if_pos h5]
        exact ⟨fun _ => ⟨h1f, h2f, Or.inr ⟨h3, resolvedPath, rfl, by rw [hs, h5]⟩⟩, fun _ => rfl⟩
      · rw [if_neg h5]
        constructor
        · intro h; cases h
        · rintro ⟨_, _, h | ⟨_, r, hr2, hs2⟩⟩
          · exact absurd h h4
          · cases hr2; rw [hs] at hs2; cases hs2; exact absurd rfl h5

theorem dontCacheFlag_of_duplicate (realpath : String → Option String)
    (volumePrefix archName : String) (dups : List String) (aFile : MappedMachO)
    (skipDylibs : List String) (hdup : aFile.runtimePath ∈ dups)
    (hne : aFile.runtimePath ≠ aFile.mh.installName) :
    dontCacheFlag realpath volumePrefix archName dups aFile skipDylibs = some true := by
  unfold dontCacheFlag
  rw [dontCache_eq]
  by_cases h1 : excludedByPath archName aFile skipDylibs = true
  · rw [if_pos h1]; rfl
  rw [if_neg h1]
  by_cases h2 : contains aFile.runtimePath "//" = true
  · rw [if_pos h2]; rfl
  rw [if_neg h2, if_pos ⟨hdup, hne⟩]; rfl

/-! ## Lemmas on the loops of `pruneCachedDylibs` -/

theorem demoteLoop_eq_some (realpath : String → Option String) (volumePrefix archName : String)
    (dups skipDylibs : List String) :
    ∀ (dylibs others : List MappedMachO) (err : List String) (result : List MappedMachO)
      (lines : List String),
      demoteLoop realpath volumePrefix archName dups skipDylibs dylibs others err =
        some (result, lines) →
      result = others ++ dylibs.filter (fun aFile =>
        decide (dontCacheFlag realpath volumePrefix archName dups aFile skipDylibs = some true)) := by
  intro dylibs
  induction dylibs with
  | nil =>
    intro others err result lines h
    simp only [demoteLoop, Option.some.injEq, Prod.mk.injEq] at h
    simp [h.1]
  | cons aFile rest ih =>
    intro others err result lines h
    have hflag := dontCache_flag_of_warn realpath volumePrefix archName dups aFile true skipDylibs
    unfold demoteLoop at h
    cases hd : dontCache realpath volumePrefix archName dups aFile true skipDylibs with
    | none => rw [hd] at h; cases h
    | some pair =>
      obtain ⟨flag, out⟩ := pair
      rw [hd] at h hflag
      cases flag with
      | true =>
        have hf : dontCacheFlag realpath volumePrefix archName dups aFile skipDylibs = some true :=
          hflag.symm
        have := ih _ _ _ _ h
        rw [this, List.filter_cons_of_pos (by simp [hf])]
        simp
      | false =>
        have hf : dontCacheFlag realpath volumePrefix archName dups aFile skipDylibs = some false :=
          hflag.symm
        have := ih _ _ _ _ h
        rw [this, List.filter_cons_of_neg (by simp [hf])]

theorem removeIfDontCache_eq_some (realpath : String → Option String)
    (volumePrefix archName : String) (dups skipDylibs : List String) :
    ∀ (dylibs kept : List MappedMachO) (lines : List String),
      removeIfDontCache realpath volumePrefix archName dups skipDylibs dylibs =
        some (kept, lines) →
      kept = dylibs.filter (fun aFile =>
        decide (dontCacheFlag realpath volumePrefix archName dups aFile skipDylibs = some false)) := by
  intro dylibs
  induction dylibs with
  | nil =>
    intro kept lines h
    simp only [removeIfDontCache, Option.some.injEq, Prod.mk.injEq] at h
    rw [← h.1]; rfl
  | cons aFile rest ih =>
    intro kept lines h
    have hflag := dontCache_flag_of_warn realpath volumePrefix archName dups aFile false skipDylibs
    unfold removeIfDontCache at h
    cases hd : dontCache realpath volumePrefix archName dups aFile false skipDylibs with
    | none => rw [hd] at h; cases h
    | some pair =>
      obtain ⟨flag, out⟩ := pair
      rw [hd] at h hflag
      dsimp only at h
      cases hr : removeIfDontCache realpath volumePrefix archName dups skipDylibs rest with
      | none => rw [hr] at h; cases h
      | some pair2 =>
        obtain ⟨kept2, more⟩ := pair2
        rw [hr] at h
        simp only [Option.some.injEq, Prod.mk.injEq] at h
        have hk := ih _ _ hr
        cases flag with
        | true =>
          have hf : dontCacheFlag realpath volumePrefix archName dups aFile skipDylibs =
              some true := hflag.symm
          rw [List.filter_cons_of_neg (by simp [hf]), ← hk, ← h.1]
          simp
        | false =>
          have hf : dontCacheFlag realpath volumePrefix archName dups aFile skipDylibs =
              some false := hflag.symm
          rw [List.filter_cons_of_pos (by simp [hf]), ← hk, ← h.1]
          simp

theorem pruneCachedDylibs_eq_some (realpath : String → Option String) (volumePrefix : String)
    (skipDylibs : List String) (fileSet result : MappedMachOsByCategory) (lines : List String)
    (h : pruneCachedDylibs realpath volumePrefix skipDylibs fileSet = some (result, lines)) :
    result.archName = fileSet.archName ∧
    result.dylibsForCache = fileSet.dylibsForCache.filter (fun aFile =>
      decide (dontCacheFlag realpath volumePrefix fileSet.archName
        (findDuplicateInstallNames fileSet.dylibsForCache) aFile skipDylibs = some false)) ∧
    result.otherDylibsAndBundles = fileSet.otherDylibsAndBundles ++
      fileSet.dylibsForCache.filter (fun aFile =>
        decide (dontCacheFlag realpath volumePrefix fileSet.archName
          (findDuplicateInstallNames fileSet.dylibsForCache) aFile skipDylibs = some true)) ∧
    result.mainExecutables = fileSet.mainExecutables := by
  unfold pruneCachedDylibs at h
  dsimp only at h
  cases hd : demoteLoop realpath volumePrefix fileSet.archName
      (findDuplicateInstallNames fileSet.dylibsForCache) skipDylibs fileSet.dylibsForCache
      fileSet.otherDylibsAndBundles [] with
  | none => rw [hd] at h; cases h
  | some pair =>
    obtain ⟨others, err⟩ := pair
    rw [hd] at h
    dsimp only at h
    cases hr : removeIfDontCache realpath volumePrefix fileSet.archName
        (findDuplicateInstallNames fileSet.dylibsForCache) skipDylibs fileSet.dylibsForCache with
    | none => rw [hr] at h; cases h
    | some pair2 =>
      obtain ⟨kept, more⟩ := pair2
      rw [hr] at h
      simp only [Option.some.injEq, Prod.mk.injEq] at h
      have h1 := demoteLoop_eq_some _ _ _ _ _ _ _ _ _ _ hd
      have h2 := removeIfDontCache_eq_some _ _ _ _ _ _ _ _ hr
      rw [← h.1]
      exact ⟨rfl, h2, h1, rfl⟩

/-! ## Lemmas on the set of paths with a duplicate install name -/

theorem mem_setInsert (set : List String) (x y : String) :
    y ∈ setInsert set x ↔ y ∈ set ∨ y = x := by
  unfold setInsert
  by_cases h : x ∈ set
  · rw [if_pos h]
    constructor
    · exact Or.inl
    · rintro (h1 | h1)
      · exact h1
      · rw [h1]; exact h
  · rw [if_neg h]; simp

theorem lookup_append_of_some (map : List (String × String)) (key value other : String)
    (first : String) (h : map.lookup key = some first) :
    (map ++ [(other, value)]).lookup key = some first := by
  induction map with
  | nil => simp [List.lookup] at h
  | cons pair rest ih =>
    obtain ⟨k, v⟩ := pair
    by_cases hk : key = k
    · subst hk
      simp only [List.cons_append, List.lookup_cons, beq_self_eq_true] at h ⊢
      exact h
    · have hb : (key == k) = false := by simpa using hk
      simp only [List.cons_append, List.lookup_cons, hb] at h ⊢
      exact ih h

theorem lookup_append_of_none (map : List (String × String)) (key value : String)
    (h : map.lookup key = none) :
    (map ++ [(key, value)]).lookup key = some value := by
  induction map with
  | nil => simp [List.lookup]
  | cons pair rest ih =>
    obtain ⟨k, v⟩ := pair
    by_cases hk : key = k
    · subst hk
      simp [List.lookup_cons] at h
    · have hb : (key == k) = false := by simpa using hk
      simp only [List.cons_append, List.lookup_cons, hb] at h ⊢
      exact ih h

theorem recordInstallName_mono (state : List (String × String) × List String)
    (aFile : MappedMachO) (x : String) (h : x ∈ state.2) :
    x ∈ (recordInstallName state aFile).2 := by
  unfold recordInstallName
  dsimp only
  cases state.1.lookup aFile.mh.installName with
  | none => exact h
  | some first =>
    dsimp only
    rw [mem_setInsert, mem_setInsert]
    exact Or.inl (Or.inl h)

theorem foldl_recordInstallName_mono (dylibs : List MappedMachO) :
    ∀ (state : List (String × String) × List String) (x : String), x ∈ state.2 →
      x ∈ (dylibs.foldl recordInstallName state).2 := by
  induction dylibs with
  | nil => intro state x h; exact h
  | cons aFile rest ih =>
    intro state x h
    rw [List.foldl_cons]
    exact ih _ _ (recordInstallName_mono state aFile x h)

theorem recordInstallName_lookup (state : List (String × String) × List String)
    (aFile : MappedMachO) (key first : String) (h : state.1.lookup key = some first) :
    (recordInstallName state aFile).1.lookup key = some first := by
  unfold recordInstallName
  dsimp only
  cases state.1.lookup aFile.mh.installName with
  | none => exact lookup_append_of_some _ _ _ _ _ h
  | some other => exact h

theorem foldl_recordInstallName_seen (dylibs : List MappedMachO) :
    ∀ (state : List (String × String) × List String) (first : String) (later : MappedMachO),
      later ∈ dylibs → state.1.lookup later.mh.installName = some first →
      later.runtimePath ∈ (dylibs.foldl recordInstallName state).2 ∧
      first ∈ (dylibs.foldl recordInstallName state).2 := by
  induction dylibs with
  | nil => intro state first later h; cases h
  | cons aFile rest ih =>
    intro state first later hmem hlook
    rw [List.foldl_cons]
    rcases List.mem_cons.1 hmem with h | h
    · subst h
      have hstep : later.runtimePath ∈ (recordInstallName state later).2 ∧
          first ∈ (recordInstallName state later).2 := by
        unfold recordInstallName
        dsimp only
        rw [hlook]
        dsimp only
        rw [mem_setInsert, mem_setInsert, mem_setInsert, mem_setInsert]
        exact ⟨Or.inl (Or.inr rfl), Or.inr rfl⟩
      exact ⟨foldl_recordInstallName_mono _ _ _ hstep.1,
        foldl_recordInstallName_mono _ _ _ hstep.2⟩
    · exact ih _ first later h (recordInstallName_lookup state aFile _ _ hlook)

theorem foldl_recordInstallName_pair (dylibs : List MappedMachO) :
    ∀ (state : List (String × String) × List String) (a b : MappedMachO),
      [a, b].Sublist dylibs → a.mh.installName = b.mh.installName →
      a.runtimePath ∈ (dylibs.foldl recordInstallName state).2 ∧
      b.runtimePath ∈ (dylibs.foldl recordInstallName state).2 := by
  induction dylibs with
  | nil => intro state a b h; cases h
  | cons aFile rest ih =>
    intro state a b hsub hname
    rw [List.foldl_cons]
    cases hsub with
    | cons _ h => exact ih _ a b h hname
    | cons₂ _ h =>
      have hb : b ∈ rest := by
        have := h.subset
        exact this (List.mem_singleton.2 rfl)
      cases hl : state.1.lookup aFile.mh.installName with
      | none =>
        have hstate : recordInstallName state aFile =
            (state.1 ++ [(aFile.mh.installName, aFile.runtimePath)], state.2) := by
          unfold recordInstallName
          dsimp only
          rw [hl]
        have hlook : (recordInstallName state aFile).1.lookup b.mh.installName =
            some aFile.runtimePath := by
          rw [hstate, ← hname]
          exact lookup_append_of_none _ _ _ hl
        have := foldl_recordInstallName_seen rest _ _ b hb hlook
        exact ⟨this.2, this.1⟩
      | some first =>
        have hstep : aFile.runtimePath ∈ (recordInstallName state aFile).2 := by
          unfold recordInstallName
          dsimp only
          rw [hl]
          dsimp only
          rw [mem_setInsert, mem_setInsert]
          exact Or.inl (Or.inr rfl)
        have hlook : (recordInstallName state aFile).1.lookup b.mh.installName = some first := by
          rw [← hname]
          exact recordInstallName_lookup state aFile _ _ hl
        have := foldl_recordInstallName_seen rest _ _ b hb hlook
        exact ⟨foldl_recordInstallName_mono _ _ _ hstep, this.1⟩

/-- Two candidates at different places of the sequence with one install name: both runtime
paths are in the set of paths with a duplicate install name. -/
theorem mem_findDuplicateInstallNames (dylibs : List MappedMachO) (a b : MappedMachO)
    (hsub : [a, b].Sublist dylibs) (hname : a.mh.installName = b.mh.installName) :
    a.runtimePath ∈ findDuplicateInstallNames dylibs ∧
    b.runtimePath ∈ findDuplicateInstallNames dylibs :=
  foldl_recordInstallName_pair dylibs _ a b hsub hname

/-! ## Lemmas on the block of `dispatch_apply` -/

theorem emit_events (state : RunState) (events : List Event) :
    (state.emit events).events = state.events ++ events := rfl

theorem emit_cacheBuildFailure (state : RunState) (events : List Event) :
    (state.emit events).cacheBuildFailure = state.cacheBuildFailure := rfl

theorem emit_wroteSomeCacheFile (state : RunState) (events : List Event) :
    (state.emit events).wroteSomeCacheFile = state.wroteSomeCacheFile := rfl

theorem buildAndSave_of_error (world : World) (locals : MainLocals)
    (fileSet : MappedMachOsByCategory) (state : RunState)
    (herr : (world.create (createOptions locals fileSet) fileSet.dylibsForCache
      fileSet.otherDylibsAndBundles fileSet.mainExecutables).errorMessage ≠ "") :
    buildAndSave world locals fileSet state =
      { cacheBuildFailure := true
        wroteSomeCacheFile := state.wroteSomeCacheFile
        events := state.events ++ buildPrelude world locals fileSet ++
          [Event.stderr ("update_dyld_shared_cache: " ++
            (world.create (createOptions locals fileSet) fileSet.dylibsForCache
              fileSet.otherDylibsAndBundles fileSet.mainExecutables).errorMessage ++ "\n")] } := by
  unfold buildAndSave
  dsimp only
  rw [if_pos herr]
  simp only [RunState.emit, buildPrelude, List.append_assoc]

theorem buildAndSave_of_save_failure (world : World) (locals : MainLocals)
    (fileSet : MappedMachOsByCategory) (state : RunState)
    (herr : (world.create (createOptions locals fileSet) fileSet.dylibsForCache
      fileSet.otherDylibsAndBundles fileSet.mainExecutables).errorMessage = "")
    (hsave : world.safeSave (outFile locals fileSet) = false) :
    buildAndSave world locals fileSet state =
      { cacheBuildFailure := true
        wroteSomeCacheFile := state.wroteSomeCacheFile
        events := state.events ++ buildPrelude world locals fileSet ++
          [Event.safeSave (SavedBuffer.cache
              (world.create (createOptions locals fileSet) fileSet.dylibsForCache
                fileSet.otherDylibsAndBundles fileSet.mainExecutables).cacheContent)
            (world.create (createOptions locals fileSet) fileSet.dylibsForCache
              fileSet.otherDylibsAndBundles fileSet.mainExecutables).cacheLength
            (outFile locals fileSet) false,
           Event.stderr ("update_dyld_shared_cache: could not write dyld cache file " ++
            outFile locals fileSet ++ "\n")] } := by
  unfold buildAndSave
  dsimp only
  rw [if_neg (fun h => h herr), hsave]
  simp only [RunState.emit, buildPrelude, List.append_assoc, Bool.false_eq_true, if_false,
    if_true, List.cons_append, List.nil_append]

theorem buildAndSave_of_saved_after_failure (world : World) (locals : MainLocals)
    (fileSet : MappedMachOsByCategory) (state : RunState)
    (herr : (world.create (createOptions locals fileSet) fileSet.dylibsForCache
      fileSet.otherDylibsAndBundles fileSet.mainExecutables).errorMessage = "")
    (hsave : world.safeSave (outFile locals fileSet) = true)
    (hfailed : state.cacheBuildFailure = true) :
    buildAndSave world locals fileSet state =
      { cacheBuildFailure := true
        wroteSomeCacheFile := state.wroteSomeCacheFile
        events := state.events ++ buildPrelude world locals fileSet ++
          [Event.safeSave (SavedBuffer.cache
              (world.create (createOptions locals fileSet) fileSet.dylibsForCache
                fileSet.otherDylibsAndBundles fileSet.mainExecutables).cacheContent)
            (world.create (createOptions locals fileSet) fileSet.dylibsForCache
              fileSet.otherDylibsAndBundles fileSet.mainExecutables).cacheLength
            (outFile locals fileSet) true] } := by
  unfold buildAndSave
  dsimp only
  rw [if_neg (fun h => h herr), hsave]
  simp only [RunState.emit, buildPrelude, List.append_assoc, if_true, hfailed,
    List.cons_append, List.nil_append]

theorem buildAndSave_of_saved (world : World) (locals : MainLocals)
    (fileSet : MappedMachOsByCategory) (state : RunState)
    (herr : (world.create (createOptions locals fileSet) fileSet.dylibsForCache
      fileSet.otherDylibsAndBundles fileSet.mainExecutables).errorMessage = "")
    (hsave : world.safeSave (outFile locals fileSet) = true)
    (hfailed : state.cacheBuildFailure = false) :
    buildAndSave world locals fileSet state =
      { cacheBuildFailure := false
        wroteSomeCacheFile := true
        events := state.events ++ buildPrelude world locals fileSet ++
          [Event.safeSave (SavedBuffer.cache
              (world.create (createOptions locals fileSet) fileSet.dylibsForCache
                fileSet.otherDylibsAndBundles fileSet.mainExecutables).cacheContent)
            (world.create (createOptions locals fileSet) fileSet.dylibsForCache
              fileSet.otherDylibsAndBundles fileSet.mainExecutables).cacheLength
            (outFile locals fileSet) true] ++
          (Event.setxattr (outFile locals fileSet) "cacheUUID"
              (world.create (createOptions locals fileSet) fileSet.dylibsForCache
                fileSet.otherDylibsAndBundles fileSet.mainExecutables).cacheContent.uuid ::
            match world.setxattr (outFile locals fileSet) with
            | none => []
            | some error =>
              [Event.stderr ("update_dyld_shared_cache: warning: failure to set UUID xattr on " ++
                "shared cache file " ++ outFile locals fileSet ++ " with error " ++ error ++
                "\n")]) ++
          [Event.safeSave (SavedBuffer.text
              (world.create (createOptions locals fileSet) fileSet.dylibsForCache
                fileSet.otherDylibsAndBundles fileSet.mainExecutables).cacheContent.mapFile)
            (world.create (createOptions locals fileSet) fileSet.dylibsForCache
              fileSet.otherDylibsAndBundles fileSet.mainExecutables).cacheContent.mapFile.length
            (outFileMap locals fileSet) (world.safeSave (outFileMap locals fileSet))] } := by
  unfold buildAndSave
  dsimp only
  rw [if_neg (fun h => h herr), hsave]
  simp only [RunState.emit, buildPrelude, List.append_assoc, if_true, hfailed,
    Bool.false_eq_true, if_false, List.cons_append, List.nil_append]

theorem cacheBuildBlock_of_gate_closed (world : World) (locals : MainLocals) (requireSIP : Bool)
    (fileSet : MappedMachOsByCategory) (state : RunState)
    (hgate : gateOpen world locals requireSIP fileSet = false) :
    cacheBuildBlock world locals requireSIP fileSet state =
      state.emit (blockPrelude world locals requireSIP fileSet) := by
  unfold gateOpen at hgate
  rw [Bool.or_eq_false_iff] at hgate
  obtain ⟨hforce, hfresh⟩ := hgate
  have hfresh2 : cacheIsFresh world locals requireSIP fileSet = true := by simpa using hfresh
  unfold cacheIsFresh verifiedBucket at hfresh2
  unfold cacheBuildBlock blockPrelude verifiedBucket
  dsimp only
  rw [hforce]
  simp only [Bool.false_eq_true, if_false, hfresh2, if_true, RunState.emit, List.append_assoc]

theorem cacheBuildBlock_of_gate_open (world : World) (locals : MainLocals) (requireSIP : Bool)
    (fileSet : MappedMachOsByCategory) (state : RunState)
    (hgate : gateOpen world locals requireSIP fileSet = true) :
    cacheBuildBlock world locals requireSIP fileSet state =
      buildAndSave world locals (verifiedBucket world locals requireSIP fileSet)
        (state.emit (blockPrelude world locals requireSIP fileSet)) := by
  unfold gateOpen at hgate
  unfold cacheBuildBlock blockPrelude verifiedBucket
  dsimp only
  by_cases hforce : locals.force = true
  · rw [if_pos hforce, if_pos hforce]
    simp only [RunState.emit, List.append_nil]
  · have hf : locals.force = false := by simpa using hforce
    rw [hf] at hgate
    have hfresh : cacheIsFresh world locals requireSIP fileSet = false := by simpa using hgate
    unfold cacheIsFresh verifiedBucket at hfresh
    rw [if_neg hforce, if_neg hforce, hfresh]
    simp only [Bool.false_eq_true, if_false, RunState.emit, List.append_assoc]

/-- Every effect of the prelude of a block is a line on stderr. -/
theorem blockPrelude_stderr (world : World) (locals : MainLocals) (requireSIP : Bool)
    (fileSet : MappedMachOsByCategory) :
    ∀ event ∈ blockPrelude world locals requireSIP fileSet, ∃ line, event = Event.stderr line := by
  intro event hmem
  unfold blockPrelude at hmem
  rw [List.mem_append] at hmem
  rcases hmem with h | h
  · obtain ⟨line, _, rfl⟩ := List.mem_map.1 h
    exact ⟨line, rfl⟩
  · by_cases hforce : locals.force = true
    · rw [if_pos hforce] at h; cases h
    · rw [if_neg hforce] at h
      obtain ⟨line, _, rfl⟩ := List.mem_map.1 h
      exact ⟨line, rfl⟩

/-- The flag `cacheBuildFailure` after a block: set before, or set by this block. -/
theorem cacheBuildBlock_cacheBuildFailure (world : World) (locals : MainLocals)
    (requireSIP : Bool) (fileSet : MappedMachOsByCategory) (state : RunState) :
    (cacheBuildBlock world locals requireSIP fileSet state).cacheBuildFailure =
      (state.cacheBuildFailure || blockFails world locals requireSIP fileSet) := by
  unfold blockFails
  cases hgate : gateOpen world locals requireSIP fileSet with
  | false =>
    rw [cacheBuildBlock_of_gate_closed _ _ _ _ _ hgate]
    simp [RunState.emit]
  | true =>
    rw [cacheBuildBlock_of_gate_open _ _ _ _ _ hgate]
    by_cases herr : (builderResults world locals requireSIP fileSet).errorMessage = ""
    · cases hsave : world.safeSave (outFile locals (verifiedBucket world locals requireSIP fileSet))
        with
      | false =>
        rw [buildAndSave_of_save_failure _ _ _ _ herr hsave]
        simp
      | true =>
        cases hfailed : state.cacheBuildFailure with
        | false =>
          rw [buildAndSave_of_saved _ _ _ _ herr hsave (by rw [emit_cacheBuildFailure, hfailed])]
          simp [herr]
        | true =>
          rw [buildAndSave_of_saved_after_failure _ _ _ _ herr hsave
            (by rw [emit_cacheBuildFailure, hfailed])]
          simp
    · rw [buildAndSave_of_error _ _ _ _ herr]
      simp [herr]

/-- The block in closed form: the two flags and the effects it appends. -/
theorem cacheBuildBlock_eq (world : World) (locals : MainLocals) (requireSIP : Bool)
    (fileSet : MappedMachOsByCategory) (state : RunState) :
    cacheBuildBlock world locals requireSIP fileSet state =
      { cacheBuildFailure :=
          state.cacheBuildFailure || blockFails world locals requireSIP fileSet
        wroteSomeCacheFile :=
          state.wroteSomeCacheFile ||
            blockWrites world locals requireSIP fileSet state.cacheBuildFailure
        events := state.events ++ (blockPrelude world locals requireSIP fileSet ++
          blockTail world locals requireSIP fileSet state.cacheBuildFailure) } := by
  unfold blockFails blockWrites blockTail
  cases hgate : gateOpen world locals requireSIP fileSet with
  | false =>
    rw [cacheBuildBlock_of_gate_closed _ _ _ _ _ hgate]
    simp [RunState.emit]
  | true =>
    rw [cacheBuildBlock_of_gate_open _ _ _ _ _ hgate]
    by_cases herr : (builderResults world locals requireSIP fileSet).errorMessage = ""
    · unfold builderResults at herr
      cases hsave : world.safeSave (outFile locals (verifiedBucket world locals requireSIP fileSet))
        with
      | false =>
        rw [buildAndSave_of_save_failure _ _ _ _ herr hsave]
        simp [herr, RunState.emit, artifactSave, builderResults]
      | true =>
        cases hfailed : state.cacheBuildFailure with
        | false =>
          rw [buildAndSave_of_saved _ _ _ _ herr hsave (by rw [emit_cacheBuildFailure, hfailed])]
          simp [herr, RunState.emit, artifactSave, afterSaveEvents, builderResults]
        | true =>
          rw [buildAndSave_of_saved_after_failure _ _ _ _ herr hsave
            (by rw [emit_cacheBuildFailure, hfailed])]
          simp [herr, RunState.emit, artifactSave, builderResults]
    · unfold builderResults at herr
      rw [buildAndSave_of_error _ _ _ _ herr]
      simp [herr, RunState.emit, builderResults]

theorem gateOpen_iff (world : World) (locals : MainLocals) (requireSIP : Bool)
    (fileSet : MappedMachOsByCategory) :
    gateOpen world locals requireSIP fileSet = true ↔
      (locals.force = true ∨ cacheIsFresh world locals requireSIP fileSet = false) := by
  unfold gateOpen
  simp

/-! ## Lemmas on `dispatch_apply` and the exit status -/

theorem verifiedBucket_archName (world : World) (locals : MainLocals) (requireSIP : Bool)
    (fileSet : MappedMachOsByCategory) :
    (verifiedBucket world locals requireSIP fileSet).archName = fileSet.archName := rfl

theorem outFile_verifiedBucket (world : World) (locals : MainLocals) (requireSIP : Bool)
    (fileSet : MappedMachOsByCategory) :
    outFile locals (verifiedBucket world locals requireSIP fileSet) = outFile locals fileSet := rfl

theorem string_append_left_cancel (s a b : String) (h : s ++ a = s ++ b) : a = b := by
  have hd := congrArg String.data h
  rw [String.data_append, String.data_append] at hd
  exact String.ext (List.append_cancel_left hd)

theorem outFile_injective (locals : MainLocals) (a b : MappedMachOsByCategory)
    (h : outFile locals a = outFile locals b) : a.archName = b.archName := by
  unfold outFile at h
  rw [String.append_assoc, String.append_assoc] at h
  exact string_append_left_cancel _ _ _ (string_append_left_cancel _ _ _ h)

/-- The block that a position of `order` runs, as a flag: whether it sets
`cacheBuildFailure`. -/
theorem dispatchApply_cacheBuildFailure (world : World) (locals : MainLocals)
    (requireSIP : Bool) (allFileSets : List MappedMachOsByCategory) (order : List Nat) :
    ∀ state : RunState,
      (dispatchApply allFileSets (cacheBuildBlock world locals requireSIP) order
        state).cacheBuildFailure =
      (state.cacheBuildFailure || order.any (fun index =>
        match allFileSets.get? index with
        | some fileSet => blockFails world locals requireSIP fileSet
        | none => false)) := by
  induction order with
  | nil => intro state; simp [dispatchApply]
  | cons index rest ih =>
    intro state
    have hstep : dispatchApply allFileSets (cacheBuildBlock world locals requireSIP)
        (index :: rest) state =
        dispatchApply allFileSets (cacheBuildBlock world locals requireSIP) rest
          (match allFileSets.get? index with
            | some fileSet => cacheBuildBlock world locals requireSIP fileSet state
            | none => state) := rfl
    rw [hstep, ih, List.any_cons]
    cases allFileSets.get? index with
    | none => simp
    | some fileSet =>
      dsimp only
      rw [cacheBuildBlock_cacheBuildFailure, Bool.or_assoc]

theorem any_blockFails_iff (world : World) (locals : MainLocals) (requireSIP : Bool)
    (allFileSets : List MappedMachOsByCategory) (order : List Nat)
    (horder : order.Perm (List.range allFileSets.length)) :
    order.any (fun index =>
        match allFileSets.get? index with
        | some fileSet => blockFails world locals requireSIP fileSet
        | none => false) = true ↔
      ∃ fileSet ∈ allFileSets, blockFails world locals requireSIP fileSet = true := by
  rw [List.any_eq_true]
  constructor
  · rintro ⟨index, _, h⟩
    cases hget : allFileSets.get? index with
    | none => rw [hget] at h; cases h
    | some fileSet =>
      rw [hget] at h
      exact ⟨fileSet, List.get?_mem hget, h⟩
  · rintro ⟨fileSet, hmem, h⟩
    obtain ⟨index, hget⟩ := List.mem_iff_get?.1 hmem
    have hlt : index < allFileSets.length := by
      by_contra hge
      rw [List.get?_eq_none.2 (Nat.le_of_not_lt hge)] at hget
      cases hget
    refine ⟨index, (horder.mem_iff).2 (List.mem_range.2 hlt), ?_⟩
    rw [hget]
    exact h

theorem mainBuildCaches_exit (world : World) (locals : MainLocals) (order : List Nat)
    (allFileSets : List MappedMachOsByCategory) (lines : List String)
    (hpruned : prunedFileSets world locals = some (allFileSets, lines)) :
    (mainBuildCaches world locals order).map Prod.fst =
      some (if order.any (fun index =>
        match allFileSets.get? index with
        | some fileSet =>
          blockFails world locals (world.isProtectedBySIP locals.cacheDir) fileSet
        | none => false) = true then 1 else 0) := by
  unfold mainBuildCaches
  rw [hpruned]
  dsimp only
  have hflag : ∀ (state : RunState) (events : List Event),
      (if state.wroteSomeCacheFile && world.dscsymLoads then state.emit events
        else state).cacheBuildFailure = state.cacheBuildFailure := by
    intro state events
    split_ifs <;> rfl
  rw [Option.map_some', hflag]
  unfold runAllBlocks
  rw [dispatchApply_cacheBuildFailure]
  simp [RunState.emit]

theorem loaderSearch_congr (world other : World) (hstat : other.stat = world.stat)
    (hopen : other.openFile = world.openFile) (archName : String) (requireSIP : Bool)
    (runtimePath : String) :
    ∀ pathPrefixes : List String,
      loaderSearch other archName requireSIP runtimePath pathPrefixes =
        loaderSearch world archName requireSIP runtimePath pathPrefixes := by
  intro pathPrefixes
  induction pathPrefixes with
  | nil => rfl
  | cons pathPrefix rest ih =>
    unfold loaderSearch
    rw [hstat, hopen, ih]

/-- Closure verification in the block reads the world only through `stat`, `::open` and the
bound on the expansion. -/
theorem verifiedFileSet_congr (world other : World) (hstat : other.stat = world.stat)
    (hopen : other.openFile = world.openFile) (hfuel : other.closureFuel = world.closureFuel)
    (locals : MainLocals) (requireSIP : Bool) (fileSet : MappedMachOsByCategory) :
    verifiedFileSet other locals requireSIP fileSet =
      verifiedFileSet world locals requireSIP fileSet := by
  unfold verifiedFileSet
  have hloader : loader other locals fileSet.archName requireSIP =
      loader world locals fileSet.archName requireSIP := by
    funext runtimePath
    unfold loader
    rw [loaderSearch_congr world other hstat hopen]
  rw [hloader, hfuel]

theorem pruneAll_congr (world other : World) (hrealpath : other.realpath = world.realpath)
    (locals : MainLocals) :
    ∀ fileSets : List MappedMachOsByCategory,
      pruneAll other locals fileSets = pruneAll world locals fileSets := by
  intro fileSets
  induction fileSets with
  | nil => rfl
  | cons fileSet rest ih =>
    unfold pruneAll
    rw [hrealpath, ih]

/-- Whether a block fails reads the world only through closure verification, the existing
cache, the error message of the builder and the outcome of `safeSave`. -/
theorem blockFails_congr (world other : World) (hstat : other.stat = world.stat)
    (hopen : other.openFile = world.openFile) (hfuel : other.closureFuel = world.closureFuel)
    (hcache : other.openCache = world.openCache) (hsave : other.safeSave = world.safeSave)
    (herr : ∀ options dylibs others mains,
      (other.create options dylibs others mains).errorMessage =
        (world.create options dylibs others mains).errorMessage)
    (locals : MainLocals) (requireSIP : Bool) (fileSet : MappedMachOsByCategory) :
    blockFails other locals requireSIP fileSet = blockFails world locals requireSIP fileSet := by
  unfold blockFails gateOpen cacheIsFresh builderResults verifiedBucket
  rw [verifiedFileSet_congr world other hstat hopen hfuel, hcache, hsave, herr]

theorem blockFails_iff (world : World) (locals : MainLocals) (requireSIP : Bool)
    (fileSet : MappedMachOsByCategory) :
    blockFails world locals requireSIP fileSet = true ↔
      (locals.force = true ∨ cacheIsFresh world locals requireSIP fileSet = false) ∧
      ((builderResults world locals requireSIP fileSet).errorMessage ≠ "" ∨
        ((builderResults world locals requireSIP fileSet).errorMessage = "" ∧
          world.safeSave (outFile locals fileSet) = false)) := by
  unfold blockFails
  rw [Bool.and_eq_true, gateOpen_iff, outFile_verifiedBucket]
  by_cases herr : (builderResults world locals requireSIP fileSet).errorMessage = ""
  · simp [herr]
  · simp [herr]

/-- Discovery and pruning read the world only through the two searches, `isProtectedBySIP`,
`runningOnHaswell`, `realpath` and the clock. -/
theorem prunedFileSets_congr (world other : World) (hrealpath : other.realpath = world.realpath)
    (hsip : other.isProtectedBySIP = world.isProtectedBySIP)
    (hdisk : other.findAllFiles = world.findAllFiles)
    (hboms : other.findOSFilesViaBOMS = world.findOSFilesViaBOMS)
    (hhaswell : other.runningOnHaswell = world.runningOnHaswell)
    (htime : other.scanAbsoluteTime = world.scanAbsoluteTime) (locals : MainLocals) :
    prunedFileSets other locals = prunedFileSets world locals := by
  unfold prunedFileSets requestedArchs timingLines
  dsimp only
  rw [pruneAll_congr world other hrealpath, hsip, hdisk, hboms, hhaswell, htime]

theorem dispatchApply_cons (allFileSets : List MappedMachOsByCategory)
    (block : MappedMachOsByCategory → RunState → RunState) (index : Nat) (rest : List Nat)
    (state : RunState) :
    dispatchApply allFileSets block (index :: rest) state =
      dispatchApply allFileSets block rest
        (match allFileSets.get? index with
          | some fileSet => block fileSet state
          | none => state) := rfl

theorem cacheBuildBlock_events (world : World) (locals : MainLocals) (requireSIP : Bool)
    (fileSet : MappedMachOsByCategory) (state : RunState) :
    (cacheBuildBlock world locals requireSIP fileSet state).events =
      state.events ++ (blockPrelude world locals requireSIP fileSet ++
        blockTail world locals requireSIP fileSet state.cacheBuildFailure) := by
  rw [cacheBuildBlock_eq]

/-- The effects of a run are never taken back. -/
theorem dispatchApply_events_mono (world : World) (locals : MainLocals) (requireSIP : Bool)
    (allFileSets : List MappedMachOsByCategory) (order : List Nat) (event : Event) :
    ∀ state : RunState, event ∈ state.events →
      event ∈ (dispatchApply allFileSets (cacheBuildBlock world locals requireSIP) order
        state).events := by
  induction order with
  | nil => intro state h; exact h
  | cons index rest ih =>
    intro state h
    rw [dispatchApply_cons]
    apply ih
    cases allFileSets.get? index with
    | none => exact h
    | some fileSet =>
      dsimp only
      rw [cacheBuildBlock_events]
      exact List.mem_append_left _ h

/-- What a block does whatever failure was recorded before it is among the effects of every
run that starts the block. -/
theorem dispatchApply_events_of_block (world : World) (locals : MainLocals) (requireSIP : Bool)
    (allFileSets : List MappedMachOsByCategory) (order : List Nat) (event : Event)
    (index : Nat) (fileSet : MappedMachOsByCategory) (hindex : index ∈ order)
    (hget : allFileSets.get? index = some fileSet)
    (hevent : ∀ failedBefore, event ∈ blockPrelude world locals requireSIP fileSet ++
      blockTail world locals requireSIP fileSet failedBefore) :
    ∀ state : RunState,
      event ∈ (dispatchApply allFileSets (cacheBuildBlock world locals requireSIP) order
        state).events := by
  induction order with
  | nil => cases hindex
  | cons first rest ih =>
    intro state
    rw [dispatchApply_cons]
    by_cases hfirst : index = first
    · subst hfirst
      rw [hget]
      dsimp only
      apply dispatchApply_events_mono
      rw [cacheBuildBlock_events]
      exact List.mem_append_right _ (hevent _)
    · rcases List.mem_cons.1 hindex with h | h
      · exact absurd h hfirst
      · exact ih h _

/-- Every effect of a run was there before or comes from one of the blocks. -/
theorem dispatchApply_events_origin (world : World) (locals : MainLocals) (requireSIP : Bool)
    (allFileSets : List MappedMachOsByCategory) (order : List Nat) (event : Event) :
    ∀ state : RunState,
      event ∈ (dispatchApply allFileSets (cacheBuildBlock world locals requireSIP) order
        state).events →
      event ∈ state.events ∨ ∃ fileSet ∈ allFileSets, ∃ failedBefore,
        event ∈ blockPrelude world locals requireSIP fileSet ++
          blockTail world locals requireSIP fileSet failedBefore := by
  induction order with
  | nil => intro state h; exact Or.inl h
  | cons index rest ih =>
    intro state h
    rw [dispatchApply_cons] at h
    rcases ih _ h with h1 | h1
    · cases hget : allFileSets.get? index with
      | none => rw [hget] at h1; exact Or.inl h1
      | some fileSet =>
        rw [hget] at h1
        dsimp only at h1
        rw [cacheBuildBlock_events, List.mem_append] at h1
        rcases h1 with h2 | h2
        · exact Or.inl h2
        · exact Or.inr ⟨fileSet, List.get?_mem hget, _, h2⟩
    · exact Or.inr h1

theorem mainBuildCaches_events (world : World) (locals : MainLocals) (order : List Nat)
    (allFileSets : List MappedMachOsByCategory) (lines : List String)
    (hpruned : prunedFileSets world locals = some (allFileSets, lines)) :
    ∃ exit events, mainBuildCaches world locals order = some (exit, events) ∧
      (∀ event ∈ (runAllBlocks world locals allFileSets lines order).events, event ∈ events) ∧
      (∀ event ∈ events, event ∈ (runAllBlocks world locals allFileSets lines order).events ∨
        ∃ nuggetRoot, event = Event.saveDscsyms nuggetRoot) := by
  unfold mainBuildCaches
  rw [hpruned]
  dsimp only
  refine ⟨_, _, rfl, ?_, ?_⟩
  · intro event hmem
    by_cases hc : ((runAllBlocks world locals allFileSets lines order).wroteSomeCacheFile &&
        world.dscsymLoads) = true
    · rw [if_pos hc]; exact List.mem_append_left _ hmem
    · rw [if_neg hc]; exact hmem
  · intro event hmem
    by_cases hc : ((runAllBlocks world locals allFileSets lines order).wroteSomeCacheFile &&
        world.dscsymLoads) = true
    · rw [if_pos hc] at hmem
      rcases List.mem_append.1 hmem with h | h
      · exact Or.inl h
      · exact Or.inr ⟨_, List.mem_singleton.1 h⟩
    · rw [if_neg hc] at hmem; exact Or.inl hmem

/-- Once the options are parsed, `-root` and `-overlay` are not both given and the cache
directory is made, `main` is the part after line 662 on the locals it has set. -/
theorem main_eq_mainBuildCaches (world : World) (argv : List String) (order : List Nat)
    (options : ParsedOptions)
    (hparse : parseOptions (argv.drop 1) {} = Except.ok options)
    (hpaths : options.rootPath = "" ∨ options.overlayPath = "")
    (hmkpath : world.mkpath_np (localsOf world options).cacheDir = 0 ∨
      world.mkpath_np (localsOf world options).cacheDir = EEXIST) :
    main world argv order = mainBuildCaches world (localsOf world options) order := by
  unfold main
  rw [hparse]
  dsimp only
  have h1 : ¬ (options.rootPath ≠ "" ∧ options.overlayPath ≠ "") := by
    rintro ⟨h2, h3⟩
    rcases hpaths with h | h
    · exact h2 h
    · exact h3 h
  rw [if_neg h1]
  have h4 : ¬ (world.mkpath_np (localsOf world options).cacheDir ≠ 0 ∧
      world.mkpath_np (localsOf world options).cacheDir ≠ EEXIST) := by
    rintro ⟨h5, h6⟩
    rcases hmkpath with h | h
    · exact h5 h
    · exact h6 h
  rw [if_neg h4]

theorem localsOf_withTagsAndWarnings (world : World)
    (removexattr setxattr : String → Option String)
    (warnings : CreateOptions → List MappedMachO → List MappedMachO → List MappedMachO →
      List String) (options : ParsedOptions) :
    localsOf (world.withTagsAndWarnings removexattr setxattr warnings) options =
      localsOf world options := rfl

/-! ## Pruning returns when the volume prefix is empty -/

/-- With an empty volume prefix `dontCache` never calls `substr`, so it returns. -/
theorem dontCache_isSome_of_empty_prefix (realpath : String → Option String)
    (archName : String) (dups : List String) (aFile : MappedMachO) (warn : Bool)
    (skipDylibs : List String) :
    ∃ flag lines, dontCache realpath "" archName dups aFile warn skipDylibs =
      some (flag, lines) := by
  rw [dontCache_eq]
  by_cases h1 : excludedByPath archName aFile skipDylibs = true
  · rw [if_pos h1]; exact ⟨_, _, rfl⟩
  rw [if_neg h1]
  by_cases h2 : contains aFile.runtimePath "//" = true
  · rw [if_pos h2]; exact ⟨_, _, rfl⟩
  rw [if_neg h2]
  by_cases h3 : aFile.runtimePath ∈ dups ∧ aFile.runtimePath ≠ aFile.mh.installName
  · rw [if_pos h3]; exact ⟨_, _, rfl⟩
  rw [if_neg h3]
  by_cases h4 : aFile.runtimePath ≠ aFile.mh.installName
  · rw [if_pos h4]
    cases realpath ("" ++ aFile.mh.installName) with
    | none => exact ⟨_, _, rfl⟩
    | some resolvedPath =>
      dsimp only
      rw [if_pos rfl]
      dsimp only
      by_cases h5 : aFile.runtimePath = resolvedPath
      · rw [if_pos h5]; exact ⟨_, _, rfl⟩
      · rw [if_neg h5]; exact ⟨_, _, rfl⟩
  · rw [if_neg h4]; exact ⟨_, _, rfl⟩

theorem demoteLoop_isSome_of_empty_prefix (realpath : String → Option String)
    (archName : String) (dups skipDylibs : List String) :
    ∀ (dylibs others : List MappedMachO) (err : List String),
      ∃ result lines, demoteLoop realpath "" archName dups skipDylibs dylibs others err =
        some (result, lines) := by
  intro dylibs
  induction dylibs with
  | nil => intro others err; exact ⟨_, _, rfl⟩
  | cons aFile rest ih =>
    intro others err
    obtain ⟨flag, lines, h⟩ :=
      dontCache_isSome_of_empty_prefix realpath archName dups aFile true skipDylibs
    unfold demoteLoop
    rw [h]
    cases flag with
    | true => exact ih _ _
    | false => exact ih _ _

theorem removeIfDontCache_isSome_of_empty_prefix (realpath : String → Option String)
    (archName : String) (dups skipDylibs : List String) :
    ∀ dylibs : List MappedMachO,
      ∃ kept lines, removeIfDontCache realpath "" archName dups skipDylibs dylibs =
        some (kept, lines) := by
  intro dylibs
  induction dylibs with
  | nil => exact ⟨_, _, rfl⟩
  | cons aFile rest ih =>
    obtain ⟨flag, lines, h⟩ :=
      dontCache_isSome_of_empty_prefix realpath archName dups aFile false skipDylibs
    obtain ⟨kept, more, hrest⟩ := ih
    unfold removeIfDontCache
    rw [h]
    dsimp only
    rw [hrest]
    exact ⟨_, _, rfl⟩

/-- On the boot volume and with `-overlay` (empty volume prefix) `pruneCachedDylibs`
returns for every bucket. -/
theorem pruneCachedDylibs_isSome_of_empty_prefix (realpath : String → Option String)
    (skipDylibs : List String) (fileSet : MappedMachOsByCategory) :
    ∃ result lines, pruneCachedDylibs realpath "" skipDylibs fileSet = some (result, lines) := by
  unfold pruneCachedDylibs
  dsimp only
  obtain ⟨others, err, h1⟩ := demoteLoop_isSome_of_empty_prefix realpath fileSet.archName
    (findDuplicateInstallNames fileSet.dylibsForCache) skipDylibs fileSet.dylibsForCache
    fileSet.otherDylibsAndBundles []
  obtain ⟨kept, more, h2⟩ := removeIfDontCache_isSome_of_empty_prefix realpath fileSet.archName
    (findDuplicateInstallNames fileSet.dylibsForCache) skipDylibs fileSet.dylibsForCache
  rw [h1]
  dsimp only
  rw [h2]
  exact ⟨_, _, rfl⟩

theorem pruneAll_isSome_of_empty_rootPath (world : World) (locals : MainLocals)
    (hroot : locals.rootPath = "") :
    ∀ fileSets : List MappedMachOsByCategory,
      ∃ pruned lines, pruneAll world locals fileSets = some (pruned, lines) := by
  intro fileSets
  induction fileSets with
  | nil => exact ⟨_, _, rfl⟩
  | cons fileSet rest ih =>
    obtain ⟨result, lines, h1⟩ :=
      pruneCachedDylibs_isSome_of_empty_prefix world.realpath locals.skipDylibs fileSet
    obtain ⟨pruned, more, h2⟩ := ih
    unfold pruneAll
    rw [hroot, h1]
    dsimp only
    rw [← hroot, h2]
    exact ⟨_, _, rfl⟩

/-- Without `-root` (boot volume, or `-overlay`) discovery and pruning return the buckets, and
`main` returns an exit status, for every world and every order of the blocks. -/
theorem mainBuildCaches_isSome_of_empty_rootPath (world : World) (locals : MainLocals)
    (order : List Nat) (hroot : locals.rootPath = "") :
    ∃ exit events, mainBuildCaches world locals order = some (exit, events) := by
  have hpruned : ∃ pruned lines, prunedFileSets world locals = some (pruned, lines) := by
    unfold prunedFileSets
    dsimp only
    obtain ⟨pruned, lines, h⟩ := pruneAll_isSome_of_empty_rootPath world locals hroot
      (if locals.searchDisk then
        (emptyFileSets (requestedArchs world locals)).map (fun fileSet =>
          (world.findAllFiles locals.pathPrefixes (world.isProtectedBySIP locals.cacheDir)
            fileSet.archName).appendTo fileSet)
      else
        (emptyFileSets (requestedArchs world locals)).map (fun fileSet =>
          (world.findOSFilesViaBOMS locals.pathPrefixes (world.isProtectedBySIP locals.cacheDir)
            fileSet.archName).appendTo fileSet))
    rw [h]
    exact ⟨_, _, rfl⟩
  obtain ⟨pruned, lines, h⟩ := hpruned
  obtain ⟨exit, events, hmain, _⟩ := mainBuildCaches_events world locals order pruned lines h
  exact ⟨exit, events, hmain⟩

/-! ## Lemmas on the warnings of the pruner -/

theorem excludedByPath_false_app (archName : String) (aFile : MappedMachO)
    (skipDylibs : List String) (h : excludedByPath archName aFile skipDylibs = false) :
    contains aFile.runtimePath ".app/" = false := by
  unfold excludedByPath at h
  simp only [Bool.or_eq_false_iff] at h
  exact h.1.1.2

theorem warnIf_false (line : String) : warnIf false line = [] := rfl

theorem warnIf_true (line : String) : warnIf true line = [line] := rfl

/-- With `warn` clear `dontCache` prints nothing. -/
theorem dontCache_lines_of_not_warn (realpath : String → Option String)
    (volumePrefix archName : String) (dups : List String) (aFile : MappedMachO)
    (skipDylibs : List String) (flag : Bool) (lines : List String)
    (h : dontCache realpath volumePrefix archName dups aFile false skipDylibs =
      some (flag, lines)) : lines = [] := by
  rw [dontCache_eq] at h
  by_cases h1 : excludedByPath archName aFile skipDylibs = true
  · rw [if_pos h1] at h; cases h; rfl
  rw [if_neg h1] at h
  by_cases h2 : contains aFile.runtimePath "//" = true
  · rw [if_pos h2] at h; cases h; rfl
  rw [if_neg h2] at h
  by_cases h3 : aFile.runtimePath ∈ dups ∧ aFile.runtimePath ≠ aFile.mh.installName
  · rw [if_pos h3] at h; cases h; rfl
  rw [if_neg h3] at h
  by_cases h4 : aFile.runtimePath ≠ aFile.mh.installName
  · rw [if_pos h4] at h
    cases hr : realpath (volumePrefix ++ aFile.mh.installName) with
    | none => rw [hr] at h; cases h; rfl
    | some resolvedPath =>
      rw [hr] at h
      dsimp only at h
      rw [resolvedSymlink_eq] at h
      cases hs : substr resolvedPath volumePrefix.length with
      | none => rw [hs] at h; cases h
      | some resolvedSymlink =>
        rw [hs] at h
        dsimp only at h
        by_cases h5 : aFile.runtimePath = resolvedSymlink
        · rw [if_pos h5] at h; cases h; rfl
        · rw [if_neg h5] at h; cases h; rfl
  · rw [if_neg h4] at h; cases h; rfl

theorem removeIfDontCache_lines (realpath : String → Option String)
    (volumePrefix archName : String) (dups skipDylibs : List String) :
    ∀ (dylibs kept : List MappedMachO) (lines : List String),
      removeIfDontCache realpath volumePrefix archName dups skipDylibs dylibs =
        some (kept, lines) → lines = [] := by
  intro dylibs
  induction dylibs with
  | nil =>
    intro kept lines h
    simp only [removeIfDontCache, Option.some.injEq, Prod.mk.injEq] at h
    exact h.2.symm
  | cons aFile rest ih =>
    intro kept lines h
    unfold removeIfDontCache at h
    cases hd : dontCache realpath volumePrefix archName dups aFile false skipDylibs with
    | none => rw [hd] at h; cases h
    | some pair =>
      obtain ⟨flag, out⟩ := pair
      rw [hd] at h
      dsimp only at h
      cases hr : removeIfDontCache realpath volumePrefix archName dups skipDylibs rest with
      | none => rw [hr] at h; cases h
      | some pair2 =>
        obtain ⟨kept2, more⟩ := pair2
        rw [hr] at h
        simp only [Option.some.injEq, Prod.mk.injEq] at h
        rw [← h.2, dontCache_lines_of_not_warn _ _ _ _ _ _ _ _ hd, ih _ _ hr]
        rfl

theorem demoteLoop_lines (realpath : String → Option String) (volumePrefix archName : String)
    (dups skipDylibs : List String) :
    ∀ (dylibs others : List MappedMachO) (err : List String) (result : List MappedMachO)
      (lines : List String),
      demoteLoop realpath volumePrefix archName dups skipDylibs dylibs others err =
        some (result, lines) →
      lines = err ++ dylibs.flatMap (fun aFile =>
        warningsOf realpath volumePrefix archName dups aFile skipDylibs) := by
  intro dylibs
  induction dylibs with
  | nil =>
    intro others err result lines h
    simp only [demoteLoop, Option.some.injEq, Prod.mk.injEq] at h
    simp [h.2]
  | cons aFile rest ih =>
    intro others err result lines h
    unfold demoteLoop at h
    have hw : ∀ pair, dontCache realpath volumePrefix archName dups aFile true skipDylibs =
        some pair → warningsOf realpath volumePrefix archName dups aFile skipDylibs = pair.2 := by
      intro pair hp
      unfold warningsOf
      rw [hp]
    cases hd : dontCache realpath volumePrefix archName dups aFile true skipDylibs with
    | none => rw [hd] at h; cases h
    | some pair =>
      obtain ⟨flag, out⟩ := pair
      have hout := hw _ hd
      rw [hd] at h
      cases flag with
      | true =>
        have := ih _ _ _ _ h
        rw [this, List.flatMap_cons, hout, List.append_assoc]
      | false =>
        have := ih _ _ _ _ h
        rw [this, List.flatMap_cons, hout, List.append_assoc]

/-- The lines of a pruning pass are the warnings of its candidates, in discovery order. -/
theorem pruneCachedDylibs_lines (realpath : String → Option String) (volumePrefix : String)
    (skipDylibs : List String) (fileSet result : MappedMachOsByCategory) (lines : List String)
    (h : pruneCachedDylibs realpath volumePrefix skipDylibs fileSet = some (result, lines)) :
    lines = fileSet.dylibsForCache.flatMap (fun aFile =>
      warningsOf realpath volumePrefix fileSet.archName
        (findDuplicateInstallNames fileSet.dylibsForCache) aFile skipDylibs) := by
  unfold pruneCachedDylibs at h
  dsimp only at h
  cases hd : demoteLoop realpath volumePrefix fileSet.archName
      (findDuplicateInstallNames fileSet.dylibsForCache) skipDylibs fileSet.dylibsForCache
      fileSet.otherDylibsAndBundles [] with
  | none => rw [hd] at h; cases h
  | some pair =>
    obtain ⟨others, err⟩ := pair
    rw [hd] at h
    dsimp only at h
    cases hr : removeIfDontCache realpath volumePrefix fileSet.archName
        (findDuplicateInstallNames fileSet.dylibsForCache) skipDylibs fileSet.dylibsForCache with
    | none => rw [hr] at h; cases h
    | some pair2 =>
      obtain ⟨kept, more⟩ := pair2
      rw [hr] at h
      simp only [Option.some.injEq, Prod.mk.injEq] at h
      rw [← h.2, removeIfDontCache_lines _ _ _ _ _ _ _ _ hr, demoteLoop_lines _ _ _ _ _ _ _ _ _ _ hd]
      simp

/-- What `dontCache` prints for a candidate when `warn` is set: nothing when a path rule
excludes it or when it is kept; else one line, for a `//`, a duplicate install name or an
install name that does not resolve to the runtime path. -/
theorem warningsOf_cases (realpath : String → Option String) (volumePrefix archName : String)
    (dups : List String) (aFile : MappedMachO) (skipDylibs : List String) :
    (excludedByPath archName aFile skipDylibs = true →
      warningsOf realpath volumePrefix archName dups aFile skipDylibs = []) ∧
    (dontCacheFlag realpath volumePrefix archName dups aFile skipDylibs = some false →
      warningsOf realpath volumePrefix archName dups aFile skipDylibs = []) ∧
    (excludedByPath archName aFile skipDylibs = false →
      dontCacheFlag realpath volumePrefix archName dups aFile skipDylibs = some true →
      (contains aFile.runtimePath "//" = true →
        warningsOf realpath volumePrefix archName dups aFile skipDylibs =
          [badInstallNameWarning archName aFile.runtimePath]) ∧
      (contains aFile.runtimePath "//" = false → aFile.runtimePath ∈ dups →
        warningsOf realpath volumePrefix archName dups aFile skipDylibs =
          [duplicateInstallNameWarning archName aFile.runtimePath]) ∧
      (contains aFile.runtimePath "//" = false → aFile.runtimePath ∉ dups →
        warningsOf realpath volumePrefix archName dups aFile skipDylibs =
          [badInstallNameWarning archName aFile.runtimePath])) := by
  have hflag := dontCache_flag_of_warn realpath volumePrefix archName dups aFile true skipDylibs
  unfold warningsOf
  rw [dontCache_eq] at hflag ⊢
  by_cases h1 : excludedByPath archName aFile skipDylibs = true
  · rw [if_pos h1] at hflag ⊢
    refine ⟨fun _ => rfl, fun _ => rfl, fun h => ?_⟩
    rw [h1] at h; cases h
  rw [if_neg h1] at hflag ⊢
  refine ⟨fun h => absurd h h1, ?_⟩
  by_cases h2 : contains aFile.runtimePath "//" = true
  · rw [if_pos h2] at hflag ⊢
    refine ⟨fun hf => ?_, fun _ _ => ⟨fun _ => rfl, fun h => ?_, fun h => ?_⟩⟩
    · rw [hf] at hflag; cases hflag
    · rw [h2] at h; cases h
    · rw [h2] at h; cases h
  rw [if_neg h2] at hflag ⊢
  by_cases h3 : aFile.runtimePath ∈ dups ∧ aFile.runtimePath ≠ aFile.mh.installName
  · rw [if_pos h3] at hflag ⊢
    refine ⟨fun hf => ?_, fun _ _ => ⟨fun h => absurd h h2, fun _ _ => rfl,
      fun _ h => absurd h3.1 h⟩⟩
    rw [hf] at hflag; cases hflag
  rw [if_neg h3] at hflag ⊢
  by_cases h4 : aFile.runtimePath ≠ aFile.mh.installName
  · rw [if_pos h4] at hflag ⊢
    have hnodup : aFile.runtimePath ∉ dups := fun h => h3 ⟨h, h4⟩
    cases hr : realpath (volumePrefix ++ aFile.mh.installName) with
    | none =>
      rw [hr] at hflag
      refine ⟨fun hf => ?_, fun _ _ => ⟨fun h => absurd h h2, fun _ h => absurd h hnodup,
        fun _ _ => rfl⟩⟩
      rw [hf] at hflag; cases hflag
    | some resolvedPath =>
      rw [hr] at hflag
      dsimp only at hflag ⊢
      rw [resolvedSymlink_eq] at hflag ⊢
      cases hs : substr resolvedPath volumePrefix.length with
      | none =>
        rw [hs] at hflag
        refine ⟨fun _ => rfl, fun _ hf => ?_⟩
        rw [hf] at hflag; cases hflag
      | some resolvedSymlink =>
        rw [hs] at hflag
        dsimp only at hflag ⊢
        by_cases h5 : aFile.runtimePath = resolvedSymlink
        · rw [if_pos h5] at hflag ⊢
          refine ⟨fun _ => rfl, fun _ hf => ?_⟩
          rw [hf] at hflag; cases hflag
        · rw [if_neg h5] at hflag ⊢
          refine ⟨fun hf => ?_, fun _ _ => ⟨fun h => absurd h h2, fun _ h => absurd h hnodup,
            fun _ _ => rfl⟩⟩
          rw [hf] at hflag; cases hflag
  · rw [if_neg h4] at hflag ⊢
    refine ⟨fun _ => rfl, fun _ hf => ?_⟩
    rw [hf] at hflag; cases hflag

theorem length_flatMap_eq_length_filter {α β : Type} (items : List α) (f : α → List β)
    (p : α → Bool) (h : ∀ item ∈ items, (f item).length = if p item = true then 1 else 0) :
    (items.flatMap f).length = (items.filter p).length := by
  induction items with
  | nil => rfl
  | cons item rest ih =>
    rw [List.flatMap_cons, List.length_append, h item (List.mem_cons_self _ _),
      ih (fun x hx => h x (List.mem_cons_of_mem _ hx))]
    by_cases hp : p item = true
    · rw [if_pos hp, List.filter_cons_of_pos hp, List.length_cons, Nat.add_comm]
    · rw [if_neg hp, List.filter_cons_of_neg hp, Nat.zero_add]

/-! ## Lemmas on the classifier -/

theorem addIfMachO_eq (openFile : String → Option OpenedFile) (pathPrefix runtimePath : String)
    (statBuf : Stat) (requireSIP : Bool) (files : List MappedMachOsByCategory) :
    addIfMachO openFile pathPrefix runtimePath statBuf requireSIP files =
      match mappedFile openFile pathPrefix runtimePath with
      | none => (false, files, [])
      | some opened => addSlices opened runtimePath statBuf requireSIP files := by
  unfold addIfMachO mappedFile skippedBySuffix
  split_ifs with h1
  · rfl
  · dsimp only
    cases openFile (pathPrefix ++ runtimePath) with
    | none => rfl
    | some opened =>
      dsimp only
      split_ifs <;> rfl

/-- The body of the loop of `addIfMachO`, by cases on the slice and on the header. -/
theorem addSliceToBucket_cases (opened : OpenedFile) (runtimePath : String) (statBuf : Stat)
    (requireSIP : Bool) (file : MappedMachOsByCategory) :
    (addSliceToBucket opened runtimePath statBuf requireSIP file).1 =
      (mappedSlice opened statBuf file.archName).isSome ∧
    (mappedSlice opened statBuf file.archName = none →
      (addSliceToBucket opened runtimePath statBuf requireSIP file).2.1 = file) ∧
    (∀ slice, mappedSlice opened statBuf file.archName = some slice →
      ((opened.view file.archName).mh.isDynamicExecutable = true →
        (!requireSIP || opened.protectedBySIP) = true →
        (addSliceToBucket opened runtimePath statBuf requireSIP file).2.1 =
          { file with mainExecutables := file.mainExecutables ++
            [sliceEntry opened runtimePath statBuf file.archName slice
              ((statBuf.st_mode &&& S_ISUID_or_S_ISGID) != 0)] }) ∧
      ((opened.view file.archName).mh.isDynamicExecutable = true →
        (!requireSIP || opened.protectedBySIP) = false →
        (addSliceToBucket opened runtimePath statBuf requireSIP file).2.1 = file) ∧
      ((opened.view file.archName).mh.isDynamicExecutable = false →
        (opened.view file.archName).mh.canBePlacedInDyldCache = true →
        (!requireSIP || opened.protectedBySIP) = true →
        (addSliceToBucket opened runtimePath statBuf requireSIP file).2.1 =
          { file with dylibsForCache := file.dylibsForCache ++
            [sliceEntry opened runtimePath statBuf file.archName slice false] }) ∧
      ((opened.view file.archName).mh.isDynamicExecutable = false →
        (opened.view file.archName).mh.canBePlacedInDyldCache = true →
        (!requireSIP || opened.protectedBySIP) = false →
        (addSliceToBucket opened runtimePath statBuf requireSIP file).2.1 =
          { file with otherDylibsAndBundles := file.otherDylibsAndBundles ++
            [sliceEntry opened runtimePath statBuf file.archName slice false] }) ∧
      ((opened.view file.archName).mh.isDynamicExecutable = false →
        (opened.view file.archName).mh.canBePlacedInDyldCache = false →
        (addSliceToBucket opened runtimePath statBuf requireSIP file).2.1 =
          { file with otherDylibsAndBundles := file.otherDylibsAndBundles ++
            [sliceEntry opened runtimePath statBuf file.archName slice false] })) := by
  cases h : mappedSlice opened statBuf file.archName with
  | none =>
    have hslice := h
    unfold mappedSlice at hslice
    refine ⟨?_, ?_, ?_⟩
    · unfold addSliceToBucket
      dsimp only
      rw [hslice]
      rfl
    · intro _
      unfold addSliceToBucket
      dsimp only
      rw [hslice]
    · intro slice hs
      cases hs
  | some found =>
    have hslice := h
    unfold mappedSlice at hslice
    refine ⟨?_, (fun hn => nomatch hn), ?_⟩
    · unfold addSliceToBucket
      dsimp only
      rw [hslice]
      dsimp only
      split_ifs <;> rfl
    · intro slice hs
      cases hs
      refine ⟨?_, ?_, ?_, ?_, ?_⟩
      · intro hdyn hsip
        unfold addSliceToBucket
        dsimp only
        rw [hslice]
        dsimp only
        rw [if_pos hdyn, if_pos hsip]
        rfl
      · intro hdyn hsip
        unfold addSliceToBucket
        dsimp only
        rw [hslice]
        dsimp only
        rw [if_pos hdyn, if_neg (by rw [hsip]; exact Bool.noConfusion)]
      · intro hdyn hcan hsip
        unfold addSliceToBucket
        dsimp only
        rw [hslice]
        dsimp only
        rw [if_neg (by rw [hdyn]; exact Bool.noConfusion), if_pos hcan, if_pos hsip]
        rfl
      · intro hdyn hcan hsip
        unfold addSliceToBucket
        dsimp only
        rw [hslice]
        dsimp only
        rw [if_neg (by rw [hdyn]; exact Bool.noConfusion), if_pos hcan,
          if_neg (by rw [hsip]; exact Bool.noConfusion)]
        rfl
      · intro hdyn hcan
        unfold addSliceToBucket
        dsimp only
        rw [hslice]
        dsimp only
        rw [if_neg (by rw [hdyn]; exact Bool.noConfusion),
          if_neg (by rw [hcan]; exact Bool.noConfusion)]
        rfl

theorem addSlices_eq (opened : OpenedFile) (runtimePath : String) (statBuf : Stat)
    (requireSIP : Bool) (files : List MappedMachOsByCategory) :
    (addSlices opened runtimePath statBuf requireSIP files).1 =
      files.any (fun file => (mappedSlice opened statBuf file.archName).isSome) ∧
    (addSlices opened runtimePath statBuf requireSIP files).2.1 =
      files.map (fun file => (addSliceToBucket opened runtimePath statBuf requireSIP file).2.1) := by
  induction files with
  | nil => exact ⟨rfl, rfl⟩
  | cons file rest ih =>
    unfold addSlices
    dsimp only
    rw [ih.1, ih.2, (addSliceToBucket_cases opened runtimePath statBuf requireSIP file).1]
    exact ⟨rfl, rfl⟩

theorem map_eq_self_of_forall {α : Type} (items : List α) (f : α → α)
    (h : ∀ item ∈ items, f item = item) : items.map f = items := by
  induction items with
  | nil => rfl
  | cons item rest ih =>
    rw [List.map_cons, h item (List.mem_cons_self _ _),
      ih (fun x hx => h x (List.mem_cons_of_mem _ hx))]

/-- What the body of the loop of `addIfMachO` appends to one bucket. -/
theorem addSliceToBucket_shape (opened : OpenedFile) (runtimePath : String) (statBuf : Stat)
    (requireSIP : Bool) (file : MappedMachOsByCategory) :
    ∃ dylibs others mains : List MappedMachO,
      (addSliceToBucket opened runtimePath statBuf requireSIP file).2.1 =
        { archName := file.archName
          dylibsForCache := file.dylibsForCache ++ dylibs
          otherDylibsAndBundles := file.otherDylibsAndBundles ++ others
          mainExecutables := file.mainExecutables ++ mains } ∧
      dylibs.length + others.length + mains.length ≤ 1 ∧
      (dylibs.length + others.length + mains.length = 1 →
        (mappedSlice opened statBuf file.archName).isSome = true) ∧
      (requireSIP = false → (mappedSlice opened statBuf file.archName).isSome = true →
        dylibs.length + others.length + mains.length = 1) ∧
      (requireSIP = true → ∀ entry ∈ dylibs ++ mains,
        entry.protectedBySIP = true ∧ opened.protectedBySIP = true) ∧
      (∀ slice, mappedSlice opened statBuf file.archName = some slice →
        (opened.view file.archName).mh.isDynamicExecutable = false →
        (opened.view file.archName).mh.canBePlacedInDyldCache = true →
        (requireSIP = true → opened.protectedBySIP = false →
          dylibs = [] ∧ mains = [] ∧
          others = [sliceEntry opened runtimePath statBuf file.archName slice false]) ∧
        (requireSIP = false →
          others = [] ∧ mains = [] ∧
          dylibs = [sliceEntry opened runtimePath statBuf file.archName slice false])) := by
  obtain ⟨_, hnone, hsome⟩ := addSliceToBucket_cases opened runtimePath statBuf requireSIP file
  cases hslice : mappedSlice opened statBuf file.archName with
  | none =>
    refine ⟨[], [], [], ?_, by simp, by simp, by simp, by simp, ?_⟩
    · rw [hnone hslice]
      simp
    · intro slice hs
      cases hs
  | some slice =>
    obtain ⟨hmain, hskip, hcache, hdemote, hother⟩ := hsome slice hslice
    cases hdyn : (opened.view file.archName).mh.isDynamicExecutable with
    | true =>
      cases hsip : (!requireSIP || opened.protectedBySIP) with
      | true =>
        refine ⟨[], [], [sliceEntry opened runtimePath statBuf file.archName slice
          ((statBuf.st_mode &&& S_ISUID_or_S_ISGID) != 0)], ?_, by simp, by simp, by simp, ?_, ?_⟩
        · rw [hmain hdyn hsip]
          simp
        · intro hreq entry hmem
          rw [hreq] at hsip
          simp only [List.nil_append, List.mem_singleton] at hmem
          rw [hmem]
          exact ⟨by simpa [sliceEntry] using hsip, by simpa using hsip⟩
        · intro found _ hno
          cases hno
      | false =>
        refine ⟨[], [], [], ?_, by simp, by simp, ?_, by simp, ?_⟩
        · rw [hskip hdyn hsip]
          simp
        · intro hreq
          rw [hreq] at hsip
          simp at hsip
        · intro found _ hno
          cases hno
    | false =>
      cases hcan : (opened.view file.archName).mh.canBePlacedInDyldCache with
      | true =>
        cases hsip : (!requireSIP || opened.protectedBySIP) with
        | true =>
          refine ⟨[sliceEntry opened runtimePath statBuf file.archName slice false], [], [],
            ?_, by simp, by simp, by simp, ?_, ?_⟩
          · rw [hcache hdyn hcan hsip]
            simp
          · intro hreq entry hmem
            rw [hreq] at hsip
            simp only [List.append_nil, List.mem_singleton] at hmem
            rw [hmem]
            exact ⟨by simpa [sliceEntry] using hsip, by simpa using hsip⟩
          · intro found hfound _ _
            cases hfound
            refine ⟨?_, fun _ => ⟨rfl, rfl, rfl⟩⟩
            intro hreq hprot
            rw [hreq, hprot] at hsip
            cases hsip
        | false =>
          refine ⟨[], [sliceEntry opened runtimePath statBuf file.archName slice false], [],
            ?_, by simp, by simp, by simp, by simp, ?_⟩
          · rw [hdemote hdyn hcan hsip]
            simp
          · intro found hfound _ _
            cases hfound
            refine ⟨fun _ _ => ⟨rfl, rfl, rfl⟩, ?_⟩
            intro hreq
            rw [hreq] at hsip
            cases hsip
      | false =>
        refine ⟨[], [sliceEntry opened runtimePath statBuf file.archName slice false], [],
          ?_, by simp, by simp, by simp, by simp, ?_⟩
        · rw [hother hdyn hcan]
          simp
        · intro found _ _ hno
          cases hno

/-! ## The pruner: claims -/

theorem length_eq_data_length (str : String) : str.length = str.data.length := by
  cases str
  rfl

/-- Stripping the volume prefix as the specification words it, against the call of `substr`
in `dontCache`: the two agree on a resolved path that begins with the volume prefix. -/
theorem stripVolumePrefix_eq_some_iff (volumePrefix resolvedPath stripped : String) :
    stripVolumePrefix volumePrefix resolvedPath = some stripped ↔
      startsWith resolvedPath volumePrefix = true ∧
      substr resolvedPath volumePrefix.length = some stripped := by
  unfold stripVolumePrefix
  by_cases hstart : startsWith resolvedPath volumePrefix = true
  · have hle : volumePrefix.length ≤ resolvedPath.length := by
      rw [length_eq_data_length, length_eq_data_length]
      unfold startsWith at hstart
      exact (List.isPrefixOf_iff_prefix.1 hstart).length_le
    rw [if_pos hstart]
    unfold substr
    rw [if_pos hle, length_eq_data_length]
    exact ⟨fun h => ⟨hstart, h⟩, fun h => h.2⟩
  · rw [if_neg hstart]
    constructor
    · intro h
      cases h
    · intro h
      exact absurd h.1 hstart

/-- The path stripped of the volume prefix is `stripped` exactly when the resolved path is
the volume prefix followed by `stripped`. -/
theorem stripVolumePrefix_eq_some_iff_append (volumePrefix resolvedPath stripped : String) :
    stripVolumePrefix volumePrefix resolvedPath = some stripped ↔
      resolvedPath = volumePrefix ++ stripped := by
  unfold stripVolumePrefix startsWith
  constructor
  · intro h
    by_cases hstart : volumePrefix.data.isPrefixOf resolvedPath.data = true
    · rw [if_pos hstart, Option.some.injEq] at h
      have happend := List.prefix_iff_eq_append.1 (List.isPrefixOf_iff_prefix.1 hstart)
      apply String.ext
      rw [String.data_append, ← h]
      exact happend.symm
    · rw [if_neg hstart] at h
      cases h
  · intro h
    have hdata : resolvedPath.data = volumePrefix.data ++ stripped.data := by
      rw [h, String.data_append]
    have hstart : volumePrefix.data.isPrefixOf resolvedPath.data = true := by
      rw [hdata]
      exact List.isPrefixOf_iff_prefix.2 (List.prefix_append _ _)
    rw [if_pos hstart, hdata, List.drop_left]

theorem cacheableBySpec_iff (realpath : String → Option String) (volumePrefix archName : String)
    (D : List String) (f : MappedMachO) (K : List String) :
    cacheableBySpec realpath volumePrefix archName D f K = true ↔
      excludedByPath archName f K = false ∧
      contains f.runtimePath "//" = false ∧
      (f.runtimePath = f.mh.installName ∨
        (f.runtimePath ∉ D ∧
          ∃ resolvedPath, realpath (volumePrefix ++ f.mh.installName) = some resolvedPath ∧
            startsWith resolvedPath volumePrefix = true ∧
            substr resolvedPath volumePrefix.length = some f.runtimePath)) := by
  have hlast : (match realpath (volumePrefix ++ f.mh.installName) with
      | some resolvedPath =>
        decide (stripVolumePrefix volumePrefix resolvedPath = some f.runtimePath)
      | none => false) = true ↔
      ∃ resolvedPath, realpath (volumePrefix ++ f.mh.installName) = some resolvedPath ∧
        startsWith resolvedPath volumePrefix = true ∧
        substr resolvedPath volumePrefix.length = some f.runtimePath := by
    cases realpath (volumePrefix ++ f.mh.installName) with
    | none => simp
    | some resolvedPath =>
      simp only [decide_eq_true_eq, Option.some.injEq, exists_eq_left']
      exact stripVolumePrefix_eq_some_iff _ _ _
  unfold cacheableBySpec excludedByPath deniedPrefixes
  simp only [Bool.and_eq_true, Bool.or_eq_true, Bool.not_eq_true', decide_eq_true_eq,
    decide_eq_false_iff_not, List.all_cons, List.all_nil, Bool.and_true, hlast,
    Bool.or_eq_false_iff, Bool.and_eq_false_imp, ne_eq, Bool.not_eq_eq_eq_not, Bool.not_true]
  tauto

/-- C3. `dontCache` against its specified predicate `cacheableBySpec` (the runtime path is not
in the skip list, starts with none of the seven denied prefixes, contains no `.app/`, is not
under the two prefixes denied for i386 when the architecture is i386, contains no `//`, and
either equals the install name or is not in the duplicate-path set while the volume prefix
followed by the install name resolves to the volume prefix followed by the runtime path).
For every candidate, architecture name, duplicate-path set, skip list, volume prefix and value
of `warn`: where the predicate holds `dontCache` returns false; where `dontCache` returns
false and the predicate does not hold, the install name resolves to a path that does not
begin with the volume prefix and whose text after the first `volumePrefix.size()` characters
is the runtime path; so the two agree whenever the install name resolves inside the volume,
and always when the volume prefix is empty. -/
theorem dontCache_cacheableBySpec (realpath : String → Option String)
    (volumePrefix archName : String) (D : List String) (f : MappedMachO) (warn : Bool)
    (K : List String) :
    (cacheableBySpec realpath volumePrefix archName D f K = true →
      (dontCache realpath volumePrefix archName D f warn K).map Prod.fst = some false) ∧
    ((dontCache realpath volumePrefix archName D f warn K).map Prod.fst = some false →
      cacheableBySpec realpath volumePrefix archName D f K = true ∨
      (f.runtimePath ≠ f.mh.installName ∧ f.runtimePath ∉ D ∧
        ∃ resolvedPath, realpath (volumePrefix ++ f.mh.installName) = some resolvedPath ∧
          startsWith resolvedPath volumePrefix = false ∧
          substr resolvedPath volumePrefix.length = some f.runtimePath)) ∧
    ((∀ resolvedPath, realpath (volumePrefix ++ f.mh.installName) = some resolvedPath →
        startsWith resolvedPath volumePrefix = true) →
      ((dontCache realpath volumePrefix archName D f warn K).map Prod.fst = some false ↔
        cacheableBySpec realpath volumePrefix archName D f K = true)) ∧
    (volumePrefix = "" →
      ((dontCache realpath volumePrefix archName D f warn K).map Prod.fst = some false ↔
        cacheableBySpec realpath volumePrefix archName D f K = true)) := by
  rw [dontCache_flag_of_warn, dontCacheFlag_eq_some_false_iff, cacheableBySpec_iff]
  have hforward : (excludedByPath archName f K = false ∧ contains f.runtimePath "//" = false ∧
      (f.runtimePath = f.mh.installName ∨
        (f.runtimePath ∉ D ∧
          ∃ resolvedPath, realpath (volumePrefix ++ f.mh.installName) = some resolvedPath ∧
            startsWith resolvedPath volumePrefix = true ∧
            substr resolvedPath volumePrefix.length = some f.runtimePath))) →
      (excludedByPath archName f K = false ∧ contains f.runtimePath "//" = false ∧
      (f.runtimePath = f.mh.installName ∨
        (f.runtimePath ∉ D ∧
          ∃ resolvedPath, realpath (volumePrefix ++ f.mh.installName) = some resolvedPath ∧
            substr resolvedPath volumePrefix.length = some f.runtimePath))) := by
    rintro ⟨h1, h2, h3⟩
    refine ⟨h1, h2, ?_⟩
    rcases h3 with h | ⟨hd, resolvedPath, hr, _, hs⟩
    · exact Or.inl h
    · exact Or.inr ⟨hd, resolvedPath, hr, hs⟩
  have hinside : (∀ resolvedPath, realpath (volumePrefix ++ f.mh.installName) = some resolvedPath →
        startsWith resolvedPath volumePrefix = true) →
      (excludedByPath archName f K = false ∧ contains f.runtimePath "//" = false ∧
      (f.runtimePath = f.mh.installName ∨
        (f.runtimePath ∉ D ∧
          ∃ resolvedPath, realpath (volumePrefix ++ f.mh.installName) = some resolvedPath ∧
            substr resolvedPath volumePrefix.length = some f.runtimePath))) →
      (excludedByPath archName f K = false ∧ contains f.runtimePath "//" = false ∧
      (f.runtimePath = f.mh.installName ∨
        (f.runtimePath ∉ D ∧
          ∃ resolvedPath, realpath (volumePrefix ++ f.mh.installName) = some resolvedPath ∧
            startsWith resolvedPath volumePrefix = true ∧
            substr resolvedPath volumePrefix.length = some f.runtimePath))) := by
    rintro hall ⟨h1, h2, h3⟩
    refine ⟨h1, h2, ?_⟩
    rcases h3 with h | ⟨hd, resolvedPath, hr, hs⟩
    · exact Or.inl h
    · exact Or.inr ⟨hd, resolvedPath, hr, hall resolvedPath hr, hs⟩
  refine ⟨hforward, ?_, fun hall => ⟨hinside hall, hforward⟩, ?_⟩
  · rintro ⟨h1, h2, h3⟩
    rcases h3 with h | ⟨hd, resolvedPath, hr, hs⟩
    · exact Or.inl ⟨h1, h2, Or.inl h⟩
    · by_cases hne : f.runtimePath = f.mh.installName
      · exact Or.inl ⟨h1, h2, Or.inl hne⟩
      · cases hstart : startsWith resolvedPath volumePrefix with
        | true => exact Or.inl ⟨h1, h2, Or.inr ⟨hd, resolvedPath, hr, hstart, hs⟩⟩
        | false => exact Or.inr ⟨hne, hd, resolvedPath, hr, hstart, hs⟩
  · intro hempty
    refine ⟨hinside ?_, hforward⟩
    intro resolvedPath _
    rw [hempty]
    exact List.isPrefixOf_iff_prefix.2 List.nil_prefix

/-- The run of `dontCache` for C3: under the root `/Volumes/Root` the install name of
`libBar` resolves to `/Volumes/Rooz/usr/lib/libBar.1.dylib`, a file outside the volume;
`substr` cuts off the thirteen characters `/Volumes/Rooz`, what is left is the runtime path
of `libBar`, and `dontCache` returns false, while the install name does not resolve to the
volume prefix followed by the runtime path. -/
theorem dontCache_false_outside_volume :
    libBar.runtimePath ≠ libBar.mh.installName ∧
    symlinkOutsideVolume ("/Volumes/Root" ++ libBar.mh.installName) =
      some "/Volumes/Rooz/usr/lib/libBar.1.dylib" ∧
    startsWith "/Volumes/Rooz/usr/lib/libBar.1.dylib" "/Volumes/Root" = false ∧
    ("/Volumes/Rooz/usr/lib/libBar.1.dylib" : String) ≠ "/Volumes/Root" ++ libBar.runtimePath ∧
    dontCache symlinkOutsideVolume "/Volumes/Root" "x86_64" [] libBar true [] =
      some (false, []) ∧
    cacheableBySpec symlinkOutsideVolume "/Volumes/Root" "x86_64" [] libBar [] = false ∧
    dontCache symlinkInsideVolume "/Volumes/Root" "x86_64" [] libBar true [] =
      some (false, []) ∧
    cacheableBySpec symlinkInsideVolume "/Volumes/Root" "x86_64" [] libBar [] = true := by
  decide

theorem exists_pair_of_mem_of_two_le {α : Type} (l : List α) (x : α) (hx : x ∈ l)
    (hlen : 2 ≤ l.length) : ∃ y, y ∈ l ∧ ([x, y].Sublist l ∨ [y, x].Sublist l) := by
  obtain ⟨before, after, rfl⟩ := List.append_of_mem hx
  cases after with
  | cons y rest =>
    refine ⟨y, by simp, Or.inl ?_⟩
    have h1 : [x, y].Sublist (x :: y :: rest) :=
      List.Sublist.cons₂ _ (List.Sublist.cons₂ _ (List.nil_sublist _))
    exact h1.trans (List.sublist_append_right _ _)
  | nil =>
    cases before using List.reverseRecOn with
    | nil => simp at hlen
    | append_singleton init y _ =>
      refine ⟨y, by simp, Or.inr ?_⟩
      have h1 : [y, x].Sublist ([y] ++ [x]) := List.Sublist.refl _
      have h2 : ([y] ++ [x]).Sublist (init ++ ([y] ++ [x])) := List.sublist_append_right _ _
      rw [List.append_assoc]
      exact h1.trans h2

/-- Every member of a group of two or more candidates with one install name has its runtime
path in the set of paths with a duplicate install name. -/
theorem mem_findDuplicateInstallNames_of_group (dylibs : List MappedMachO)
    (installName : String) (aFile : MappedMachO) (hmem : aFile ∈ dylibs)
    (hname : aFile.mh.installName = installName)
    (hgroup : 2 ≤ (dylibs.filter (fun f => decide (f.mh.installName = installName))).length) :
    aFile.runtimePath ∈ findDuplicateInstallNames dylibs := by
  have hin : aFile ∈ dylibs.filter (fun f => decide (f.mh.installName = installName)) := by
    rw [List.mem_filter]; exact ⟨hmem, by simpa using hname⟩
  obtain ⟨other, hother, hsub⟩ := exists_pair_of_mem_of_two_le _ aFile hin hgroup
  have hoName : other.mh.installName = installName := by
    have := (List.mem_filter.1 hother).2
    exact of_decide_eq_true this
  rcases hsub with h | h
  · exact (mem_findDuplicateInstallNames dylibs aFile other
      (h.trans (List.filter_sublist _)) (by rw [hname, hoName])).1
  · exact (mem_findDuplicateInstallNames dylibs other aFile
      (h.trans (List.filter_sublist _)) (by rw [hname, hoName])).2

/-- C1, as amended. For every bucket and every install name that two or more candidates of
`dylibsForCache` share, none of them excluded by a path rule (skip list, denied prefix,
`.app/` segment, prefix denied for i386, `//`): after `pruneCachedDylibs` the candidates of
the group that remain in `dylibsForCache` are exactly those whose runtime path equals the
install name, in discovery order (none remains when no candidate matches exactly, also not
the first one discovered), and every candidate of the group whose runtime path differs from
the install name is in `otherDylibsAndBundles` and no longer in `dylibsForCache`. -/
theorem pruneCachedDylibs_contested_install_name (realpath : String → Option String)
    (volumePrefix : String) (skipDylibs : List String)
    (fileSet result : MappedMachOsByCategory) (lines : List String) (installName : String)
    (hrun : pruneCachedDylibs realpath volumePrefix skipDylibs fileSet = some (result, lines))
    (hgroup : 2 ≤ (fileSet.dylibsForCache.filter
      (fun f => decide (f.mh.installName = installName))).length)
    (hpath : ∀ f ∈ fileSet.dylibsForCache, f.mh.installName = installName →
      excludedByPath fileSet.archName f skipDylibs = false ∧
      contains f.runtimePath "//" = false) :
    result.dylibsForCache.filter (fun f => decide (f.mh.installName = installName)) =
      fileSet.dylibsForCache.filter
        (fun f => decide (f.mh.installName = installName ∧ f.runtimePath = installName)) ∧
    ∀ f ∈ fileSet.dylibsForCache, f.mh.installName = installName →
      f.runtimePath ≠ installName →
      f ∈ result.otherDylibsAndBundles ∧ f ∉ result.dylibsForCache := by
  obtain ⟨_, hkept, hother, _⟩ := pruneCachedDylibs_eq_some _ _ _ _ _ _ hrun
  have hflag : ∀ f ∈ fileSet.dylibsForCache, f.mh.installName = installName →
      dontCacheFlag realpath volumePrefix fileSet.archName
        (findDuplicateInstallNames fileSet.dylibsForCache) f skipDylibs =
        some (decide (f.runtimePath ≠ installName)) := by
    intro f hf hname
    have hdup := mem_findDuplicateInstallNames_of_group _ installName f hf hname hgroup
    by_cases heq : f.runtimePath = installName
    · have : decide (f.runtimePath ≠ installName) = false := by simp [heq]
      rw [this, dontCacheFlag_eq_some_false_iff]
      exact ⟨(hpath f hf hname).1, (hpath f hf hname).2, Or.inl (by rw [heq, hname])⟩
    · have : decide (f.runtimePath ≠ installName) = true := by simp [heq]
      rw [this]
      exact dontCacheFlag_of_duplicate _ _ _ _ _ _ hdup (by rw [hname]; exact heq)
  constructor
  · rw [hkept, List.filter_filter]
    apply List.filter_congr
    intro f hf
    by_cases hname : f.mh.installName = installName
    · rw [hflag f hf hname]
      by_cases heq : f.runtimePath = installName <;> simp [hname, heq]
    · simp [hname]
  · intro f hf hname hne
    have h := hflag f hf hname
    have hd : decide (f.runtimePath ≠ installName) = true := by simp [hne]
    rw [hd] at h
    constructor
    · rw [hother, List.mem_append, List.mem_filter]
      exact Or.inr ⟨hf, by simp [h]⟩
    · rw [hkept, List.mem_filter]
      rintro ⟨_, h2⟩
      simp [h] at h2

/-- Witness for C1 as amended: of `libFoo2` and `libFoo`, which share the install name
`/usr/lib/libFoo.dylib`, the pruner keeps `libFoo` and demotes `libFoo2`. -/
theorem pruneCachedDylibs_contested_install_name_witness :
    pruneCachedDylibs noSymlinks "" [] ownerBucket =
      some (ownerPruned, [duplicateInstallNameWarning "x86_64" "/usr/lib/libFoo2.dylib"]) ∧
    (ownerPruned.dylibsForCache.filter
        (fun f => decide (f.mh.installName = "/usr/lib/libFoo.dylib")) =
      ownerBucket.dylibsForCache.filter (fun f =>
        decide (f.mh.installName = "/usr/lib/libFoo.dylib" ∧
          f.runtimePath = "/usr/lib/libFoo.dylib")) ∧
    ∀ f ∈ ownerBucket.dylibsForCache, f.mh.installName = "/usr/lib/libFoo.dylib" →
      f.runtimePath ≠ "/usr/lib/libFoo.dylib" →
      f ∈ ownerPruned.otherDylibsAndBundles ∧ f ∉ ownerPruned.dylibsForCache) :=
  ⟨by decide,
    pruneCachedDylibs_contested_install_name noSymlinks "" [] ownerBucket ownerPruned
      [duplicateInstallNameWarning "x86_64" "/usr/lib/libFoo2.dylib"]
      "/usr/lib/libFoo.dylib" (by decide) (by decide) (by decide)⟩

/-- Counterexample to C1 as stated: `libFoo2` and `libFoo3` share an install name, no path
rule excludes them and neither is at the path of the install name; the claim keeps the first
one discovered, `libFoo2`, but `pruneCachedDylibs` leaves `dylibsForCache` empty and moves
both to `otherDylibsAndBundles`. -/
theorem pruneCachedDylibs_first_discovered_not_kept :
    libFoo2.mh.installName = libFoo3.mh.installName ∧
    excludedByPath "x86_64" libFoo2 [] = false ∧ excludedByPath "x86_64" libFoo3 [] = false ∧
    contains libFoo2.runtimePath "//" = false ∧ contains libFoo3.runtimePath "//" = false ∧
    (pruneCachedDylibs noSymlinks "" [] contestedBucket).map (fun r => r.1.dylibsForCache) =
      some [] ∧
    (pruneCachedDylibs noSymlinks "" [] contestedBucket).map
      (fun r => r.1.otherDylibsAndBundles) = some [libFoo2, libFoo3] := by
  decide

/-- C2. For every bucket, every skip list and every volume prefix: after `pruneCachedDylibs`
returns, no two entries of `dylibsForCache` have the same install name. A bucket is what
discovery builds, a sequence of candidates at pairwise distinct runtime paths:
`findOSFilesViaBOMS` passes a runtime path to `addIfMachO` once (`runtimePathsFound`, source
lines 303 and 326), `findAllFiles` skips a path that it has used (`alreadyUsed`, source lines
259 and 265), and a call of `addIfMachO` appends at most one entry to a bucket. -/
theorem pruneCachedDylibs_install_names_nodup (realpath : String → Option String)
    (volumePrefix : String) (skipDylibs : List String)
    (fileSet result : MappedMachOsByCategory) (lines : List String)
    (hpaths : (fileSet.dylibsForCache.map (fun f => f.runtimePath)).Nodup)
    (hrun : pruneCachedDylibs realpath volumePrefix skipDylibs fileSet = some (result, lines)) :
    (result.dylibsForCache.map (fun f => f.mh.installName)).Nodup := by
  obtain ⟨_, hkept, _, _⟩ := pruneCachedDylibs_eq_some _ _ _ _ _ _ hrun
  rw [List.Nodup, List.pairwise_map] at hpaths ⊢
  rw [List.pairwise_iff_forall_sublist] at hpaths ⊢
  intro a b hsub hname
  have hsub2 : [a, b].Sublist fileSet.dylibsForCache := by
    rw [hkept] at hsub
    exact hsub.trans (List.filter_sublist _)
  have hdup := mem_findDuplicateInstallNames fileSet.dylibsForCache a b hsub2 hname
  have hkeep : ∀ f, f ∈ result.dylibsForCache →
      f.runtimePath ∈ findDuplicateInstallNames fileSet.dylibsForCache →
      f.runtimePath = f.mh.installName := by
    intro f hf hd
    rw [hkept, List.mem_filter] at hf
    have h := hf.2
    simp only [decide_eq_true_eq] at h
    rw [dontCacheFlag_eq_some_false_iff] at h
    rcases h.2.2 with h1 | h1
    · exact h1
    · exact absurd hd h1.1
  have ha := hkeep a (hsub.subset (by simp)) hdup.1
  have hb := hkeep b (hsub.subset (by simp)) hdup.2
  exact hpaths hsub2 (by rw [ha, hb, hname])

/-- Witness for C2: the bucket of `libFoo2` and `libFoo`. -/
theorem pruneCachedDylibs_install_names_nodup_witness :
    (ownerBucket.dylibsForCache.map (fun f => f.runtimePath)).Nodup ∧
    pruneCachedDylibs noSymlinks "" [] ownerBucket =
      some (ownerPruned, [duplicateInstallNameWarning "x86_64" "/usr/lib/libFoo2.dylib"]) ∧
    (ownerPruned.dylibsForCache.map (fun f => f.mh.installName)).Nodup :=
  ⟨by decide, by decide,
    pruneCachedDylibs_install_names_nodup noSymlinks "" [] ownerBucket ownerPruned
      [duplicateInstallNameWarning "x86_64" "/usr/lib/libFoo2.dylib"] (by decide) (by decide)⟩

/-- The pruner itself does not remove a repeated entry: on a list with `libFoo` twice, which
discovery does not build, it keeps both entries. -/
theorem pruneCachedDylibs_repeated_entry_kept :
    (pruneCachedDylibs noSymlinks "" [] repeatedBucket).map
        (fun r => r.1.dylibsForCache.map (fun f => f.mh.installName)) =
      some ["/usr/lib/libFoo.dylib", "/usr/lib/libFoo.dylib"] ∧
    ¬ (["/usr/lib/libFoo.dylib", "/usr/lib/libFoo.dylib"] : List String).Nodup := by
  decide

/-! ## Closure verification: claims -/

theorem hasInstallName_iff (working : List MappedMachO) (loadPath : String) :
    hasInstallName working loadPath = true ↔
      ∃ provider ∈ working, provider.mh.installName = loadPath := by
  unfold hasInstallName
  simp [List.any_eq_true]

theorem missingDependents_eq_nil_iff (kept : List MappedMachO) (candidate : MappedMachO) :
    (missingDependents kept candidate).isEmpty = true ↔
      ∀ loadPath ∈ candidate.mh.dependents,
        ∃ provider ∈ kept, provider.mh.installName = loadPath := by
  unfold missingDependents
  rw [List.isEmpty_iff, List.filter_eq_nil_iff]
  constructor
  · intro h loadPath hmem
    have := h loadPath hmem
    rw [← hasInstallName_iff]
    simpa using this
  · intro h loadPath hmem
    have := (hasInstallName_iff kept loadPath).2 (h loadPath hmem)
    simp [this]

theorem propagateExclusion_closed :
    ∀ (fuel : Nat) (kept : List MappedMachO) (excluded : List (MappedMachO × List String)),
      kept.length ≤ fuel →
      ∀ candidate ∈ (propagateExclusion fuel kept excluded).1,
        (missingDependents (propagateExclusion fuel kept excluded).1 candidate).isEmpty = true := by
  intro fuel
  induction fuel with
  | zero =>
    intro kept excluded hlen candidate hmem
    have hnil : kept = [] := List.length_eq_zero.1 (Nat.le_zero.1 hlen)
    subst hnil
    simp [propagateExclusion] at hmem
  | succ fuel ih =>
    intro kept excluded hlen candidate hmem
    unfold propagateExclusion at hmem ⊢
    by_cases hall : kept.all (fun candidate => (missingDependents kept candidate).isEmpty) = true
    · rw [if_pos hall] at hmem ⊢
      exact List.all_eq_true.1 hall candidate hmem
    · rw [if_neg hall] at hmem ⊢
      refine ih _ _ ?_ candidate hmem
      have hex : ∃ bad ∈ kept, (missingDependents kept bad).isEmpty = false := by
        by_contra hno
        apply hall
        rw [List.all_eq_true]
        intro x hx
        by_contra hx2
        exact hno ⟨x, hx, by simpa using hx2⟩
      obtain ⟨bad, hbad, hmiss⟩ := hex
      have hlt : (kept.filter
          (fun candidate => (missingDependents kept candidate).isEmpty)).length < kept.length := by
        apply List.length_filter_lt_length_iff_exists.2
        exact ⟨bad, hbad, by simp [hmiss]⟩
      omega

/-- C4. Closure soundness: for every bucket, every loader and every bound on the expansion,
after the closure verification step of the per-architecture block every candidate that
remains in `dylibsForCache` has every one of its dependency load paths present as the
install name of some candidate of the same `dylibsForCache`. -/
theorem verifySelfContainedStep_no_dangling_dependency (fuel : Nat)
    (loader : String → Option MappedMachO) (fileSet : MappedMachOsByCategory) :
    ∀ candidate ∈ (verifySelfContainedStep fuel loader fileSet).1.dylibsForCache,
      ∀ loadPath ∈ candidate.mh.dependents,
        ∃ provider ∈ (verifySelfContainedStep fuel loader fileSet).1.dylibsForCache,
          provider.mh.installName = loadPath := by
  intro candidate hmem
  have hstep : (verifySelfContainedStep fuel loader fileSet).1.dylibsForCache =
      (verifySelfContained fuel fileSet.dylibsForCache loader).1 := rfl
  rw [hstep] at hmem ⊢
  unfold verifySelfContained at hmem ⊢
  dsimp only at hmem ⊢
  exact (missingDependents_eq_nil_iff _ candidate).1
    (propagateExclusion_closed _ _ _ (Nat.le_refl _) candidate hmem)

/-- Witness for C4: with a loader that finds `libB`, the step keeps `libA`, adds `libB` and
rejects `libC`; the dependency of `libA` is the install name of `libB`. -/
theorem verifySelfContainedStep_no_dangling_dependency_witness :
    (verifySelfContainedStep 4 loaderOfLibB closureBucket).1.dylibsForCache = [libA, libB] ∧
    ∃ provider ∈ (verifySelfContainedStep 4 loaderOfLibB closureBucket).1.dylibsForCache,
      provider.mh.installName = "/usr/lib/libB.dylib" :=
  ⟨by decide,
    verifySelfContainedStep_no_dangling_dependency 4 loaderOfLibB closureBucket libA
      (by decide) "/usr/lib/libB.dylib" (by decide)⟩

/-! ## The freshness check: claims -/

theorem mem_of_lookup_eq_some {β : Type} (map : List (String × β)) (key : String) (value : β)
    (h : map.lookup key = some value) : (key, value) ∈ map := by
  induction map with
  | nil => simp [List.lookup] at h
  | cons pair rest ih =>
    obtain ⟨k, v⟩ := pair
    by_cases hk : key = k
    · subst hk
      simp only [List.lookup_cons, beq_self_eq_true, Option.some.injEq] at h
      subst h
      exact List.mem_cons_self _ _
    · have hb : (key == k) = false := by simpa using hk
      simp only [List.lookup_cons, hb] at h
      exact List.mem_cons_of_mem _ (ih h)

theorem mem_mapAssign (map : List (String × MappedMachO)) (key : String) (value : MappedMachO)
    (pair : String × MappedMachO) (h : pair ∈ mapAssign map key value) :
    pair ∈ map ∨ pair = (key, value) := by
  unfold mapAssign at h
  by_cases hk : (map.lookup key).isSome = true
  · rw [if_pos hk, List.mem_map] at h
    obtain ⟨old, hold, heq⟩ := h
    by_cases h2 : old.1 = key
    · rw [if_pos h2] at heq; exact Or.inr heq.symm
    · rw [if_neg h2] at heq; rw [← heq]; exact Or.inl hold
  · rw [if_neg hk, List.mem_append, List.mem_singleton] at h
    exact h

theorem mem_foldl_mapAssign (currentDylibs : List MappedMachO) :
    ∀ (map : List (String × MappedMachO)) (pair : String × MappedMachO),
      pair ∈ currentDylibs.foldl (fun map aFile => mapAssign map aFile.runtimePath aFile) map →
      pair ∈ map ∨ pair.2 ∈ currentDylibs := by
  induction currentDylibs with
  | nil => intro map pair h; exact Or.inl h
  | cons aFile rest ih =>
    intro map pair h
    rw [List.foldl_cons] at h
    rcases ih _ pair h with h1 | h1
    · rcases mem_mapAssign _ _ _ _ h1 with h2 | h2
      · exact Or.inl h2
      · rw [h2]; exact Or.inr (List.mem_cons_self _ _)
    · exact Or.inr (List.mem_cons_of_mem _ h1)

/-- The fast path finds only current candidates. -/
theorem mem_of_lookup_buildCurrentDylibMap (currentDylibs : List MappedMachO) (key : String)
    (found : MappedMachO) (h : (buildCurrentDylibMap currentDylibs).lookup key = some found) :
    found ∈ currentDylibs := by
  have hmem := mem_of_lookup_eq_some _ _ _ h
  rcases mem_foldl_mapAssign currentDylibs [] _ hmem with h1 | h1
  · cases h1
  · exact h1

/-- Whether a current candidate has the inode and modification time of the entry. -/
theorem slowPath_eq_true_iff (currentDylibs : List MappedMachO) (entry : ImageEntry) :
    currentDylibs.any (fun aFile => aFile.inode == entry.inode && aFile.modTime == entry.mTime) =
      true ↔ ∃ aFile ∈ currentDylibs, aFile.inode = entry.inode ∧ aFile.modTime = entry.mTime := by
  simp [List.any_eq_true]

theorem checkImageEntry_of_match (verbose : Bool) (currentDylibs : List MappedMachO)
    (state : Bool × List String) (entry : ImageEntry)
    (h : ∃ aFile ∈ currentDylibs, aFile.inode = entry.inode ∧ aFile.modTime = entry.mTime) :
    checkImageEntry verbose (buildCurrentDylibMap currentDylibs) currentDylibs state entry =
      state := by
  unfold checkImageEntry
  dsimp only
  rw [(slowPath_eq_true_iff currentDylibs entry).2 h]
  simp

theorem checkImageEntry_of_no_match (verbose : Bool) (currentDylibs : List MappedMachO)
    (state : Bool × List String) (entry : ImageEntry)
    (h : ¬ ∃ aFile ∈ currentDylibs, aFile.inode = entry.inode ∧ aFile.modTime = entry.mTime) :
    (checkImageEntry verbose (buildCurrentDylibMap currentDylibs) currentDylibs state entry).1 =
      true := by
  have hslow : currentDylibs.any
      (fun aFile => aFile.inode == entry.inode && aFile.modTime == entry.mTime) = false := by
    rw [← Bool.not_eq_true, slowPath_eq_true_iff]; exact h
  have hfast : (match (buildCurrentDylibMap currentDylibs).lookup entry.installName with
      | some foundDylib => foundDylib.inode == entry.inode && foundDylib.modTime == entry.mTime
      | none => false) = false := by
    cases hl : (buildCurrentDylibMap currentDylibs).lookup entry.installName with
    | none => rfl
    | some foundDylib =>
      dsimp only
      rw [← Bool.not_eq_true]
      intro hm
      apply h
      refine ⟨foundDylib, mem_of_lookup_buildCurrentDylibMap _ _ _ hl, ?_⟩
      simpa using hm
  unfold checkImageEntry
  dsimp only
  rw [hfast, hslow]
  simp

theorem checkImageEntry_mono (verbose : Bool) (currentDylibMap : List (String × MappedMachO))
    (currentDylibs : List MappedMachO) (state : Bool × List String) (entry : ImageEntry)
    (h : state.1 = true) :
    (checkImageEntry verbose currentDylibMap currentDylibs state entry).1 = true := by
  unfold checkImageEntry
  dsimp only
  split_ifs <;> first | exact h | rfl

theorem foldl_checkImageEntry_mono (verbose : Bool)
    (currentDylibMap : List (String × MappedMachO)) (currentDylibs : List MappedMachO)
    (entries : List ImageEntry) :
    ∀ state : Bool × List String, state.1 = true →
      (entries.foldl (checkImageEntry verbose currentDylibMap currentDylibs) state).1 = true := by
  induction entries with
  | nil => intro state h; exact h
  | cons entry rest ih =>
    intro state h
    rw [List.foldl_cons]
    exact ih _ (checkImageEntry_mono _ _ _ _ _ h)

theorem foldl_checkImageEntry_of_all_match (verbose : Bool) (currentDylibs : List MappedMachO)
    (entries : List ImageEntry)
    (h : ∀ entry ∈ entries,
      ∃ aFile ∈ currentDylibs, aFile.inode = entry.inode ∧ aFile.modTime = entry.mTime) :
    ∀ state : Bool × List String,
      entries.foldl (checkImageEntry verbose (buildCurrentDylibMap currentDylibs) currentDylibs)
        state = state := by
  induction entries with
  | nil => intro state; rfl
  | cons entry rest ih =>
    intro state
    rw [List.foldl_cons, checkImageEntry_of_match _ _ _ _ (h entry (List.mem_cons_self _ _))]
    exact ih (fun e he => h e (List.mem_cons_of_mem _ he)) state

theorem foldl_checkImageEntry_of_some_no_match (verbose : Bool)
    (currentDylibs : List MappedMachO) (entries : List ImageEntry) (entry : ImageEntry)
    (hmem : entry ∈ entries)
    (h : ¬ ∃ aFile ∈ currentDylibs, aFile.inode = entry.inode ∧ aFile.modTime = entry.mTime) :
    ∀ state : Bool × List String,
      (entries.foldl (checkImageEntry verbose (buildCurrentDylibMap currentDylibs) currentDylibs)
        state).1 = true := by
  induction entries with
  | nil => cases hmem
  | cons first rest ih =>
    intro state
    rw [List.foldl_cons]
    rcases List.mem_cons.1 hmem with h1 | h1
    · subst h1
      exact foldl_checkImageEntry_mono _ _ _ _ _ (checkImageEntry_of_no_match _ _ _ _ h)
    · exact ih h1 _

/-- C5. Freshness round trip: for every candidate sequence `S` and every existing, readable
artifact whose embedded image entries are exactly the (install name, modification time,
inode) triples of the candidates of `S`, `existingCacheUpToDate` on the artifact and `S`
returns true, whatever the runtime paths are (a runtime path may differ from the install
name), and prints nothing. -/
theorem existingCacheUpToDate_round_trip (openCache : String → CacheFile) (verbose : Bool)
    (existingCache : String) (S : List MappedMachO) (entries : List ImageEntry)
    (hopen : openCache existingCache = CacheFile.mapped entries)
    (hbuilt : ∀ entry, entry ∈ entries ↔ ∃ candidate ∈ S, entry = imageEntryOf candidate) :
    existingCacheUpToDate openCache verbose existingCache S = (true, []) := by
  unfold existingCacheUpToDate
  rw [hopen]
  dsimp only
  rw [foldl_checkImageEntry_of_all_match]
  · rfl
  · intro entry hentry
    obtain ⟨candidate, hcand, heq⟩ := (hbuilt entry).1 hentry
    exact ⟨candidate, hcand, by rw [heq]; exact ⟨rfl, rfl⟩⟩

/-- Witness for C5: a cache built from `libFoo` and from `libBar`, whose runtime path is not
its install name, is fresh for these two candidates. -/
theorem existingCacheUpToDate_round_trip_witness :
    cacheBuiltFrom [libFoo, libBar] "/var/db/dyld/dyld_shared_cache_x86_64" =
      CacheFile.mapped [imageEntryOf libFoo, imageEntryOf libBar] ∧
    libBar.runtimePath ≠ libBar.mh.installName ∧
    existingCacheUpToDate (cacheBuiltFrom [libFoo, libBar]) true
      "/var/db/dyld/dyld_shared_cache_x86_64" [libFoo, libBar] = (true, []) :=
  ⟨rfl, by decide,
    existingCacheUpToDate_round_trip (cacheBuiltFrom [libFoo, libBar]) true
      "/var/db/dyld/dyld_shared_cache_x86_64" [libFoo, libBar]
      [imageEntryOf libFoo, imageEntryOf libBar] rfl (by intro entry; simp [eq_comm])⟩

/-- C7. For every candidate sequence, if the existing artifact does not exist or cannot be
opened for reading, `existingCacheUpToDate` returns false and prints nothing; the result is
the same for every candidate sequence. -/
theorem existingCacheUpToDate_cannot_open (openCache : String → CacheFile) (verbose : Bool)
    (existingCache : String) (currentDylibs : List MappedMachO)
    (hopen : openCache existingCache = CacheFile.cannotOpen) :
    existingCacheUpToDate openCache verbose existingCache currentDylibs = (false, []) := by
  unfold existingCacheUpToDate
  rw [hopen]

/-- Witness for C7: without an existing cache the check is stale for `libFoo` and
`libBar`. -/
theorem existingCacheUpToDate_cannot_open_witness :
    existingCacheUpToDate noCache true "/var/db/dyld/dyld_shared_cache_x86_64"
      [libFoo, libBar] = (false, []) :=
  existingCacheUpToDate_cannot_open noCache true "/var/db/dyld/dyld_shared_cache_x86_64"
    [libFoo, libBar] rfl

/-! ## The build block: claims -/

theorem blockEvents_eq (world : World) (locals : MainLocals) (requireSIP : Bool)
    (fileSet : MappedMachOsByCategory) (state : RunState) :
    blockEvents world locals requireSIP fileSet state =
      blockPrelude world locals requireSIP fileSet ++
        blockTail world locals requireSIP fileSet state.cacheBuildFailure := by
  unfold blockEvents
  rw [cacheBuildBlock_eq]
  exact List.drop_left _ _

theorem builderCall_mem_buildPrelude (world : World) (locals : MainLocals) (requireSIP : Bool)
    (fileSet : MappedMachOsByCategory) :
    builderCall world locals requireSIP fileSet ∈
      buildPrelude world locals (verifiedBucket world locals requireSIP fileSet) := by
  unfold buildPrelude builderCall
  simp

theorem builderCall_mem_blockTail (world : World) (locals : MainLocals) (requireSIP : Bool)
    (fileSet : MappedMachOsByCategory) (failedBefore : Bool)
    (hgate : gateOpen world locals requireSIP fileSet = true) :
    builderCall world locals requireSIP fileSet ∈
      blockTail world locals requireSIP fileSet failedBefore := by
  unfold blockTail
  rw [if_neg (by rw [hgate]; exact Bool.noConfusion)]
  exact List.mem_append_left _ (builderCall_mem_buildPrelude _ _ _ _)

theorem blockTail_of_gate_closed (world : World) (locals : MainLocals) (requireSIP : Bool)
    (fileSet : MappedMachOsByCategory) (failedBefore : Bool)
    (hgate : gateOpen world locals requireSIP fileSet = false) :
    blockTail world locals requireSIP fileSet failedBefore = [] := by
  unfold blockTail
  rw [if_pos hgate]

/-- C8. Build gate: for every per-architecture block, the cache builder is called exactly
when the force flag is set or `existingCacheUpToDate` returns false, and the call is then
the one on the verified bucket; when the flag is not set and the check returns true, the
block ends having cleared or set no identity tag and called `safeSave` for no file, and it
leaves `cacheBuildFailure` and `wroteSomeCacheFile` unchanged; when force is set the block
does not depend on what the freshness check would find. -/
theorem cacheBuildBlock_build_gate (world : World) (locals : MainLocals) (requireSIP : Bool)
    (fileSet : MappedMachOsByCategory) (state : RunState) :
    ((∃ event ∈ blockEvents world locals requireSIP fileSet state, event.isCreate = true) ↔
      (locals.force = true ∨ cacheIsFresh world locals requireSIP fileSet = false)) ∧
    ((locals.force = true ∨ cacheIsFresh world locals requireSIP fileSet = false) →
      builderCall world locals requireSIP fileSet ∈
        blockEvents world locals requireSIP fileSet state) ∧
    (locals.force = false → cacheIsFresh world locals requireSIP fileSet = true →
      (∀ event ∈ blockEvents world locals requireSIP fileSet state,
        event.isXattr = false ∧ event.isSafeSave = false) ∧
      (cacheBuildBlock world locals requireSIP fileSet state).cacheBuildFailure =
        state.cacheBuildFailure ∧
      (cacheBuildBlock world locals requireSIP fileSet state).wroteSomeCacheFile =
        state.wroteSomeCacheFile) ∧
    (locals.force = true → ∀ openCache : String → CacheFile,
      cacheBuildBlock { world with openCache := openCache } locals requireSIP fileSet state =
        cacheBuildBlock world locals requireSIP fileSet state) := by
  have hprelude : ∀ event ∈ blockPrelude world locals requireSIP fileSet,
      event.isCreate = false ∧ event.isXattr = false ∧ event.isSafeSave = false := by
    intro event hmem
    obtain ⟨line, rfl⟩ := blockPrelude_stderr _ _ _ _ event hmem
    exact ⟨rfl, rfl, rfl⟩
  refine ⟨?_, ?_, ?_, ?_⟩
  · rw [← gateOpen_iff, blockEvents_eq]
    constructor
    · rintro ⟨event, hmem, hcreate⟩
      cases hgate : gateOpen world locals requireSIP fileSet with
      | true => rfl
      | false =>
        rw [blockTail_of_gate_closed _ _ _ _ _ hgate, List.append_nil] at hmem
        rw [(hprelude event hmem).1] at hcreate
        cases hcreate
    · intro hgate
      exact ⟨builderCall world locals requireSIP fileSet,
        List.mem_append_right _ (builderCall_mem_blockTail _ _ _ _ _ hgate), rfl⟩
  · intro h
    rw [blockEvents_eq]
    exact List.mem_append_right _
      (builderCall_mem_blockTail _ _ _ _ _ ((gateOpen_iff _ _ _ _).2 h))
  · intro hforce hfresh
    have hgate : gateOpen world locals requireSIP fileSet = false := by
      unfold gateOpen; rw [hforce, hfresh]; rfl
    refine ⟨?_, ?_, ?_⟩
    · intro event hmem
      rw [blockEvents_eq, blockTail_of_gate_closed _ _ _ _ _ hgate, List.append_nil] at hmem
      exact (hprelude event hmem).2
    · rw [cacheBuildBlock_of_gate_closed _ _ _ _ _ hgate]; rfl
    · rw [cacheBuildBlock_of_gate_closed _ _ _ _ _ hgate]; rfl
  · intro hforce openCache
    unfold cacheBuildBlock
    dsimp only
    rw [if_pos hforce, if_pos hforce,
      verifiedFileSet_congr world { world with openCache := openCache } rfl rfl rfl]
    rfl

theorem not_mem_buildPrelude_safeSave (world : World) (locals : MainLocals)
    (fileSet : MappedMachOsByCategory) (buffer : SavedBuffer) (bufferLen : Nat) (path : String)
    (saved : Bool) :
    Event.safeSave buffer bufferLen path saved ∉ buildPrelude world locals fileSet := by
  unfold buildPrelude
  cases world.removexattr (outFile locals fileSet) <;> simp

theorem artifactSave_mem_blockTail (world : World) (locals : MainLocals) (requireSIP : Bool)
    (fileSet : MappedMachOsByCategory) (failedBefore : Bool)
    (hgate : gateOpen world locals requireSIP fileSet = true)
    (herr : (builderResults world locals requireSIP fileSet).errorMessage = "")
    (hsave : world.safeSave (outFile locals (verifiedBucket world locals requireSIP fileSet)) =
      true) :
    artifactSave world locals requireSIP fileSet true ∈
      blockTail world locals requireSIP fileSet failedBefore := by
  unfold blockTail
  rw [if_neg (by rw [hgate]; exact Bool.noConfusion), if_neg (fun h => h herr),
    if_neg (by rw [hsave]; exact Bool.noConfusion)]
  apply List.mem_append_right
  cases failedBefore with
  | true => rw [if_pos rfl]; exact List.mem_singleton.2 rfl
  | false => rw [if_neg Bool.noConfusion]; exact List.mem_cons_self _ _

/-- A block saves a cache only at its own `outFile`, and only when the builder returned no
error message. -/
theorem safeSave_cache_of_mem_block (world : World) (locals : MainLocals) (requireSIP : Bool)
    (fileSet : MappedMachOsByCategory) (failedBefore : Bool) (content : CacheContent)
    (bufferLen : Nat) (path : String) (saved : Bool)
    (hmem : Event.safeSave (SavedBuffer.cache content) bufferLen path saved ∈
      blockPrelude world locals requireSIP fileSet ++
        blockTail world locals requireSIP fileSet failedBefore) :
    path = outFile locals fileSet ∧
      (builderResults world locals requireSIP fileSet).errorMessage = "" := by
  rcases List.mem_append.1 hmem with h | h
  · obtain ⟨line, hline⟩ := blockPrelude_stderr _ _ _ _ _ h
    cases hline
  · unfold blockTail at h
    by_cases hgate : gateOpen world locals requireSIP fileSet = false
    · rw [if_pos hgate] at h; cases h
    rw [if_neg hgate] at h
    rcases List.mem_append.1 h with h1 | h1
    · exact absurd h1 (not_mem_buildPrelude_safeSave _ _ _ _ _ _ _)
    by_cases herr : (builderResults world locals requireSIP fileSet).errorMessage = ""
    · refine ⟨?_, herr⟩
      rw [if_neg (fun hne => hne herr)] at h1
      have hpath : ∀ flag, Event.safeSave (SavedBuffer.cache content) bufferLen path saved =
          artifactSave world locals requireSIP fileSet flag → path = outFile locals fileSet := by
        intro flag heq
        unfold artifactSave at heq
        injection heq with _ _ hp _
      by_cases hsave : world.safeSave
          (outFile locals (verifiedBucket world locals requireSIP fileSet)) = false
      · rw [if_pos hsave] at h1
        rcases List.mem_cons.1 h1 with h2 | h2
        · exact hpath _ h2
        · rcases List.mem_singleton.1 h2 with h3
          cases h3
      · rw [if_neg hsave] at h1
        by_cases hfailed : failedBefore = true
        · rw [if_pos hfailed] at h1
          exact hpath _ (List.mem_singleton.1 h1)
        · rw [if_neg hfailed] at h1
          rcases List.mem_cons.1 h1 with h2 | h2
          · exact hpath _ h2
          · unfold afterSaveEvents at h2
            generalize world.setxattr
              (outFile locals (verifiedBucket world locals requireSIP fileSet)) = tag at h2
            cases tag <;> simp at h2
    · rw [if_pos herr] at h1
      rcases List.mem_singleton.1 h1 with h2
      cases h2

theorem mainBuildCaches_two_blocks (world : World) (locals : MainLocals)
    (order : List Nat) (failed ok : MappedMachOsByCategory)
    (allFileSets : List MappedMachOsByCategory) (lines : List String)
    (hpruned : prunedFileSets world locals = some (allFileSets, lines))
    (hsets : allFileSets = [failed, ok] ∨ allFileSets = [ok, failed])
    (horder : order = [0, 1] ∨ order = [1, 0])
    (harch : failed.archName ≠ ok.archName)
    (hgateFailed : locals.force = true ∨
      cacheIsFresh world locals (world.isProtectedBySIP locals.cacheDir) failed = false)
    (hgateOk : locals.force = true ∨
      cacheIsFresh world locals (world.isProtectedBySIP locals.cacheDir) ok = false)
    (hfailed : (builderResults world locals (world.isProtectedBySIP locals.cacheDir)
      failed).errorMessage ≠ "")
    (hok : (builderResults world locals (world.isProtectedBySIP locals.cacheDir)
      ok).errorMessage = "")
    (hsave : world.safeSave (outFile locals ok) = true) :
    ∃ events, mainBuildCaches world locals order = some (1, events) ∧
      builderCall world locals (world.isProtectedBySIP locals.cacheDir) failed ∈ events ∧
      builderCall world locals (world.isProtectedBySIP locals.cacheDir) ok ∈ events ∧
      Event.safeSave
        (SavedBuffer.cache (builderResults world locals (world.isProtectedBySIP locals.cacheDir)
          ok).cacheContent)
        (builderResults world locals (world.isProtectedBySIP locals.cacheDir) ok).cacheLength
        (outFile locals ok) true ∈ events ∧
      ∀ content bufferLen saved,
        Event.safeSave (SavedBuffer.cache content) bufferLen (outFile locals failed) saved ∉
          events := by
  have hperm : order.Perm (List.range allFileSets.length) := by
    rcases hsets with h | h <;> rcases horder with h2 | h2 <;> subst h <;> subst h2
    · exact List.Perm.refl _
    · exact List.Perm.swap _ _ _
    · exact List.Perm.refl _
    · exact List.Perm.swap _ _ _
  have hmemF : failed ∈ allFileSets := by rcases hsets with h | h <;> subst h <;> simp
  have hmemO : ok ∈ allFileSets := by rcases hsets with h | h <;> subst h <;> simp
  have hstarted : ∀ fileSet ∈ allFileSets, ∃ index ∈ order,
      allFileSets.get? index = some fileSet := by
    intro fileSet hmem
    obtain ⟨index, hget⟩ := List.mem_iff_get?.1 hmem
    have hlt : index < allFileSets.length := by
      by_contra hge
      rw [List.get?_eq_none.2 (Nat.le_of_not_lt hge)] at hget
      cases hget
    exact ⟨index, (hperm.mem_iff).2 (List.mem_range.2 hlt), hget⟩
  have hgF := (gateOpen_iff world locals (world.isProtectedBySIP locals.cacheDir) failed).2
    hgateFailed
  have hgO := (gateOpen_iff world locals (world.isProtectedBySIP locals.cacheDir) ok).2 hgateOk
  obtain ⟨exit, events, hmain, hsub, hsup⟩ :=
    mainBuildCaches_events world locals order allFileSets lines hpruned
  have hexit := mainBuildCaches_exit world locals order allFileSets lines hpruned
  rw [hmain, Option.map_some', Option.some.injEq] at hexit
  dsimp only at hexit
  have hany := (any_blockFails_iff world locals (world.isProtectedBySIP locals.cacheDir)
    allFileSets order hperm).2
    ⟨failed, hmemF, (blockFails_iff _ _ _ _).2 ⟨hgateFailed, Or.inl hfailed⟩⟩
  rw [if_pos hany] at hexit
  subst hexit
  refine ⟨events, hmain, ?_, ?_, ?_, ?_⟩
  · obtain ⟨index, hindex, hget⟩ := hstarted failed hmemF
    apply hsub
    exact dispatchApply_events_of_block _ _ _ _ _ _ index failed hindex hget
      (fun _ => List.mem_append_right _ (builderCall_mem_blockTail _ _ _ _ _ hgF)) _
  · obtain ⟨index, hindex, hget⟩ := hstarted ok hmemO
    apply hsub
    exact dispatchApply_events_of_block _ _ _ _ _ _ index ok hindex hget
      (fun _ => List.mem_append_right _ (builderCall_mem_blockTail _ _ _ _ _ hgO)) _
  · obtain ⟨index, hindex, hget⟩ := hstarted ok hmemO
    apply hsub
    exact dispatchApply_events_of_block _ _ _ _ _ _ index ok hindex hget
      (fun _ => List.mem_append_right _
        (artifactSave_mem_blockTail _ _ _ _ _ hgO hok hsave)) _
  · intro content bufferLen saved hmem
    rcases hsup _ hmem with h | ⟨_, h⟩
    · rcases dispatchApply_events_origin _ _ _ _ _ _ _ h with h1 | ⟨fileSet, hfs, _, h1⟩
      · obtain ⟨line, _, hline⟩ := List.mem_map.1 h1
        cases hline
      · obtain ⟨hpath, herr⟩ := safeSave_cache_of_mem_block _ _ _ _ _ _ _ _ _ h1
        have hcases : fileSet = failed ∨ fileSet = ok := by
          rcases hsets with hs | hs <;> subst hs <;> simp at hfs <;> tauto
        rcases hcases with hc | hc
        · subst hc; exact hfailed herr
        · subst hc; exact harch (outFile_injective locals _ _ hpath)
    · cases h

/-- C9, as amended. Partial failure isolation: for every run with two architecture blocks,
in either execution order, in which both blocks build, the builder returns a non-empty
error message for one architecture and no error message for the other, and the write of
the artifact of the successful architecture succeeds: both builder calls are made, the
artifact of the successful architecture is written to its
`cacheDir/dyld_shared_cache_<arch>` file, no artifact is written to the file of the failed
architecture, and `main` returns 1. -/
theorem main_partial_failure (world : World) (argv : List String) (order : List Nat)
    (options : ParsedOptions) (failed ok : MappedMachOsByCategory)
    (allFileSets : List MappedMachOsByCategory) (lines : List String)
    (hparse : parseOptions (argv.drop 1) {} = Except.ok options)
    (hpaths : options.rootPath = "" ∨ options.overlayPath = "")
    (hmkpath : world.mkpath_np (localsOf world options).cacheDir = 0 ∨
      world.mkpath_np (localsOf world options).cacheDir = EEXIST)
    (hpruned : prunedFileSets world (localsOf world options) = some (allFileSets, lines))
    (hsets : allFileSets = [failed, ok] ∨ allFileSets = [ok, failed])
    (horder : order = [0, 1] ∨ order = [1, 0])
    (harch : failed.archName ≠ ok.archName)
    (hgateFailed : (localsOf world options).force = true ∨
      cacheIsFresh world (localsOf world options)
        (world.isProtectedBySIP (localsOf world options).cacheDir) failed = false)
    (hgateOk : (localsOf world options).force = true ∨
      cacheIsFresh world (localsOf world options)
        (world.isProtectedBySIP (localsOf world options).cacheDir) ok = false)
    (hfailed : (builderResults world (localsOf world options)
      (world.isProtectedBySIP (localsOf world options).cacheDir) failed).errorMessage ≠ "")
    (hok : (builderResults world (localsOf world options)
      (world.isProtectedBySIP (localsOf world options).cacheDir) ok).errorMessage = "")
    (hsave : world.safeSave (outFile (localsOf world options) ok) = true) :
    ∃ events, main world argv order = some (1, events) ∧
      builderCall world (localsOf world options)
        (world.isProtectedBySIP (localsOf world options).cacheDir) failed ∈ events ∧
      builderCall world (localsOf world options)
        (world.isProtectedBySIP (localsOf world options).cacheDir) ok ∈ events ∧
      Event.safeSave
        (SavedBuffer.cache (builderResults world (localsOf world options)
          (world.isProtectedBySIP (localsOf world options).cacheDir) ok).cacheContent)
        (builderResults world (localsOf world options)
          (world.isProtectedBySIP (localsOf world options).cacheDir) ok).cacheLength
        (outFile (localsOf world options) ok) true ∈ events ∧
      ∀ content bufferLen saved,
        Event.safeSave (SavedBuffer.cache content) bufferLen
          (outFile (localsOf world options) failed) saved ∉ events := by
  rw [main_eq_mainBuildCaches world argv order options hparse hpaths hmkpath]
  exact mainBuildCaches_two_blocks world (localsOf world options) order failed ok allFileSets
    lines hpruned hsets horder harch hgateFailed hgateOk hfailed hok hsave

/-- Witness for C9 as amended: the builder fails for i386 and succeeds for x86_64, and the
x86_64 artifact is written; `main` returns 1. -/
theorem main_partial_failure_witness :
    ∃ events, main (sampleWorld true) sampleArgv [1, 0] = some (1, events) ∧
      builderCall (sampleWorld true) (localsOf (sampleWorld true) {})
        ((sampleWorld true).isProtectedBySIP (localsOf (sampleWorld true) {}).cacheDir)
        i386Bucket ∈ events ∧
      builderCall (sampleWorld true) (localsOf (sampleWorld true) {})
        ((sampleWorld true).isProtectedBySIP (localsOf (sampleWorld true) {}).cacheDir)
        x86Bucket ∈ events ∧
      Event.safeSave
        (SavedBuffer.cache (builderResults (sampleWorld true) (localsOf (sampleWorld true) {})
          ((sampleWorld true).isProtectedBySIP (localsOf (sampleWorld true) {}).cacheDir)
          x86Bucket).cacheContent)
        (builderResults (sampleWorld true) (localsOf (sampleWorld true) {})
          ((sampleWorld true).isProtectedBySIP (localsOf (sampleWorld true) {}).cacheDir)
          x86Bucket).cacheLength
        (outFile (localsOf (sampleWorld true) {}) x86Bucket) true ∈ events ∧
      ∀ content bufferLen saved,
        Event.safeSave (SavedBuffer.cache content) bufferLen
          (outFile (localsOf (sampleWorld true) {}) i386Bucket) saved ∉ events :=
  main_partial_failure (sampleWorld true) sampleArgv [1, 0] {} i386Bucket x86Bucket
    [x86Bucket, i386Bucket] [] rfl (Or.inl rfl) (Or.inl rfl) (by decide) (Or.inr rfl)
    (Or.inr rfl) (by decide) (Or.inr (by decide)) (Or.inr (by decide)) (by decide) (by decide)
    rfl

/-- Counterexample to C9 as stated: the builder fails for i386 and succeeds for x86_64, but
`safeSave` cannot write; the only call of `safeSave` in the run is the failed one for the
x86_64 artifact, so the artifact of the successful architecture is not written. -/
theorem main_artifact_not_written :
    prunedFileSets (sampleWorld false) (localsOf (sampleWorld false) {}) =
      some ([x86Bucket, i386Bucket], []) ∧
    (builderResults (sampleWorld false) (localsOf (sampleWorld false) {}) false
      i386Bucket).errorMessage = "cache overflow" ∧
    (builderResults (sampleWorld false) (localsOf (sampleWorld false) {}) false
      x86Bucket).errorMessage = "" ∧
    (main (sampleWorld false) sampleArgv [0, 1]).map
        (fun result => (result.1, result.2.filter Event.isSafeSave)) =
      some (1, [Event.safeSave (SavedBuffer.cache sampleCache) 1
        "/private/var/db/dyld//dyld_shared_cache_x86_64" false]) := by
  decide

/-- The exit status of the part of `main` after line 662. -/
theorem mainBuildCaches_exit_iff (world : World) (locals : MainLocals) (order : List Nat)
    (allFileSets : List MappedMachOsByCategory) (lines : List String)
    (hpruned : prunedFileSets world locals = some (allFileSets, lines)) :
    ∃ exit events, mainBuildCaches world locals order = some (exit, events) ∧
      (order.Perm (List.range allFileSets.length) →
        (exit = 1 ↔ ∃ fileSet ∈ allFileSets,
          (locals.force = true ∨
            cacheIsFresh world locals (world.isProtectedBySIP locals.cacheDir) fileSet =
              false) ∧
          ((builderResults world locals (world.isProtectedBySIP locals.cacheDir)
              fileSet).errorMessage ≠ "" ∨
            ((builderResults world locals (world.isProtectedBySIP locals.cacheDir)
                fileSet).errorMessage = "" ∧
              world.safeSave (outFile locals fileSet) = false)))) ∧
      (exit = 0 ∨ exit = 1) ∧
      (∀ (removexattr setxattr : String → Option String)
          (warnings : CreateOptions → List MappedMachO → List MappedMachO → List MappedMachO →
            List String),
        (mainBuildCaches (world.withTagsAndWarnings removexattr setxattr warnings)
          locals order).map Prod.fst = some exit) := by
  have hexit := mainBuildCaches_exit world locals order allFileSets lines hpruned
  cases hmain : mainBuildCaches world locals order with
  | none => rw [hmain] at hexit; cases hexit
  | some result =>
    obtain ⟨exit, events⟩ := result
    rw [hmain, Option.map_some', Option.some.injEq] at hexit
    dsimp only at hexit
    refine ⟨exit, events, rfl, ?_, ?_, ?_⟩
    · intro horder
      rw [hexit]
      have hany := any_blockFails_iff world locals (world.isProtectedBySIP locals.cacheDir)
        allFileSets order horder
      constructor
      · intro h
        have : (order.any fun index =>
            match allFileSets.get? index with
            | some fileSet =>
              blockFails world locals (world.isProtectedBySIP locals.cacheDir) fileSet
            | none => false) = true := by
          by_contra hno
          rw [if_neg hno] at h
          cases h
        obtain ⟨fileSet, hmem, hfails⟩ := hany.1 this
        exact ⟨fileSet, hmem, (blockFails_iff _ _ _ _).1 hfails⟩
      · rintro ⟨fileSet, hmem, hfails⟩
        rw [if_pos (hany.2 ⟨fileSet, hmem, (blockFails_iff _ _ _ _).2 hfails⟩)]
    · rw [hexit]
      split_ifs
      · exact Or.inr rfl
      · exact Or.inl rfl
    · intro removexattr setxattr warnings
      have hpruned2 : prunedFileSets (world.withTagsAndWarnings removexattr setxattr warnings)
          locals = some (allFileSets, lines) := by
        rw [← hpruned]
        exact prunedFileSets_congr world
          (world.withTagsAndWarnings removexattr setxattr warnings) rfl rfl rfl rfl rfl rfl
          locals
      rw [mainBuildCaches_exit _ locals order allFileSets lines hpruned2, hexit]
      have hcongr : ∀ fileSet,
          blockFails (world.withTagsAndWarnings removexattr setxattr warnings) locals
            (world.isProtectedBySIP locals.cacheDir) fileSet =
          blockFails world locals (world.isProtectedBySIP locals.cacheDir) fileSet :=
        fun fileSet => blockFails_congr world
          (world.withTagsAndWarnings removexattr setxattr warnings) rfl rfl rfl rfl rfl
          (fun _ _ _ _ => rfl) _ _ _
      have hsip : (world.withTagsAndWarnings removexattr setxattr warnings).isProtectedBySIP =
          world.isProtectedBySIP := rfl
      rw [hsip]
      simp only [hcongr]

/-- Once the options are parsed and the cache directory is made, `main` ends without an exit
status exactly when pruning throws. -/
theorem main_eq_none_iff (world : World) (argv : List String) (order : List Nat)
    (options : ParsedOptions)
    (hparse : parseOptions (argv.drop 1) {} = Except.ok options)
    (hpaths : options.rootPath = "" ∨ options.overlayPath = "")
    (hmkpath : world.mkpath_np (localsOf world options).cacheDir = 0 ∨
      world.mkpath_np (localsOf world options).cacheDir = EEXIST) :
    main world argv order = none ↔ prunedFileSets world (localsOf world options) = none := by
  rw [main_eq_mainBuildCaches world argv order options hparse hpaths hmkpath]
  unfold mainBuildCaches
  cases prunedFileSets world (localsOf world options) with
  | none => exact ⟨fun _ => rfl, fun _ => rfl⟩
  | some pruned =>
    constructor
    · intro h
      cases h
    · intro h
      cases h

/-- C10. Once argument parsing and cache-directory creation have succeeded, either pruning
throws (`substr` at source line 396) and `main` ends without an exit status, or `main`
returns 0 or 1: it returns 1 exactly when, for at least one architecture whose block builds,
the builder returned a non-empty error message or writing the artifact failed, and 0
otherwise; the status is read from the state that the last block leaves, whatever the order
of the blocks, and it is the same when the outcomes of `removexattr` and `setxattr` and the
warnings of the builder are replaced by any others. Without `-root` pruning does not throw
and `main` returns. -/
theorem main_exit_status (world : World) (argv : List String) (order : List Nat)
    (options : ParsedOptions)
    (hparse : parseOptions (argv.drop 1) {} = Except.ok options)
    (hpaths : options.rootPath = "" ∨ options.overlayPath = "")
    (hmkpath : world.mkpath_np (localsOf world options).cacheDir = 0 ∨
      world.mkpath_np (localsOf world options).cacheDir = EEXIST) :
    ((prunedFileSets world (localsOf world options) = none ∧ main world argv order = none) ∨
      ∃ allFileSets lines exit events,
        prunedFileSets world (localsOf world options) = some (allFileSets, lines) ∧
        main world argv order = some (exit, events) ∧
        (order.Perm (List.range allFileSets.length) →
          (exit = 1 ↔ ∃ fileSet ∈ allFileSets,
            ((localsOf world options).force = true ∨
              cacheIsFresh world (localsOf world options)
                (world.isProtectedBySIP (localsOf world options).cacheDir) fileSet = false) ∧
            ((builderResults world (localsOf world options)
                (world.isProtectedBySIP (localsOf world options).cacheDir)
                fileSet).errorMessage ≠ "" ∨
              ((builderResults world (localsOf world options)
                  (world.isProtectedBySIP (localsOf world options).cacheDir)
                  fileSet).errorMessage = "" ∧
                world.safeSave (outFile (localsOf world options) fileSet) = false)))) ∧
        (exit = 0 ∨ exit = 1) ∧
        (∀ (removexattr setxattr : String → Option String)
            (warnings : CreateOptions → List MappedMachO → List MappedMachO →
              List MappedMachO → List String),
          (main (world.withTagsAndWarnings removexattr setxattr warnings) argv order).map
            Prod.fst = some exit)) ∧
    (canonicalRootPath world options.rootPath = "" →
      ∃ exit events, main world argv order = some (exit, events)) := by
  constructor
  · cases hpruned : prunedFileSets world (localsOf world options) with
    | none =>
      exact Or.inl ⟨rfl, (main_eq_none_iff world argv order options hparse hpaths hmkpath).2
        hpruned⟩
    | some pruned =>
      obtain ⟨allFileSets, lines⟩ := pruned
      obtain ⟨exit, events, hmain, hiff, hrange, hsame⟩ :=
        mainBuildCaches_exit_iff world (localsOf world options) order allFileSets lines hpruned
      refine Or.inr ⟨allFileSets, lines, exit, events, rfl, ?_, hiff, hrange, ?_⟩
      · rw [main_eq_mainBuildCaches world argv order options hparse hpaths hmkpath]
        exact hmain
      · intro removexattr setxattr warnings
        rw [main_eq_mainBuildCaches (world.withTagsAndWarnings removexattr setxattr warnings)
          argv order options hparse hpaths hmkpath]
        exact hsame removexattr setxattr warnings
  · intro hroot
    rw [main_eq_mainBuildCaches world argv order options hparse hpaths hmkpath]
    exact mainBuildCaches_isSome_of_empty_rootPath world (localsOf world options) order hroot

/-- Witness for C10: the sample run has no `-root`; the builder fails for i386, and `main`
returns 1. -/
theorem main_exit_status_witness :
    parseOptions (sampleArgv.drop 1) {} = Except.ok {} ∧
    (sampleWorld true).mkpath_np (localsOf (sampleWorld true) {}).cacheDir = 0 ∧
    (∃ exit events, main (sampleWorld true) sampleArgv [0, 1] = some (exit, events)) ∧
    (main (sampleWorld true) sampleArgv [0, 1]).map Prod.fst = some 1 :=
  ⟨rfl, rfl,
    (main_exit_status (sampleWorld true) sampleArgv [0, 1] {} rfl (Or.inl rfl) (Or.inl rfl)).2
      rfl,
    by decide⟩

/-- The run for C10: with `-root /Volumes/VeryLongRootName`, the package receipts listing
`libBar`, and the install name of `libBar` resolving to `/private/tmp/x`, a path shorter
than the root path: the options are parsed and the cache directory is made, `substr` throws
in `dontCache`, and `main` ends without an exit status. -/
theorem main_aborts_in_pruning :
    parseOptions (rootArgv.drop 1) {} = Except.ok rootOptions ∧
    shortSymlinkWorld.mkpath_np (localsOf shortSymlinkWorld rootOptions).cacheDir = 0 ∧
    (localsOf shortSymlinkWorld rootOptions).rootPath = "/Volumes/VeryLongRootName" ∧
    libBar.runtimePath ≠ libBar.mh.installName ∧
    shortSymlinkWorld.realpath ("/Volumes/VeryLongRootName" ++ libBar.mh.installName) =
      some "/private/tmp/x" ∧
    substr "/private/tmp/x" ("/Volumes/VeryLongRootName" : String).length = none ∧
    dontCache shortSymlinkWorld.realpath "/Volumes/VeryLongRootName" "x86_64" [] libBar true
      [] = none ∧
    prunedFileSets shortSymlinkWorld (localsOf shortSymlinkWorld rootOptions) = none ∧
    main shortSymlinkWorld rootArgv [0, 1] = none :=
  ⟨rfl, rfl, by decide, by decide, by decide, by decide, by decide, by decide, by decide⟩

/-! ## The classifier: claims C11 and C12 -/

theorem get?_map_of_get? {α β : Type} (f : α → β) (items : List α) (index : Nat) (item : α)
    (h : items.get? index = some item) : (items.map f).get? index = some (f item) := by
  rw [List.get?_eq_getElem?] at h ⊢
  rw [List.getElem?_map, h]
  rfl

theorem addIfMachO_buckets (openFile : String → Option OpenedFile)
    (pathPrefix runtimePath : String) (statBuf : Stat) (requireSIP : Bool)
    (files : List MappedMachOsByCategory) :
    (mappedFile openFile pathPrefix runtimePath = none ∧
      addIfMachO openFile pathPrefix runtimePath statBuf requireSIP files = (false, files, [])) ∨
    ∃ opened, mappedFile openFile pathPrefix runtimePath = some opened ∧
      (addIfMachO openFile pathPrefix runtimePath statBuf requireSIP files).1 =
        files.any (fun file => (mappedSlice opened statBuf file.archName).isSome) ∧
      (addIfMachO openFile pathPrefix runtimePath statBuf requireSIP files).2.1 =
        files.map (fun file =>
          (addSliceToBucket opened runtimePath statBuf requireSIP file).2.1) := by
  rw [addIfMachO_eq]
  cases h : mappedFile openFile pathPrefix runtimePath with
  | none => exact Or.inl ⟨rfl, rfl⟩
  | some opened =>
    exact Or.inr ⟨opened, rfl, (addSlices_eq _ _ _ _ _).1, (addSlices_eq _ _ _ _ _).2⟩

theorem entryCount_addSliceToBucket (opened : OpenedFile) (runtimePath : String)
    (statBuf : Stat) (requireSIP : Bool) (file : MappedMachOsByCategory) :
    (entryCount (addSliceToBucket opened runtimePath statBuf requireSIP file).2.1 ≠
        entryCount file →
      (mappedSlice opened statBuf file.archName).isSome = true) ∧
    (requireSIP = false → (mappedSlice opened statBuf file.archName).isSome = true →
      entryCount (addSliceToBucket opened runtimePath statBuf requireSIP file).2.1 =
        entryCount file + 1) := by
  obtain ⟨dylibs, others, mains, heq, hle, hone, hall, _, _⟩ :=
    addSliceToBucket_shape opened runtimePath statBuf requireSIP file
  have hcount : entryCount (addSliceToBucket opened runtimePath statBuf requireSIP file).2.1 =
      entryCount file + (dylibs.length + others.length + mains.length) := by
    rw [heq]
    unfold entryCount
    simp only [List.length_append]
    omega
  constructor
  · intro hne
    apply hone
    rw [hcount] at hne
    omega
  · intro hreq hsome
    rw [hcount, hall hreq hsome]

/-- C11, as amended. For every call of `addIfMachO`: the result is true if and only if the
file is read (no debug or profile suffix, `::open` and `mmap` succeed) and it has a valid
Mach-O slice for at least one bucket; the number of buckets is unchanged; when the result is
false the buckets are unchanged, so the result is true whenever a bucket has gained or lost
an entry; and with `requireSIP` false the result is true if and only if some bucket has
gained exactly one entry. -/
theorem addIfMachO_result (openFile : String → Option OpenedFile)
    (pathPrefix runtimePath : String) (statBuf : Stat) (requireSIP : Bool)
    (files : List MappedMachOsByCategory) :
    ((addIfMachO openFile pathPrefix runtimePath statBuf requireSIP files).1 = true ↔
      ∃ opened, mappedFile openFile pathPrefix runtimePath = some opened ∧
        ∃ file ∈ files, (mappedSlice opened statBuf file.archName).isSome = true) ∧
    (addIfMachO openFile pathPrefix runtimePath statBuf requireSIP files).2.1.length =
      files.length ∧
    ((addIfMachO openFile pathPrefix runtimePath statBuf requireSIP files).1 = false →
      (addIfMachO openFile pathPrefix runtimePath statBuf requireSIP files).2.1 = files) ∧
    (∀ (index : Nat) (before after : MappedMachOsByCategory),
      files.get? index = some before →
      (addIfMachO openFile pathPrefix runtimePath statBuf requireSIP files).2.1.get? index =
        some after →
      entryCount after ≠ entryCount before →
      (addIfMachO openFile pathPrefix runtimePath statBuf requireSIP files).1 = true) ∧
    (requireSIP = false →
      ((addIfMachO openFile pathPrefix runtimePath statBuf requireSIP files).1 = true ↔
        ∃ (index : Nat) (before after : MappedMachOsByCategory),
          files.get? index = some before ∧
          (addIfMachO openFile pathPrefix runtimePath statBuf requireSIP files).2.1.get? index =
            some after ∧
          entryCount after = entryCount before + 1)) := by
  have hfalse : (addIfMachO openFile pathPrefix runtimePath statBuf requireSIP files).1 = false →
      (addIfMachO openFile pathPrefix runtimePath statBuf requireSIP files).2.1 = files := by
    intro hres
    rcases addIfMachO_buckets openFile pathPrefix runtimePath statBuf requireSIP files with
      ⟨_, h⟩ | ⟨opened, _, hflag, hmap⟩
    · rw [h]
    · rw [hmap]
      apply map_eq_self_of_forall
      intro file hmem
      apply (addSliceToBucket_cases opened runtimePath statBuf requireSIP file).2.1
      rw [hflag, List.any_eq_false] at hres
      have := hres file hmem
      cases hs : mappedSlice opened statBuf file.archName with
      | none => rfl
      | some slice => rw [hs] at this; exact absurd rfl this
  have hchanged : ∀ (index : Nat) (before after : MappedMachOsByCategory),
      files.get? index = some before →
      (addIfMachO openFile pathPrefix runtimePath statBuf requireSIP files).2.1.get? index =
        some after →
      entryCount after ≠ entryCount before →
      (addIfMachO openFile pathPrefix runtimePath statBuf requireSIP files).1 = true := by
    intro index before after hbefore hafter hne
    cases hres : (addIfMachO openFile pathPrefix runtimePath statBuf requireSIP files).1 with
    | true => rfl
    | false =>
      rw [hfalse hres, hbefore] at hafter
      cases hafter
      exact absurd rfl hne
  refine ⟨?_, ?_, hfalse, hchanged, ?_⟩
  · rcases addIfMachO_buckets openFile pathPrefix runtimePath statBuf requireSIP files with
      ⟨hnone, h⟩ | ⟨opened, hsome, hflag, _⟩
    · rw [h, hnone]
      constructor
      · intro hres
        cases hres
      · rintro ⟨opened, hopened, _⟩
        cases hopened
    · rw [hflag, hsome, List.any_eq_true]
      constructor
      · rintro ⟨file, hmem, hslice⟩
        exact ⟨opened, rfl, file, hmem, hslice⟩
      · rintro ⟨other, hother, file, hmem, hslice⟩
        cases hother
        exact ⟨file, hmem, hslice⟩
  · rcases addIfMachO_buckets openFile pathPrefix runtimePath statBuf requireSIP files with
      ⟨_, h⟩ | ⟨opened, _, _, hmap⟩
    · rw [h]
    · rw [hmap, List.length_map]
  · intro hreq
    constructor
    · intro hres
      rcases addIfMachO_buckets openFile pathPrefix runtimePath statBuf requireSIP files with
        ⟨_, h⟩ | ⟨opened, _, hflag, hmap⟩
      · rw [h] at hres
        cases hres
      · rw [hflag, List.any_eq_true] at hres
        obtain ⟨file, hmem, hslice⟩ := hres
        obtain ⟨index, hindex⟩ := List.mem_iff_get?.1 hmem
        refine ⟨index, file,
          (addSliceToBucket opened runtimePath statBuf requireSIP file).2.1, hindex, ?_,
          (entryCount_addSliceToBucket opened runtimePath statBuf requireSIP file).2 hreq
            hslice⟩
        rw [hmap]
        exact get?_map_of_get? _ _ _ _ hindex
    · rintro ⟨index, before, after, hbefore, hafter, hcount⟩
      exact hchanged index before after hbefore hafter (by omega)

/-- Counterexample to C11 as stated: with `requireSIP` set, a main executable that is not
SIP-protected is a valid slice for the x86_64 bucket; the result is true and the bucket has
gained no entry. -/
theorem addIfMachO_true_without_entry :
    addIfMachO openUnprotectedTool "" "/usr/bin/tool" sampleStat true [emptyBucket] =
      (true, [emptyBucket], []) ∧
    entryCount emptyBucket = 0 := by
  decide

/-- C12. Protection policy of the classifier: in every call of `addIfMachO`, every bucket
keeps its architecture and its entries and gains at most one entry over its three sequences;
with `requireSIP` true every entry appended to `dylibsForCache` or to `mainExecutables` is
marked as protected and comes from a file for which `isProtectedBySIP` holds, and the valid
cache-eligible non-executable slice of an unprotected file is appended to
`otherDylibsAndBundles` and to no other sequence; with `requireSIP` false a valid
cache-eligible non-executable slice is appended to `dylibsForCache` and to no other
sequence. -/
theorem addIfMachO_protection_policy (openFile : String → Option OpenedFile)
    (pathPrefix runtimePath : String) (statBuf : Stat) (requireSIP : Bool)
    (files : List MappedMachOsByCategory) (index : Nat) (before after : MappedMachOsByCategory)
    (hbefore : files.get? index = some before)
    (hafter : (addIfMachO openFile pathPrefix runtimePath statBuf requireSIP files).2.1.get?
      index = some after) :
    after.archName = before.archName ∧
    after.dylibsForCache = before.dylibsForCache ++
      after.dylibsForCache.drop before.dylibsForCache.length ∧
    after.otherDylibsAndBundles = before.otherDylibsAndBundles ++
      after.otherDylibsAndBundles.drop before.otherDylibsAndBundles.length ∧
    after.mainExecutables = before.mainExecutables ++
      after.mainExecutables.drop before.mainExecutables.length ∧
    (after.dylibsForCache.drop before.dylibsForCache.length).length +
      (after.otherDylibsAndBundles.drop before.otherDylibsAndBundles.length).length +
      (after.mainExecutables.drop before.mainExecutables.length).length ≤ 1 ∧
    (requireSIP = true →
      ∀ entry ∈ after.dylibsForCache.drop before.dylibsForCache.length ++
          after.mainExecutables.drop before.mainExecutables.length,
        entry.protectedBySIP = true ∧
        ∃ opened, mappedFile openFile pathPrefix runtimePath = some opened ∧
          opened.protectedBySIP = true) ∧
    (∀ opened slice, mappedFile openFile pathPrefix runtimePath = some opened →
      mappedSlice opened statBuf before.archName = some slice →
      (opened.view before.archName).mh.isDynamicExecutable = false →
      (opened.view before.archName).mh.canBePlacedInDyldCache = true →
      (requireSIP = true → opened.protectedBySIP = false →
        after.dylibsForCache.drop before.dylibsForCache.length = [] ∧
        after.mainExecutables.drop before.mainExecutables.length = [] ∧
        after.otherDylibsAndBundles.drop before.otherDylibsAndBundles.length =
          [sliceEntry opened runtimePath statBuf before.archName slice false]) ∧
      (requireSIP = false →
        after.otherDylibsAndBundles.drop before.otherDylibsAndBundles.length = [] ∧
        after.mainExecutables.drop before.mainExecutables.length = [] ∧
        after.dylibsForCache.drop before.dylibsForCache.length =
          [sliceEntry opened runtimePath statBuf before.archName slice false])) := by
  rcases addIfMachO_buckets openFile pathPrefix runtimePath statBuf requireSIP files with
    ⟨hnone, h⟩ | ⟨opened, hsome, _, hmap⟩
  · rw [h, hbefore] at hafter
    cases hafter
    refine ⟨rfl, by simp, by simp, by simp, by simp, ?_, ?_⟩
    · intro _ entry hmem
      simp at hmem
    · intro other slice hother
      rw [hnone] at hother
      cases hother
  · rw [hmap, get?_map_of_get? _ _ _ _ hbefore] at hafter
    obtain ⟨dylibs, others, mains, heq, hle, _, _, hprot, hcache⟩ :=
      addSliceToBucket_shape opened runtimePath statBuf requireSIP before
    rw [heq] at hafter
    cases hafter
    simp only [List.drop_left]
    refine ⟨trivial, trivial, trivial, trivial, hle, ?_, ?_⟩
    · intro hreq entry hmem
      exact ⟨(hprot hreq entry hmem).1, opened, hsome, (hprot hreq entry hmem).2⟩
    · intro other slice hother hslice hdyn hcan
      rw [hsome] at hother
      cases hother
      exact hcache slice hslice hdyn hcan

/-- Witness for C12: with `requireSIP` set, the dylib of an unprotected file is appended to
`otherDylibsAndBundles` of the x86_64 bucket, and nothing to the two other sequences. -/
theorem addIfMachO_protection_policy_witness :
    [emptyBucket].get? 0 = some emptyBucket ∧
    (addIfMachO openUnprotectedDylib "" "/usr/lib/libFoo.dylib" sampleStat true
      [emptyBucket]).2.1.get? 0 = some demotedBucket ∧
    demotedBucket.archName = emptyBucket.archName ∧
    (demotedBucket.dylibsForCache.drop emptyBucket.dylibsForCache.length).length +
      (demotedBucket.otherDylibsAndBundles.drop emptyBucket.otherDylibsAndBundles.length).length +
      (demotedBucket.mainExecutables.drop emptyBucket.mainExecutables.length).length ≤ 1 :=
  ⟨rfl, by decide,
    (addIfMachO_protection_policy openUnprotectedDylib "" "/usr/lib/libFoo.dylib" sampleStat
      true [emptyBucket] 0 emptyBucket demotedBucket rfl (by decide)).1,
    (addIfMachO_protection_policy openUnprotectedDylib "" "/usr/lib/libFoo.dylib" sampleStat
      true [emptyBucket] 0 emptyBucket demotedBucket rfl (by decide)).2.2.2.2.1⟩

/-- What the body of the loop of `addIfMachO` does to `dylibsForCache`: nothing, or it appends
one entry at the runtime path of the call. -/
theorem addSliceToBucket_dylibsForCache (opened : OpenedFile) (runtimePath : String)
    (statBuf : Stat) (requireSIP : Bool) (file : MappedMachOsByCategory) :
    (addSliceToBucket opened runtimePath statBuf requireSIP file).2.1.dylibsForCache =
        file.dylibsForCache ∨
    ∃ slice, (addSliceToBucket opened runtimePath statBuf requireSIP file).2.1.dylibsForCache =
      file.dylibsForCache ++ [sliceEntry opened runtimePath statBuf file.archName slice false] := by
  obtain ⟨_, hnone, hsome⟩ := addSliceToBucket_cases opened runtimePath statBuf requireSIP file
  cases hslice : mappedSlice opened statBuf file.archName with
  | none => exact Or.inl (by rw [hnone hslice])
  | some slice =>
    obtain ⟨hmain, hskip, hcache, hdemote, hother⟩ := hsome slice hslice
    cases hdyn : (opened.view file.archName).mh.isDynamicExecutable with
    | true =>
      cases hsip : (!requireSIP || opened.protectedBySIP) with
      | true => exact Or.inl (by rw [hmain hdyn hsip])
      | false => exact Or.inl (by rw [hskip hdyn hsip])
    | false =>
      cases hcan : (opened.view file.archName).mh.canBePlacedInDyldCache with
      | true =>
        cases hsip : (!requireSIP || opened.protectedBySIP) with
        | true => exact Or.inr ⟨slice, by rw [hcache hdyn hcan hsip]⟩
        | false => exact Or.inl (by rw [hdemote hdyn hcan hsip])
      | false => exact Or.inl (by rw [hother hdyn hcan])

/-- A call of `addIfMachO` at a runtime path that no candidate of a bucket has keeps the
runtime paths of the candidates of the bucket pairwise distinct: discovery, which passes a
runtime path to `addIfMachO` once (source lines 259-265 and 303-326), builds buckets with
pairwise distinct runtime paths. -/
theorem addIfMachO_runtimePaths_nodup (openFile : String → Option OpenedFile)
    (pathPrefix runtimePath : String) (statBuf : Stat) (requireSIP : Bool)
    (files : List MappedMachOsByCategory) (index : Nat) (before after : MappedMachOsByCategory)
    (hbefore : files.get? index = some before)
    (hafter : (addIfMachO openFile pathPrefix runtimePath statBuf requireSIP files).2.1.get?
      index = some after)
    (hnodup : (before.dylibsForCache.map (fun f => f.runtimePath)).Nodup)
    (hfresh : ∀ f ∈ before.dylibsForCache, f.runtimePath ≠ runtimePath) :
    (after.dylibsForCache.map (fun f => f.runtimePath)).Nodup ∧
    ∀ f ∈ after.dylibsForCache, f ∈ before.dylibsForCache ∨ f.runtimePath = runtimePath := by
  rcases addIfMachO_buckets openFile pathPrefix runtimePath statBuf requireSIP files with
    ⟨_, h⟩ | ⟨opened, _, _, hmap⟩
  · rw [h, hbefore] at hafter
    cases hafter
    exact ⟨hnodup, fun f hf => Or.inl hf⟩
  · rw [hmap, get?_map_of_get? _ _ _ _ hbefore] at hafter
    cases hafter
    rcases addSliceToBucket_dylibsForCache opened runtimePath statBuf requireSIP before with
      h | ⟨slice, h⟩
    · rw [h]
      exact ⟨hnodup, fun f hf => Or.inl hf⟩
    · rw [h]
      constructor
      · rw [List.map_append, List.nodup_append]
        refine ⟨hnodup, List.nodup_singleton _, ?_⟩
        intro path hpath hnew
        rw [List.map_singleton, List.mem_singleton] at hnew
        obtain ⟨f, hf, hfp⟩ := List.mem_map.1 hpath
        apply hfresh f hf
        rw [hfp, hnew]
        rfl
      · intro f hf
        rcases List.mem_append.1 hf with h1 | h1
        · exact Or.inl h1
        · rw [List.mem_singleton] at h1
          rw [h1]
          exact Or.inr rfl

/-! ## The pruner as a partition: claims C13, C15, C16, C20 -/

theorem removeIfDontCache_flags (realpath : String → Option String)
    (volumePrefix archName : String) (dups skipDylibs : List String) :
    ∀ (dylibs kept : List MappedMachO) (lines : List String),
      removeIfDontCache realpath volumePrefix archName dups skipDylibs dylibs =
        some (kept, lines) →
      ∀ aFile ∈ dylibs,
        dontCacheFlag realpath volumePrefix archName dups aFile skipDylibs = some true ∨
        dontCacheFlag realpath volumePrefix archName dups aFile skipDylibs = some false := by
  intro dylibs
  induction dylibs with
  | nil => intro kept lines _ aFile hmem; cases hmem
  | cons first rest ih =>
    intro kept lines h aFile hmem
    have hflag := dontCache_flag_of_warn realpath volumePrefix archName dups first false
      skipDylibs
    unfold removeIfDontCache at h
    cases hd : dontCache realpath volumePrefix archName dups first false skipDylibs with
    | none => rw [hd] at h; cases h
    | some pair =>
      obtain ⟨flag, out⟩ := pair
      rw [hd] at h hflag
      dsimp only at h
      cases hr : removeIfDontCache realpath volumePrefix archName dups skipDylibs rest with
      | none => rw [hr] at h; cases h
      | some pair2 =>
        obtain ⟨kept2, more⟩ := pair2
        rcases List.mem_cons.1 hmem with hm | hm
        · subst hm
          cases flag with
          | true => exact Or.inl hflag.symm
          | false => exact Or.inr hflag.symm
        · exact ih _ _ hr aFile hm

theorem pruneCachedDylibs_flags (realpath : String → Option String) (volumePrefix : String)
    (skipDylibs : List String) (fileSet result : MappedMachOsByCategory) (lines : List String)
    (h : pruneCachedDylibs realpath volumePrefix skipDylibs fileSet = some (result, lines)) :
    ∀ aFile ∈ fileSet.dylibsForCache,
      dontCacheFlag realpath volumePrefix fileSet.archName
        (findDuplicateInstallNames fileSet.dylibsForCache) aFile skipDylibs = some true ∨
      dontCacheFlag realpath volumePrefix fileSet.archName
        (findDuplicateInstallNames fileSet.dylibsForCache) aFile skipDylibs = some false := by
  unfold pruneCachedDylibs at h
  dsimp only at h
  cases hd : demoteLoop realpath volumePrefix fileSet.archName
      (findDuplicateInstallNames fileSet.dylibsForCache) skipDylibs fileSet.dylibsForCache
      fileSet.otherDylibsAndBundles [] with
  | none => rw [hd] at h; cases h
  | some pair =>
    rw [hd] at h
    dsimp only at h
    cases hr : removeIfDontCache realpath volumePrefix fileSet.archName
        (findDuplicateInstallNames fileSet.dylibsForCache) skipDylibs fileSet.dylibsForCache with
    | none => rw [hr] at h; cases h
    | some pair2 => exact removeIfDontCache_flags _ _ _ _ _ _ _ _ hr

/-- C20. `pruneCachedDylibs` is an order-preserving partition: the value that `dontCache`
returns does not depend on `warn`, and for every bucket, once `pruneCachedDylibs` has
returned (the file system answering the same way during the call), the new `dylibsForCache`
is the subsequence of the old one on which `dontCache` is false, the new
`otherDylibsAndBundles` is the old one followed by the subsequence of the old
`dylibsForCache` on which `dontCache` is true, both in discovery order, `mainExecutables`
and the architecture name are unchanged, and every original candidate is in exactly one of
the two subsequences (so in exactly one of the two new sequences when it was not already
among the old `otherDylibsAndBundles`). -/
theorem pruneCachedDylibs_partition (realpath : String → Option String)
    (volumePrefix : String) (skipDylibs : List String)
    (fileSet result : MappedMachOsByCategory) (lines : List String)
    (hrun : pruneCachedDylibs realpath volumePrefix skipDylibs fileSet = some (result, lines)) :
    (∀ (archName : String) (dups : List String) (aFile : MappedMachO) (warn other : Bool),
      (dontCache realpath volumePrefix archName dups aFile warn skipDylibs).map Prod.fst =
        (dontCache realpath volumePrefix archName dups aFile other skipDylibs).map Prod.fst) ∧
    result.dylibsForCache = fileSet.dylibsForCache.filter (fun aFile =>
      decide (dontCacheFlag realpath volumePrefix fileSet.archName
        (findDuplicateInstallNames fileSet.dylibsForCache) aFile skipDylibs = some false)) ∧
    result.otherDylibsAndBundles = fileSet.otherDylibsAndBundles ++
      fileSet.dylibsForCache.filter (fun aFile =>
        decide (dontCacheFlag realpath volumePrefix fileSet.archName
          (findDuplicateInstallNames fileSet.dylibsForCache) aFile skipDylibs = some true)) ∧
    result.mainExecutables = fileSet.mainExecutables ∧
    result.archName = fileSet.archName ∧
    (∀ aFile ∈ fileSet.dylibsForCache,
      (aFile ∈ result.dylibsForCache ∧
        aFile ∉ result.otherDylibsAndBundles.drop fileSet.otherDylibsAndBundles.length) ∨
      (aFile ∉ result.dylibsForCache ∧
        aFile ∈ result.otherDylibsAndBundles.drop fileSet.otherDylibsAndBundles.length)) ∧
    ((∀ aFile ∈ fileSet.dylibsForCache, aFile ∉ fileSet.otherDylibsAndBundles) →
      ∀ aFile ∈ fileSet.dylibsForCache,
        (aFile ∈ result.dylibsForCache ∧ aFile ∉ result.otherDylibsAndBundles) ∨
        (aFile ∉ result.dylibsForCache ∧ aFile ∈ result.otherDylibsAndBundles)) := by
  obtain ⟨harch, hkept, hother, hmain⟩ := pruneCachedDylibs_eq_some _ _ _ _ _ _ hrun
  have hflags := pruneCachedDylibs_flags _ _ _ _ _ _ hrun
  have hside : ∀ aFile ∈ fileSet.dylibsForCache,
      (aFile ∈ result.dylibsForCache ∧
        aFile ∉ fileSet.dylibsForCache.filter (fun aFile =>
          decide (dontCacheFlag realpath volumePrefix fileSet.archName
            (findDuplicateInstallNames fileSet.dylibsForCache) aFile skipDylibs = some true))) ∨
      (aFile ∉ result.dylibsForCache ∧
        aFile ∈ fileSet.dylibsForCache.filter (fun aFile =>
          decide (dontCacheFlag realpath volumePrefix fileSet.archName
            (findDuplicateInstallNames fileSet.dylibsForCache) aFile skipDylibs = some true))) := by
    intro aFile hmem
    rw [hkept]
    simp only [List.mem_filter, decide_eq_true_eq]
    rcases hflags aFile hmem with h | h
    · right
      simp [h, hmem]
    · left
      simp [h, hmem]
  refine ⟨?_, hkept, hother, hmain, harch, ?_, ?_⟩
  · intro archName dups aFile warn other
    rw [dontCache_flag_of_warn, dontCache_flag_of_warn]
  · intro aFile hmem
    rw [hother, List.drop_left]
    exact hside aFile hmem
  · intro hfresh aFile hmem
    rw [hother]
    rcases hside aFile hmem with ⟨h1, h2⟩ | ⟨h1, h2⟩
    · left
      refine ⟨h1, ?_⟩
      rw [List.mem_append]
      rintro (h | h)
      · exact hfresh aFile hmem h
      · exact h2 h
    · right
      exact ⟨h1, List.mem_append_right _ h2⟩

/-- Witness for C20: the bucket of `libFoo2` and `libFoo` is split into `libFoo`, kept, and
`libFoo2`, demoted. -/
theorem pruneCachedDylibs_partition_witness :
    pruneCachedDylibs noSymlinks "" [] ownerBucket =
      some (ownerPruned, [duplicateInstallNameWarning "x86_64" "/usr/lib/libFoo2.dylib"]) ∧
    ownerPruned.dylibsForCache = ownerBucket.dylibsForCache.filter (fun aFile =>
      decide (dontCacheFlag noSymlinks "" ownerBucket.archName
        (findDuplicateInstallNames ownerBucket.dylibsForCache) aFile [] = some false)) ∧
    ownerPruned.otherDylibsAndBundles = ownerBucket.otherDylibsAndBundles ++
      ownerBucket.dylibsForCache.filter (fun aFile =>
        decide (dontCacheFlag noSymlinks "" ownerBucket.archName
          (findDuplicateInstallNames ownerBucket.dylibsForCache) aFile [] = some true)) ∧
    ownerPruned.mainExecutables = ownerBucket.mainExecutables :=
  ⟨by decide,
    (pruneCachedDylibs_partition noSymlinks "" [] ownerBucket ownerPruned
      [duplicateInstallNameWarning "x86_64" "/usr/lib/libFoo2.dylib"] (by decide)).2.1,
    (pruneCachedDylibs_partition noSymlinks "" [] ownerBucket ownerPruned
      [duplicateInstallNameWarning "x86_64" "/usr/lib/libFoo2.dylib"] (by decide)).2.2.1,
    (pruneCachedDylibs_partition noSymlinks "" [] ownerBucket ownerPruned
      [duplicateInstallNameWarning "x86_64" "/usr/lib/libFoo2.dylib"] (by decide)).2.2.2.1⟩

/-- C13. Bundle filter: for every bucket, after `pruneCachedDylibs` (once it has returned)
followed by `pruneOtherDylibs`, no entry of `otherDylibsAndBundles` and no entry of
`dylibsForCache` has a runtime path containing `.app/`; `otherDylibsAndBundles` is exactly
the subsequence, in the original relative order, of the entries it had before
`pruneOtherDylibs` whose runtime path does not contain `.app/` (the old entries first, then
the demoted candidates); `dylibsForCache` is not touched by `pruneOtherDylibs`; and a
packable candidate whose path contains `.app/` ends in neither sequence. -/
theorem pruneOtherDylibs_after_pruneCachedDylibs (realpath : String → Option String)
    (volumePrefix : String) (skipDylibs : List String)
    (fileSet result : MappedMachOsByCategory) (lines : List String)
    (hrun : pruneCachedDylibs realpath volumePrefix skipDylibs fileSet = some (result, lines)) :
    (∀ aFile ∈ (pruneOtherDylibs volumePrefix result).otherDylibsAndBundles,
      contains aFile.runtimePath ".app/" = false) ∧
    (∀ aFile ∈ (pruneOtherDylibs volumePrefix result).dylibsForCache,
      contains aFile.runtimePath ".app/" = false) ∧
    (pruneOtherDylibs volumePrefix result).otherDylibsAndBundles =
      result.otherDylibsAndBundles.filter (fun aFile => !contains aFile.runtimePath ".app/") ∧
    (pruneOtherDylibs volumePrefix result).otherDylibsAndBundles =
      fileSet.otherDylibsAndBundles.filter (fun aFile => !contains aFile.runtimePath ".app/") ++
      (fileSet.dylibsForCache.filter (fun aFile =>
        decide (dontCacheFlag realpath volumePrefix fileSet.archName
          (findDuplicateInstallNames fileSet.dylibsForCache) aFile skipDylibs = some true))).filter
        (fun aFile => !contains aFile.runtimePath ".app/") ∧
    (pruneOtherDylibs volumePrefix result).dylibsForCache = result.dylibsForCache ∧
    (∀ aFile ∈ fileSet.dylibsForCache ++ fileSet.otherDylibsAndBundles,
      contains aFile.runtimePath ".app/" = true →
      aFile ∉ (pruneOtherDylibs volumePrefix result).dylibsForCache ∧
      aFile ∉ (pruneOtherDylibs volumePrefix result).otherDylibsAndBundles) := by
  obtain ⟨_, hkept, hother, _⟩ := pruneCachedDylibs_eq_some _ _ _ _ _ _ hrun
  have hfilter : (pruneOtherDylibs volumePrefix result).otherDylibsAndBundles =
      result.otherDylibsAndBundles.filter (fun aFile => !contains aFile.runtimePath ".app/") :=
    rfl
  have hsame : (pruneOtherDylibs volumePrefix result).dylibsForCache = result.dylibsForCache :=
    rfl
  have hnoOther : ∀ aFile ∈ (pruneOtherDylibs volumePrefix result).otherDylibsAndBundles,
      contains aFile.runtimePath ".app/" = false := by
    intro aFile hmem
    rw [hfilter, List.mem_filter] at hmem
    have := hmem.2
    cases hc : contains aFile.runtimePath ".app/" with
    | false => rfl
    | true => rw [hc] at this; cases this
  have hnoKept : ∀ aFile ∈ (pruneOtherDylibs volumePrefix result).dylibsForCache,
      contains aFile.runtimePath ".app/" = false := by
    intro aFile hmem
    rw [hsame, hkept, List.mem_filter] at hmem
    have hflag := of_decide_eq_true hmem.2
    rw [dontCacheFlag_eq_some_false_iff] at hflag
    exact excludedByPath_false_app _ _ _ hflag.1
  refine ⟨hnoOther, hnoKept, hfilter, ?_, hsame, ?_⟩
  · rw [hfilter, hother, List.filter_append]
  · intro aFile _ happ
    constructor
    · intro hmem
      rw [hnoKept aFile hmem] at happ
      cases happ
    · intro hmem
      rw [hnoOther aFile hmem] at happ
      cases happ

/-- Witness for C13: of the bucket `bundleBucket` the candidate `libInApp` and the bundle
`bundleInApp`, both inside `Mail.app/`, end in neither sequence; `libBar` and the demoted
`libFoo2` stay in `otherDylibsAndBundles`, in that order. -/
theorem pruneOtherDylibs_after_pruneCachedDylibs_witness :
    pruneCachedDylibs noSymlinks "" [] bundleBucket =
      some (bundlePruned, [duplicateInstallNameWarning "x86_64" "/usr/lib/libFoo2.dylib"]) ∧
    (pruneOtherDylibs "" bundlePruned).otherDylibsAndBundles = [libBar, libFoo2] ∧
    (pruneOtherDylibs "" bundlePruned).dylibsForCache = [libFoo] ∧
    (∀ aFile ∈ bundleBucket.dylibsForCache ++ bundleBucket.otherDylibsAndBundles,
      contains aFile.runtimePath ".app/" = true →
      aFile ∉ (pruneOtherDylibs "" bundlePruned).dylibsForCache ∧
      aFile ∉ (pruneOtherDylibs "" bundlePruned).otherDylibsAndBundles) :=
  ⟨by decide, by decide, by decide,
    (pruneOtherDylibs_after_pruneCachedDylibs noSymlinks "" [] bundleBucket bundlePruned
      [duplicateInstallNameWarning "x86_64" "/usr/lib/libFoo2.dylib"] (by decide)).2.2.2.2.2⟩

/-- C15. Contested install name with no canonical owner: for every bucket in which two or
more candidates of `dylibsForCache` share the install name `installName` and none of them has
a runtime path equal to it, `pruneCachedDylibs` (once it has returned, whatever `realpath`
resolves the install name to) leaves no entry with that install name in `dylibsForCache`,
and every candidate of the group is removed from `dylibsForCache` and is among the entries
appended to `otherDylibsAndBundles`, where the group appears in discovery order. -/
theorem pruneCachedDylibs_contested_without_owner (realpath : String → Option String)
    (volumePrefix : String) (skipDylibs : List String)
    (fileSet result : MappedMachOsByCategory) (lines : List String) (installName : String)
    (hrun : pruneCachedDylibs realpath volumePrefix skipDylibs fileSet = some (result, lines))
    (hgroup : 2 ≤ (fileSet.dylibsForCache.filter
      (fun f => decide (f.mh.installName = installName))).length)
    (hnone : ∀ f ∈ fileSet.dylibsForCache, f.mh.installName = installName →
      f.runtimePath ≠ installName) :
    (∀ f ∈ result.dylibsForCache, f.mh.installName ≠ installName) ∧
    (∀ f ∈ fileSet.dylibsForCache, f.mh.installName = installName →
      f ∉ result.dylibsForCache ∧
      f ∈ result.otherDylibsAndBundles.drop fileSet.otherDylibsAndBundles.length) ∧
    (result.otherDylibsAndBundles.drop fileSet.otherDylibsAndBundles.length).filter
        (fun f => decide (f.mh.installName = installName)) =
      fileSet.dylibsForCache.filter (fun f => decide (f.mh.installName = installName)) := by
  obtain ⟨_, hkept, hother, _⟩ := pruneCachedDylibs_eq_some _ _ _ _ _ _ hrun
  have hflag : ∀ f ∈ fileSet.dylibsForCache, f.mh.installName = installName →
      dontCacheFlag realpath volumePrefix fileSet.archName
        (findDuplicateInstallNames fileSet.dylibsForCache) f skipDylibs = some true := by
    intro f hf hname
    have hdup := mem_findDuplicateInstallNames_of_group _ installName f hf hname hgroup
    exact dontCacheFlag_of_duplicate _ _ _ _ _ _ hdup (by rw [hname]; exact hnone f hf hname)
  have hgone : ∀ f ∈ fileSet.dylibsForCache, f.mh.installName = installName →
      f ∉ result.dylibsForCache := by
    intro f hf hname hmem
    rw [hkept, List.mem_filter] at hmem
    have := of_decide_eq_true hmem.2
    rw [hflag f hf hname] at this
    cases this
  refine ⟨?_, ?_, ?_⟩
  · intro f hmem hname
    have hf : f ∈ fileSet.dylibsForCache := by
      rw [hkept] at hmem
      exact (List.mem_filter.1 hmem).1
    exact hgone f hf hname hmem
  · intro f hf hname
    refine ⟨hgone f hf hname, ?_⟩
    rw [hother, List.drop_left, List.mem_filter]
    exact ⟨hf, decide_eq_true (hflag f hf hname)⟩
  · rw [hother, List.drop_left, List.filter_filter]
    apply List.filter_congr
    intro f hf
    by_cases hname : f.mh.installName = installName
    · simp [hname, hflag f hf hname]
    · simp [hname]

/-- Witness for C15: `libFoo2` and `libFoo3` share the install name `/usr/lib/libFoo.dylib`,
which is the runtime path of neither and which `symlinkToLibFoo2` resolves to the runtime
path of `libFoo2`; both are demoted and `dylibsForCache` is left empty. -/
theorem pruneCachedDylibs_contested_without_owner_witness :
    symlinkToLibFoo2 ("" ++ libFoo2.mh.installName) = some libFoo2.runtimePath ∧
    pruneCachedDylibs symlinkToLibFoo2 "" [] contestedBucket =
      some (contestedPruned, [duplicateInstallNameWarning "x86_64" "/usr/lib/libFoo2.dylib",
        duplicateInstallNameWarning "x86_64" "/usr/lib/libFoo3.dylib"]) ∧
    ((∀ f ∈ contestedPruned.dylibsForCache, f.mh.installName ≠ "/usr/lib/libFoo.dylib") ∧
    (∀ f ∈ contestedBucket.dylibsForCache, f.mh.installName = "/usr/lib/libFoo.dylib" →
      f ∉ contestedPruned.dylibsForCache ∧
      f ∈ contestedPruned.otherDylibsAndBundles.drop
        contestedBucket.otherDylibsAndBundles.length) ∧
    (contestedPruned.otherDylibsAndBundles.drop
        contestedBucket.otherDylibsAndBundles.length).filter
        (fun f => decide (f.mh.installName = "/usr/lib/libFoo.dylib")) =
      contestedBucket.dylibsForCache.filter
        (fun f => decide (f.mh.installName = "/usr/lib/libFoo.dylib"))) :=
  ⟨by decide, by decide,
    pruneCachedDylibs_contested_without_owner symlinkToLibFoo2 "" [] contestedBucket
      contestedPruned [duplicateInstallNameWarning "x86_64" "/usr/lib/libFoo2.dylib",
        duplicateInstallNameWarning "x86_64" "/usr/lib/libFoo3.dylib"]
      "/usr/lib/libFoo.dylib" (by decide) (by decide) (by decide)⟩

/-- C16, as amended. For every bucket, once `pruneCachedDylibs` has returned: every candidate
that is demoted and that no path rule excludes (so one demoted for a `//` in its path, for a
duplicate install name, or for an install name that does not resolve to its runtime path) has
a warning among the lines printed that names its runtime path; the lines printed are just
these, one for each such candidate in discovery order; and a candidate that a path rule
excludes (skip list, denied prefix, `.app/` segment, prefix denied for i386) is demoted
without any line. -/
theorem pruneCachedDylibs_warnings (realpath : String → Option String)
    (volumePrefix : String) (skipDylibs : List String)
    (fileSet result : MappedMachOsByCategory) (lines : List String)
    (hrun : pruneCachedDylibs realpath volumePrefix skipDylibs fileSet = some (result, lines)) :
    (∀ aFile ∈ fileSet.dylibsForCache,
      aFile ∈ result.otherDylibsAndBundles.drop fileSet.otherDylibsAndBundles.length →
      excludedByPath fileSet.archName aFile skipDylibs = false →
      badInstallNameWarning fileSet.archName aFile.runtimePath ∈ lines ∨
      duplicateInstallNameWarning fileSet.archName aFile.runtimePath ∈ lines) ∧
    lines = fileSet.dylibsForCache.flatMap (fun aFile =>
      warningsOf realpath volumePrefix fileSet.archName
        (findDuplicateInstallNames fileSet.dylibsForCache) aFile skipDylibs) ∧
    lines.length = ((result.otherDylibsAndBundles.drop
      fileSet.otherDylibsAndBundles.length).filter
        (fun aFile => !excludedByPath fileSet.archName aFile skipDylibs)).length ∧
    (∀ aFile ∈ fileSet.dylibsForCache,
      excludedByPath fileSet.archName aFile skipDylibs = true →
      aFile ∈ result.otherDylibsAndBundles.drop fileSet.otherDylibsAndBundles.length ∧
      aFile ∉ result.dylibsForCache ∧
      warningsOf realpath volumePrefix fileSet.archName
        (findDuplicateInstallNames fileSet.dylibsForCache) aFile skipDylibs = []) := by
  obtain ⟨_, hkept, hother, _⟩ := pruneCachedDylibs_eq_some _ _ _ _ _ _ hrun
  have hflags := pruneCachedDylibs_flags _ _ _ _ _ _ hrun
  have hlines := pruneCachedDylibs_lines _ _ _ _ _ _ hrun
  have hdrop : result.otherDylibsAndBundles.drop fileSet.otherDylibsAndBundles.length =
      fileSet.dylibsForCache.filter (fun aFile =>
        decide (dontCacheFlag realpath volumePrefix fileSet.archName
          (findDuplicateInstallNames fileSet.dylibsForCache) aFile skipDylibs = some true)) := by
    rw [hother, List.drop_left]
  refine ⟨?_, hlines, ?_, ?_⟩
  · intro aFile hmem hdem hexcl
    rw [hdrop, List.mem_filter] at hdem
    have hflag := of_decide_eq_true hdem.2
    have hcases := (warningsOf_cases realpath volumePrefix fileSet.archName
      (findDuplicateInstallNames fileSet.dylibsForCache) aFile skipDylibs).2.2 hexcl hflag
    have hin : ∀ line, warningsOf realpath volumePrefix fileSet.archName
        (findDuplicateInstallNames fileSet.dylibsForCache) aFile skipDylibs = [line] →
        line ∈ lines := by
      intro line hline
      rw [hlines, List.mem_flatMap]
      exact ⟨aFile, hmem, by rw [hline]; exact List.mem_singleton_self _⟩
    cases hc : contains aFile.runtimePath "//" with
    | true => exact Or.inl (hin _ (hcases.1 hc))
    | false =>
      by_cases hd : aFile.runtimePath ∈ findDuplicateInstallNames fileSet.dylibsForCache
      · exact Or.inr (hin _ (hcases.2.1 hc hd))
      · exact Or.inl (hin _ (hcases.2.2 hc hd))
  · rw [hdrop, List.filter_filter, hlines]
    apply length_flatMap_eq_length_filter
    intro aFile hmem
    have hcases := warningsOf_cases realpath volumePrefix fileSet.archName
      (findDuplicateInstallNames fileSet.dylibsForCache) aFile skipDylibs
    cases hexcl : excludedByPath fileSet.archName aFile skipDylibs with
    | true =>
      rw [hcases.1 hexcl]
      simp
    | false =>
      rcases hflags aFile hmem with hflag | hflag
      · have hone := hcases.2.2 hexcl hflag
        have hlen : (warningsOf realpath volumePrefix fileSet.archName
            (findDuplicateInstallNames fileSet.dylibsForCache) aFile skipDylibs).length = 1 := by
          cases hc : contains aFile.runtimePath "//" with
          | true => rw [hone.1 hc]; rfl
          | false =>
            by_cases hd : aFile.runtimePath ∈ findDuplicateInstallNames fileSet.dylibsForCache
            · rw [hone.2.1 hc hd]; rfl
            · rw [hone.2.2 hc hd]; rfl
        rw [hlen]
        simp [hflag]
      · rw [hcases.2.1 hflag]
        simp [hflag]
  · intro aFile hmem hexcl
    have hflag : dontCacheFlag realpath volumePrefix fileSet.archName
        (findDuplicateInstallNames fileSet.dylibsForCache) aFile skipDylibs = some true := by
      rcases hflags aFile hmem with h | h
      · exact h
      · rw [dontCacheFlag_eq_some_false_iff] at h
        rw [h.1] at hexcl
        cases hexcl
    refine ⟨?_, ?_, (warningsOf_cases realpath volumePrefix fileSet.archName
      (findDuplicateInstallNames fileSet.dylibsForCache) aFile skipDylibs).1 hexcl⟩
    · rw [hdrop, List.mem_filter]
      exact ⟨hmem, decide_eq_true hflag⟩
    · intro hk
      rw [hkept, List.mem_filter] at hk
      have := of_decide_eq_true hk.2
      rw [hflag] at this
      cases this

/-- Witness for C16 as amended: in `bundleBucket` the candidate `libFoo2` is demoted for its
duplicate install name with one warning, and `libInApp` is demoted for its `.app/` segment
with none. -/
theorem pruneCachedDylibs_warnings_witness :
    pruneCachedDylibs noSymlinks "" [] bundleBucket =
      some (bundlePruned, [duplicateInstallNameWarning "x86_64" "/usr/lib/libFoo2.dylib"]) ∧
    excludedByPath "x86_64" libInApp [] = true ∧ excludedByPath "x86_64" libFoo2 [] = false ∧
    ([duplicateInstallNameWarning "x86_64" "/usr/lib/libFoo2.dylib"].length =
      ((bundlePruned.otherDylibsAndBundles.drop bundleBucket.otherDylibsAndBundles.length).filter
        (fun aFile => !excludedByPath bundleBucket.archName aFile [])).length) :=
  ⟨by decide, by decide, by decide,
    (pruneCachedDylibs_warnings noSymlinks "" [] bundleBucket bundlePruned
      [duplicateInstallNameWarning "x86_64" "/usr/lib/libFoo2.dylib"] (by decide)).2.2.1⟩

/-- Counterexample to C16 as stated: `libLocal`, under the denied prefix `/usr/local/`, is
demoted from `dylibsForCache` to `otherDylibsAndBundles` and the pass prints no line at
all. -/
theorem pruneCachedDylibs_silent_demotion :
    libLocal ∈ localBucket.dylibsForCache ∧
    pruneCachedDylibs noSymlinks "" [] localBucket = some (localPruned, []) ∧
    libLocal ∉ localPruned.dylibsForCache ∧
    libLocal ∈ localPruned.otherDylibsAndBundles := by
  decide

/-! ## The cache directory and the blocks after a failure: claims C14 and C17 -/

theorem canonicalRootPath_ne_slash (world : World) (rootPath : String) :
    canonicalRootPath world rootPath ≠ "/" := by
  unfold canonicalRootPath
  by_cases h : rootPath = ""
  · rw [if_pos h, h]; decide
  · rw [if_neg h]
    dsimp only
    split_ifs with h2
    · decide
    · exact h2

theorem append_ne_self_of_ne_empty (first second : String) (h : first ≠ "") :
    second ≠ first ++ second := by
  intro heq
  apply h
  have hd := congrArg String.data heq
  rw [String.data_append] at hd
  have hlen := congrArg List.length hd
  rw [List.length_append] at hlen
  have hzero : first.data.length = 0 := by omega
  exact String.ext (List.length_eq_zero.1 hzero)

theorem not_mem_buildPrelude_setxattr (world : World) (locals : MainLocals)
    (fileSet : MappedMachOsByCategory) (path name : String) (uuid : List Nat) :
    Event.setxattr path name uuid ∉ buildPrelude world locals fileSet := by
  unfold buildPrelude
  cases world.removexattr (outFile locals fileSet) <;> simp

/-- C14. The directory that `main` selects when `-cache_dir` is not given: the canonicalized
root path is never `/`, so the test of source line 649 always holds and the directory is the
shared-cache directory inside the root path, also when `-overlay` is used; without `-root`
it is the shared-cache directory of the boot volume, and for an overlay path that is not
empty it differs from the shared-cache directory inside the overlay. -/
theorem localsOf_cacheDir_ignores_overlay (world : World) (options : ParsedOptions) :
    canonicalRootPath world options.rootPath ≠ "/" ∧
    (options.cacheDir = "" →
      (localsOf world options).cacheDir =
        canonicalRootPath world options.rootPath ++ world.sharedCacheDir) ∧
    (options.cacheDir = "" → options.rootPath = "" →
      (localsOf world options).cacheDir = world.sharedCacheDir ∧
      (canonicalOverlayPath world options.overlayPath ≠ "" →
        (localsOf world options).cacheDir ≠
          canonicalOverlayPath world options.overlayPath ++ world.sharedCacheDir)) := by
  have hdir : options.cacheDir = "" →
      (localsOf world options).cacheDir =
        canonicalRootPath world options.rootPath ++ world.sharedCacheDir := by
    intro hempty
    unfold localsOf selectCacheDir
    dsimp only
    rw [if_pos hempty, if_pos (canonicalRootPath_ne_slash world options.rootPath)]
  refine ⟨canonicalRootPath_ne_slash world options.rootPath, hdir, ?_⟩
  intro hempty hroot
  have hboot : (localsOf world options).cacheDir = world.sharedCacheDir := by
    rw [hdir hempty, hroot]
    unfold canonicalRootPath
    rw [if_pos rfl]
    exact String.ext (by rw [String.data_append]; rfl)
  refine ⟨hboot, ?_⟩
  intro hoverlay
  rw [hboot]
  exact append_ne_self_of_ne_empty _ _ hoverlay

/-- The run for C14: with `-overlay /Volumes/Overlay` and neither `-root` nor `-cache_dir`,
`main` makes the directory `/private/var/db/dyld/` of the boot volume and saves the x86_64
cache and its map there, not under `/Volumes/Overlay`. -/
theorem main_overlay_writes_to_boot_volume :
    parseOptions (overlayArgv.drop 1) {} = Except.ok overlayOptions ∧
    canonicalOverlayPath (sampleWorld true) overlayOptions.overlayPath = "/Volumes/Overlay" ∧
    (localsOf (sampleWorld true) overlayOptions).cacheDir = "/private/var/db/dyld/" ∧
    (localsOf (sampleWorld true) overlayOptions).cacheDir ≠
      "/Volumes/Overlay" ++ (sampleWorld true).sharedCacheDir ∧
    (main (sampleWorld true) overlayArgv [0, 1]).map
        (fun result => result.2.filter Event.isSafeSave) =
      some [Event.safeSave (SavedBuffer.cache sampleCache) 1
          "/private/var/db/dyld//dyld_shared_cache_x86_64" true,
        Event.safeSave (SavedBuffer.text "map") 3
          "/private/var/db/dyld//dyld_shared_cache_x86_64.map" true] :=
  ⟨rfl, by decide, by decide, by decide, by decide⟩

/-- C17. What a block does whose builder call returns no error message and whose artifact is
written, in a run where `cacheBuildFailure` may have been set by an earlier block: when the
flag was set before, the effects of the block end with the save of the artifact, no map file
is saved, no identity tag is set and `wroteSomeCacheFile` is left as it was; when the flag
was clear, the map file is saved and `wroteSomeCacheFile` is set. -/
theorem cacheBuildBlock_after_failure (world : World) (locals : MainLocals)
    (requireSIP : Bool) (fileSet : MappedMachOsByCategory) (state : RunState)
    (hgate : locals.force = true ∨ cacheIsFresh world locals requireSIP fileSet = false)
    (herr : (builderResults world locals requireSIP fileSet).errorMessage = "")
    (hsave : world.safeSave (outFile locals fileSet) = true) :
    artifactSave world locals requireSIP fileSet true ∈
      blockEvents world locals requireSIP fileSet state ∧
    (state.cacheBuildFailure = true →
      blockEvents world locals requireSIP fileSet state =
        blockPrelude world locals requireSIP fileSet ++
          (buildPrelude world locals (verifiedBucket world locals requireSIP fileSet) ++
            [artifactSave world locals requireSIP fileSet true]) ∧
      (∀ text bufferLen path saved, Event.safeSave (SavedBuffer.text text) bufferLen path saved ∉
        blockEvents world locals requireSIP fileSet state) ∧
      (∀ path name uuid, Event.setxattr path name uuid ∉
        blockEvents world locals requireSIP fileSet state) ∧
      (cacheBuildBlock world locals requireSIP fileSet state).wroteSomeCacheFile =
        state.wroteSomeCacheFile) ∧
    (state.cacheBuildFailure = false →
      Event.safeSave
        (SavedBuffer.text (builderResults world locals requireSIP fileSet).cacheContent.mapFile)
        (builderResults world locals requireSIP fileSet).cacheContent.mapFile.length
        (outFileMap locals fileSet)
        (world.safeSave (outFileMap locals fileSet)) ∈
        blockEvents world locals requireSIP fileSet state ∧
      (cacheBuildBlock world locals requireSIP fileSet state).wroteSomeCacheFile = true) := by
  have hopen : gateOpen world locals requireSIP fileSet = true := (gateOpen_iff _ _ _ _).2 hgate
  have hsave2 : world.safeSave (outFile locals (verifiedBucket world locals requireSIP fileSet)) =
      true := by
    rw [outFile_verifiedBucket]; exact hsave
  have htail : ∀ failedBefore, blockTail world locals requireSIP fileSet failedBefore =
      buildPrelude world locals (verifiedBucket world locals requireSIP fileSet) ++
        (if failedBefore = true then [artifactSave world locals requireSIP fileSet true]
         else artifactSave world locals requireSIP fileSet true ::
           afterSaveEvents world locals requireSIP fileSet) := by
    intro failedBefore
    unfold blockTail
    rw [if_neg (by rw [hopen]; exact Bool.noConfusion), if_neg (fun h => h herr),
      if_neg (by rw [hsave2]; exact Bool.noConfusion)]
  have hwrites : ∀ failedBefore,
      blockWrites world locals requireSIP fileSet failedBefore = !failedBefore := by
    intro failedBefore
    unfold blockWrites
    rw [hopen, hsave2, decide_eq_true herr]
    rfl
  refine ⟨?_, ?_, ?_⟩
  · rw [blockEvents_eq]
    exact List.mem_append_right _ (artifactSave_mem_blockTail _ _ _ _ _ hopen herr hsave2)
  · intro hfailed
    have hevents : blockEvents world locals requireSIP fileSet state =
        blockPrelude world locals requireSIP fileSet ++
          (buildPrelude world locals (verifiedBucket world locals requireSIP fileSet) ++
            [artifactSave world locals requireSIP fileSet true]) := by
      rw [blockEvents_eq, htail, hfailed, if_pos rfl]
    refine ⟨hevents, ?_, ?_, ?_⟩
    · intro text bufferLen path saved hmem
      rw [hevents] at hmem
      rcases List.mem_append.1 hmem with h | h
      · obtain ⟨line, hline⟩ := blockPrelude_stderr _ _ _ _ _ h
        cases hline
      · rcases List.mem_append.1 h with h1 | h1
        · exact not_mem_buildPrelude_safeSave _ _ _ _ _ _ _ h1
        · rw [List.mem_singleton] at h1
          unfold artifactSave at h1
          cases h1
    · intro path name uuid hmem
      rw [hevents] at hmem
      rcases List.mem_append.1 hmem with h | h
      · obtain ⟨line, hline⟩ := blockPrelude_stderr _ _ _ _ _ h
        cases hline
      · rcases List.mem_append.1 h with h1 | h1
        · exact not_mem_buildPrelude_setxattr _ _ _ _ _ _ h1
        · rw [List.mem_singleton] at h1
          unfold artifactSave at h1
          cases h1
    · rw [cacheBuildBlock_eq]
      dsimp only
      rw [hwrites, hfailed]
      simp
  · intro hclear
    constructor
    · rw [blockEvents_eq, htail, hclear, if_neg Bool.noConfusion]
      apply List.mem_append_right
      apply List.mem_append_right
      apply List.mem_cons_of_mem
      unfold afterSaveEvents
      apply List.mem_append_right
      exact List.mem_singleton.2 rfl
    · rw [cacheBuildBlock_eq]
      dsimp only
      rw [hwrites, hclear]
      simp

/-- Witness for C17: the x86_64 block of the sample world, run after a block that has set
`cacheBuildFailure`, saves its artifact and leaves `wroteSomeCacheFile` clear. -/
theorem cacheBuildBlock_after_failure_witness :
    failedState.cacheBuildFailure = true ∧
    artifactSave (sampleWorld true) (localsOf (sampleWorld true) {}) false x86Bucket true ∈
      blockEvents (sampleWorld true) (localsOf (sampleWorld true) {}) false x86Bucket
        failedState ∧
    (cacheBuildBlock (sampleWorld true) (localsOf (sampleWorld true) {}) false x86Bucket
      failedState).wroteSomeCacheFile = false :=
  ⟨rfl,
    (cacheBuildBlock_after_failure (sampleWorld true) (localsOf (sampleWorld true) {}) false
      x86Bucket failedState (Or.inr (by decide)) (by decide) rfl).1,
    ((cacheBuildBlock_after_failure (sampleWorld true) (localsOf (sampleWorld true) {}) false
      x86Bucket failedState (Or.inr (by decide)) (by decide) rfl).2.1 rfl).2.2.2⟩

/-- The two runs for C17: in the sample world the builder fails for i386 and succeeds for
x86_64, and every file can be written. When the x86_64 block runs first, its cache and its
map file are saved; when the i386 block runs first, the x86_64 cache is saved and its map
file is not. -/
theorem main_map_file_depends_on_order :
    prunedFileSets (sampleWorld true) (localsOf (sampleWorld true) {}) =
      some ([x86Bucket, i386Bucket], []) ∧
    (builderResults (sampleWorld true) (localsOf (sampleWorld true) {}) false
      i386Bucket).errorMessage = "cache overflow" ∧
    (builderResults (sampleWorld true) (localsOf (sampleWorld true) {}) false
      x86Bucket).errorMessage = "" ∧
    (main (sampleWorld true) sampleArgv [0, 1]).map
        (fun result => (result.1, result.2.filter Event.isSafeSave)) =
      some (1, [Event.safeSave (SavedBuffer.cache sampleCache) 1
          "/private/var/db/dyld//dyld_shared_cache_x86_64" true,
        Event.safeSave (SavedBuffer.text "map") 3
          "/private/var/db/dyld//dyld_shared_cache_x86_64.map" true]) ∧
    (main (sampleWorld true) sampleArgv [1, 0]).map
        (fun result => (result.1, result.2.filter Event.isSafeSave)) =
      some (1, [Event.safeSave (SavedBuffer.cache sampleCache) 1
        "/private/var/db/dyld//dyld_shared_cache_x86_64" true]) := by
  decide

/-! ## The freshness check: the fast path and the failure of `mmap` -/

/-- The callback of `existingCacheUpToDate` does the same with and without the map of the
fast path. -/
theorem checkImageEntry_without_fast_path (verbose : Bool) (currentDylibs : List MappedMachO)
    (state : Bool × List String) (entry : ImageEntry) :
    checkImageEntry verbose (buildCurrentDylibMap currentDylibs) currentDylibs state entry =
      checkImageEntry verbose [] currentDylibs state entry := by
  by_cases h : ∃ aFile ∈ currentDylibs,
      aFile.inode = entry.inode ∧ aFile.modTime = entry.mTime
  · rw [checkImageEntry_of_match _ _ _ _ h]
    unfold checkImageEntry
    dsimp only
    rw [(slowPath_eq_true_iff currentDylibs entry).2 h]
    simp
  · have hslow : currentDylibs.any
        (fun aFile => aFile.inode == entry.inode && aFile.modTime == entry.mTime) = false := by
      rw [← Bool.not_eq_true, slowPath_eq_true_iff]; exact h
    have hfast : (match (buildCurrentDylibMap currentDylibs).lookup entry.installName with
        | some foundDylib => foundDylib.inode == entry.inode && foundDylib.modTime == entry.mTime
        | none => false) = false := by
      cases hl : (buildCurrentDylibMap currentDylibs).lookup entry.installName with
      | none => rfl
      | some foundDylib =>
        dsimp only
        rw [← Bool.not_eq_true]
        intro hm
        apply h
        refine ⟨foundDylib, mem_of_lookup_buildCurrentDylibMap _ _ _ hl, ?_⟩
        simpa using hm
    unfold checkImageEntry
    dsimp only
    rw [hfast, hslow]
    rfl

theorem foldl_checkImageEntry_without_fast_path (verbose : Bool)
    (currentDylibs : List MappedMachO) (entries : List ImageEntry) :
    ∀ state : Bool × List String,
      entries.foldl (checkImageEntry verbose (buildCurrentDylibMap currentDylibs) currentDylibs)
        state = entries.foldl (checkImageEntry verbose [] currentDylibs) state := by
  induction entries with
  | nil => intro state; rfl
  | cons entry rest ih =>
    intro state
    rw [List.foldl_cons, List.foldl_cons, checkImageEntry_without_fast_path, ih]

theorem existingCacheUpToDate_fresh_iff (openCache : String → CacheFile) (verbose : Bool)
    (existingCache : String) (currentDylibs : List MappedMachO) (entries : List ImageEntry)
    (hopen : openCache existingCache = CacheFile.mapped entries) :
    (existingCacheUpToDate openCache verbose existingCache currentDylibs).1 = true ↔
      ∀ entry ∈ entries, ∃ aFile ∈ currentDylibs,
        aFile.inode = entry.inode ∧ aFile.modTime = entry.mTime := by
  unfold existingCacheUpToDate
  rw [hopen]
  dsimp only
  constructor
  · intro hfresh entry hentry
    by_contra hno
    rw [foldl_checkImageEntry_of_some_no_match _ _ _ _ hentry hno] at hfresh
    cases hfresh
  · intro hall
    rw [foldl_checkImageEntry_of_all_match _ _ _ hall]
    rfl

/-- C18. The fast path of the freshness check never changes its result: for every artifact
that is mapped and every candidate sequence `S`, the entries are checked with the same
outcome, warnings included, as without the map of the fast path; `existingCacheUpToDate`
returns true if and only if for every embedded entry some candidate of `S` has the inode and
the modification time of the entry, whatever the runtime paths and install names are; so the
result is monotone in `S`, and an artifact without embedded entries is fresh for every
`S`. -/
theorem existingCacheUpToDate_fast_path (openCache : String → CacheFile) (verbose : Bool)
    (existingCache : String) (S : List MappedMachO) (entries : List ImageEntry)
    (hopen : openCache existingCache = CacheFile.mapped entries) :
    entries.foldl (checkImageEntry verbose (buildCurrentDylibMap S) S) (false, []) =
      entries.foldl (checkImageEntry verbose [] S) (false, []) ∧
    ((existingCacheUpToDate openCache verbose existingCache S).1 = true ↔
      ∀ entry ∈ entries, ∃ candidate ∈ S,
        candidate.inode = entry.inode ∧ candidate.modTime = entry.mTime) ∧
    (∀ larger : List MappedMachO, (∀ candidate ∈ S, candidate ∈ larger) →
      (existingCacheUpToDate openCache verbose existingCache S).1 = true →
      (existingCacheUpToDate openCache verbose existingCache larger).1 = true) ∧
    (entries = [] → ∀ other : List MappedMachO,
      (existingCacheUpToDate openCache verbose existingCache other).1 = true) := by
  refine ⟨foldl_checkImageEntry_without_fast_path _ _ _ _,
    existingCacheUpToDate_fresh_iff _ _ _ _ _ hopen, ?_, ?_⟩
  · intro larger hsub hfresh
    rw [existingCacheUpToDate_fresh_iff _ _ _ _ _ hopen] at hfresh ⊢
    intro entry hentry
    obtain ⟨candidate, hmem, hsame⟩ := hfresh entry hentry
    exact ⟨candidate, hsub candidate hmem, hsame⟩
  · intro hnil other
    rw [existingCacheUpToDate_fresh_iff _ _ _ _ _ hopen, hnil]
    intro entry hentry
    cases hentry

/-- Witness for C18: the cache built from `libFoo` and `libBar` is fresh for the two, also
though the install name of `libBar` is the runtime path of no candidate. -/
theorem existingCacheUpToDate_fast_path_witness :
    cacheBuiltFrom [libFoo, libBar] "/var/db/dyld/dyld_shared_cache_x86_64" =
      CacheFile.mapped [imageEntryOf libFoo, imageEntryOf libBar] ∧
    (buildCurrentDylibMap [libFoo, libBar]).lookup (imageEntryOf libBar).installName = none ∧
    ((existingCacheUpToDate (cacheBuiltFrom [libFoo, libBar]) true
        "/var/db/dyld/dyld_shared_cache_x86_64" [libFoo, libBar]).1 = true ↔
      ∀ entry ∈ [imageEntryOf libFoo, imageEntryOf libBar], ∃ candidate ∈ [libFoo, libBar],
        candidate.inode = entry.inode ∧ candidate.modTime = entry.mTime) ∧
    (existingCacheUpToDate (cacheBuiltFrom [libFoo, libBar]) true
      "/var/db/dyld/dyld_shared_cache_x86_64" [libFoo, libBar]).1 = true :=
  ⟨rfl, by decide,
    (existingCacheUpToDate_fast_path (cacheBuiltFrom [libFoo, libBar]) true
      "/var/db/dyld/dyld_shared_cache_x86_64" [libFoo, libBar]
      [imageEntryOf libFoo, imageEntryOf libBar] rfl).2.1,
    by decide⟩

/-- C19. For every candidate sequence, if the existing artifact of a bucket opens and `mmap`
fails, `existingCacheUpToDate` returns true and prints nothing, having compared no entry
(the result is the same for every candidate sequence); so in the block of the bucket, when
force is not set, the builder is not called, no identity tag is cleared or set, `safeSave`
is called for no file and the two flags are unchanged; when force is set the builder is
called. -/
theorem existingCacheUpToDate_cannot_map (world : World) (locals : MainLocals)
    (requireSIP : Bool) (fileSet : MappedMachOsByCategory) (state : RunState)
    (hmap : world.openCache (outFile locals fileSet) = CacheFile.cannotMap) :
    (∀ (verbose : Bool) (currentDylibs : List MappedMachO),
      existingCacheUpToDate world.openCache verbose (outFile locals fileSet) currentDylibs =
        (true, [])) ∧
    cacheIsFresh world locals requireSIP fileSet = true ∧
    (locals.force = false →
      (∀ event ∈ blockEvents world locals requireSIP fileSet state,
        event.isCreate = false ∧ event.isXattr = false ∧ event.isSafeSave = false) ∧
      (cacheBuildBlock world locals requireSIP fileSet state).cacheBuildFailure =
        state.cacheBuildFailure ∧
      (cacheBuildBlock world locals requireSIP fileSet state).wroteSomeCacheFile =
        state.wroteSomeCacheFile) ∧
    (locals.force = true →
      builderCall world locals requireSIP fileSet ∈
        blockEvents world locals requireSIP fileSet state) := by
  have hall : ∀ (verbose : Bool) (currentDylibs : List MappedMachO),
      existingCacheUpToDate world.openCache verbose (outFile locals fileSet) currentDylibs =
        (true, []) := by
    intro verbose currentDylibs
    unfold existingCacheUpToDate
    rw [hmap]
  have hfresh : cacheIsFresh world locals requireSIP fileSet = true := by
    unfold cacheIsFresh
    rw [outFile_verifiedBucket, hall]
  refine ⟨hall, hfresh, ?_, ?_⟩
  · intro hforce
    have hgate : gateOpen world locals requireSIP fileSet = false := by
      unfold gateOpen; rw [hforce, hfresh]; rfl
    refine ⟨?_, ?_, ?_⟩
    · intro event hmem
      rw [blockEvents_eq, blockTail_of_gate_closed _ _ _ _ _ hgate, List.append_nil] at hmem
      obtain ⟨line, rfl⟩ := blockPrelude_stderr _ _ _ _ event hmem
      exact ⟨rfl, rfl, rfl⟩
    · rw [cacheBuildBlock_of_gate_closed _ _ _ _ _ hgate]; rfl
    · rw [cacheBuildBlock_of_gate_closed _ _ _ _ _ hgate]; rfl
  · intro hforce
    rw [blockEvents_eq]
    exact List.mem_append_right _
      (builderCall_mem_blockTail _ _ _ _ _ ((gateOpen_iff _ _ _ _).2 (Or.inl hforce)))

/-- Witness for C19: in the world where caches open and cannot be mapped, the check of the
x86_64 bucket is fresh for every candidate sequence. -/
theorem existingCacheUpToDate_cannot_map_witness :
    unmappableWorld.openCache (outFile (localsOf unmappableWorld {}) x86Bucket) =
      CacheFile.cannotMap ∧
    (localsOf unmappableWorld {}).force = false ∧
    (∀ (verbose : Bool) (currentDylibs : List MappedMachO),
      existingCacheUpToDate unmappableWorld.openCache verbose
        (outFile (localsOf unmappableWorld {}) x86Bucket) currentDylibs = (true, [])) ∧
    cacheIsFresh unmappableWorld (localsOf unmappableWorld {}) false x86Bucket = true :=
  ⟨rfl, rfl,
    (existingCacheUpToDate_cannot_map unmappableWorld (localsOf unmappableWorld {}) false
      x86Bucket { } rfl).1,
    (existingCacheUpToDate_cannot_map unmappableWorld (localsOf unmappableWorld {}) false
      x86Bucket { } rfl).2.1⟩

end UpdateDyldSharedCache
